import Mathlib

/-! dune-grid: numbering maps, ALBERTA index/id sets and adaptation state, ALU2d iterators,
ALU3d entity keys and GeometryGrid entities.

A shallow embedding of the parts of the repository the verified properties are about,
followed by the theorems.  Sources embedded here:

* `grid/genericgeometry/conversion.hh`  (MapNumbering, MapNumberingProvider, topologyId,
  DuneGeometryType, DuneGeometryTypeProvider)
* `grid/albertagrid/indexsets.hh`       (AlbertaGridHierarchicIndexSet, AlbertaGridIdSet)
* `dune/grid/albertagrid/agrid.hh`      (AlbertaGrid::AdaptationState)
* `grid/alugrid/2d/iterator_imp.cc`     (ALU2d leaf, level, hierarchic and intersection
  iterators)
* `dune/grid/alugrid/3d/entitykey.hh`   (ALU3dGridEntityKey)
* `grid/geogrid/entity.hh`              (entities of GeometryGrid)

C++ `unsigned int` values are natural numbers reduced modulo `2^32`, `int` values integers
reduced to 32-bit two's complement.
-/

namespace Dune

/-! ## grid/genericgeometry/conversion.hh -/

namespace GenericGeometry

/-- Value range of the C++ type `unsigned int`. -/
def uintRange : Nat := 2 ^ 32

/-- Subtraction `a - b` of two `unsigned int` values (wraps around modulo `2^32`). -/
def usub (a b : Nat) : Nat := (a % uintRange + uintRange - b % uintRange) % uintRange

/-- Topology types `Point`, `Prism< Base >` and `Pyramid< Base >` (topologytypes.hh), the
template arguments of `MapNumbering`. -/
inductive Topology where
  | Point : Topology
  | Prism : Topology → Topology
  | Pyramid : Topology → Topology
  deriving DecidableEq, Repr

/-- Dimension of a topology: `Point` has dimension 0 and each extrusion adds one. -/
def Topology.dimension : Topology → Nat
  | .Point => 0
  | .Prism b => b.dimension + 1
  | .Pyramid b => b.dimension + 1

/-- The base structs the specialisations of `MapNumbering< Topology >` derive from. -/
inductive MapNumberingBase where
  | Identical
  | Triangle
  | Tetrahedron
  | Cube
  | Pyramid
  | Prism
  deriving DecidableEq, Repr

open Topology in
/-- The explicit specialisations `template<> struct MapNumbering< ... >` of conversion.hh
(lines 180-377).  The primary template is only declared, so every other topology has no
`MapNumbering` (`none`). -/
def MapNumbering : Topology → Option MapNumberingBase
  | Point => some .Identical
  | Prism Point => some .Identical
  | Pyramid Point => some .Identical
  | Pyramid (Pyramid Point) => some .Triangle
  | Pyramid (Prism Point) => some .Triangle
  | Prism (Pyramid Point) => some .Identical
  | Prism (Prism Point) => some .Identical
  | Pyramid (Pyramid (Pyramid Point)) => some .Tetrahedron
  | Pyramid (Pyramid (Prism Point)) => some .Tetrahedron
  | Prism (Prism (Pyramid Point)) => some .Cube
  | Prism (Prism (Prism Point)) => some .Cube
  | Pyramid (Prism (Pyramid Point)) => some .Pyramid
  | Pyramid (Prism (Prism Point)) => some .Pyramid
  | Prism (Pyramid (Pyramid Point)) => some .Prism
  | Prism (Pyramid (Prism Point)) => some .Prism
  | _ => none

/-- Read of a static C array `table[ i ]`; a read past the end of the array has no defined
value (`none`). -/
def readTable (table : List Nat) (i : Nat) : Option Nat := table[i]?

/-- The member template `dune2generic< codim >( i )` of each base struct. -/
def MapNumberingBase.dune2generic : MapNumberingBase → Nat → Nat → Option Nat
  | .Identical, _, i => some i
  | .Triangle, codim, i => some (if codim = 1 then usub 2 i else i)
  | .Tetrahedron, codim, i =>
      let edge := [0, 2, 1, 3, 4, 5]
      if codim = 1 then some (usub 3 i) else (if codim = 2 then readTable edge i else some i)
  | .Cube, codim, i =>
      let edge := [0, 1, 2, 3, 4, 5, 8, 9, 6, 7, 10, 11]
      if codim = 2 then readTable edge i else some i
  | .Pyramid, codim, i =>
      let vertex := [0, 1, 3, 2, 4]
      let edge := [2, 1, 3, 0, 4, 5, 7, 6]
      let face := [0, 3, 2, 4, 1]
      if codim = 3 then readTable vertex i
      else if codim = 2 then readTable edge i
      else if codim = 1 then readTable face i
      else some i
  | .Prism, codim, i =>
      let edge := [3, 5, 4, 0, 1, 2, 6, 8, 7]
      let face := [3, 0, 2, 1, 4]
      if codim = 2 then readTable edge i
      else if codim = 1 then readTable face i
      else some i

/-- The member template `generic2dune< codim >( i )` of each base struct. -/
def MapNumberingBase.generic2dune : MapNumberingBase → Nat → Nat → Option Nat
  | .Identical, _, i => some i
  | .Triangle, codim, i => MapNumberingBase.dune2generic .Triangle codim i
  | .Tetrahedron, codim, i => MapNumberingBase.dune2generic .Tetrahedron codim i
  | .Cube, codim, i => MapNumberingBase.dune2generic .Cube codim i
  | .Pyramid, codim, i =>
      let vertex := [0, 1, 3, 2, 4]
      let edge := [3, 1, 0, 2, 4, 5, 7, 6]
      let face := [0, 4, 2, 1, 3]
      if codim = 3 then readTable vertex i
      else if codim = 2 then readTable edge i
      else if codim = 1 then readTable face i
      else some i
  | .Prism, codim, i =>
      let edge := [3, 4, 5, 0, 2, 1, 6, 8, 7]
      let face := [1, 3, 2, 0, 4]
      if codim = 2 then readTable edge i
      else if codim = 1 then readTable face i
      else some i

/-- Embedding of `MapNumbering< Topology >::dune2generic< codim >( i )`; `none` when the topology has
no specialisation or the call reads past a table. -/
def dune2generic (top : Topology) (codim i : Nat) : Option Nat :=
  (MapNumbering top).bind (fun m => m.dune2generic codim i)

/-- Embedding of `MapNumbering< Topology >::generic2dune< codim >( i )`. -/
def generic2dune (top : Topology) (codim i : Nat) : Option Nat :=
  (MapNumbering top).bind (fun m => m.generic2dune codim i)

/-- Modelled from the spec: `Size< Topology, codim >::value` of subtopologies.hh, which is
not among the sources.  The number of sub-entities of codimension `codim` is tabulated per
reference shape as the specification lists it (vertices/edges/faces: triangle 3/3,
quadrilateral 4/4, tetrahedron 4/6/4, hexahedron 8/12/6, prism 6/9/5, pyramid 5/8/5; one
sub-entity of codimension 0; a line has two end points). -/
def subEntityCount : MapNumberingBase → Nat → Nat → Nat
  | _, _, 0 => 1
  | .Identical, 1, 1 => 2
  | .Identical, 2, 1 => 4
  | .Identical, 2, 2 => 4
  | .Triangle, _, 1 => 3
  | .Triangle, _, 2 => 3
  | .Tetrahedron, _, 1 => 4
  | .Tetrahedron, _, 2 => 6
  | .Tetrahedron, _, 3 => 4
  | .Cube, _, 1 => 6
  | .Cube, _, 2 => 12
  | .Cube, _, 3 => 8
  | .Pyramid, _, 1 => 5
  | .Pyramid, _, 2 => 8
  | .Pyramid, _, 3 => 5
  | .Prism, _, 1 => 5
  | .Prism, _, 2 => 9
  | .Prism, _, 3 => 6
  | _, _, _ => 0

/-- Modelled from the spec: `Size< Topology, codim >::value` for a topology, through the
reference shape `MapNumbering` assigns to it (0 for a topology without `MapNumbering`). -/
def Size (top : Topology) (codim : Nat) : Nat :=
  match MapNumbering top with
  | some m => subEntityCount m top.dimension codim
  | none => 0

/-- The vector `d2g` built by `MapNumberingProvider::Builder::Codim::apply`: it is resized
to `Size< Topology, codim >::value` and entry `j` is `dune2generic< codim >( j )`. -/
def providerDune2generic (top : Topology) (codim : Nat) : List (Option Nat) :=
  (List.range (Size top codim)).map (fun j => dune2generic top codim j)

/-- The vector `g2d` built by `MapNumberingProvider::Builder::Codim::apply`. -/
def providerGeneric2dune (top : Topology) (codim : Nat) : List (Option Nat) :=
  (List.range (Size top codim)).map (fun j => generic2dune top codim j)

/-- The fifteen topologies of dimension at most three, the ones with a `MapNumbering`. -/
def handledTopologies : List Topology :=
  open Topology in
  [Point, Prism Point, Pyramid Point,
   Pyramid (Pyramid Point), Pyramid (Prism Point), Prism (Pyramid Point), Prism (Prism Point),
   Pyramid (Pyramid (Pyramid Point)), Pyramid (Pyramid (Prism Point)),
   Prism (Prism (Pyramid Point)), Prism (Prism (Prism Point)),
   Pyramid (Prism (Pyramid Point)), Pyramid (Prism (Prism Point)),
   Prism (Pyramid (Pyramid Point)), Prism (Pyramid (Prism Point))]

end GenericGeometry

end Dune

namespace Dune

/-! ## grid/albertagrid/indexsets.hh -/

namespace Alberta

/-- Modelled from the spec: `Dune::IndexStack< int, 100000 >` of
dune/grid/common/indexstack.hh, which is not among the sources.  The specification
describes a counter ("dense range", seeded by `setMaxIndex`) together with a free list of
released indices.  Indices are natural numbers; the C++ `int` counter is assumed not to
overflow. -/
structure IndexStack where
  /-- The counter: upper end of the range of indices handed out so far. -/
  maxIndex : Nat
  /-- The free list: indices released by `freeIndex` and not handed out again. -/
  freed : List Nat

namespace IndexStack

/-- Modelled from the spec: a default constructed `IndexStack` (nothing handed out). -/
def empty : IndexStack := ⟨0, []⟩

/-- Modelled from the spec: `IndexStack::size`, "the updated dense upper bound per
codimension", the counter. -/
def size (s : IndexStack) : Nat := s.maxIndex

/-- Modelled from the spec: `IndexStack::getIndex`, which "returns the smallest unused
index, either by popping a freed slot or extending the dense range".  The result is the
index drawn and the stack afterwards. -/
def getIndex (s : IndexStack) : Nat × IndexStack :=
  match s.freed.min? with
  | some i => (i, { s with freed := s.freed.erase i })
  | none => (s.maxIndex, { s with maxIndex := s.maxIndex + 1 })

/-- Modelled from the spec: `IndexStack::freeIndex( i )`, which releases the index "back to
the free list". -/
def freeIndex (s : IndexStack) (i : Nat) : IndexStack :=
  { s with freed := i :: s.freed }

end IndexStack

end Alberta

/-- The data members of `AlbertaGridHierarchicIndexSet< dim, dimworld >` the numbering
works on.  Both C arrays have `dimension+1` entries and are indexed by the codimension;
`entityNumbers_[ codim ]` is the `int` array of a dof vector, indexed by the dof. -/
structure AlbertaGridHierarchicIndexSet where
  /-- The index stacks providing new numbers during adaptation, one per codimension. -/
  indexStack_ : Nat → Alberta.IndexStack
  /-- The dof vectors storing the (persistent) numbering, one per codimension. -/
  entityNumbers_ : Nat → Nat → Nat

namespace AlbertaGridHierarchicIndexSet

/-- Embedding of `Alberta::DofAccess< dim, codim >` (dofadmin.hh, not among the sources): the dof of
sub-entity `subEntity` of codimension `codim` of an element.  A parameter of the model;
elements are named by natural numbers. -/
abbrev DofAccess := Nat → Nat → Nat → Nat

/-- The index set after its constructor has run: default constructed index stacks, dof
vectors not created yet (`memory` is their arbitrary later content). -/
def construct (memory : Nat → Nat → Nat) : AlbertaGridHierarchicIndexSet :=
  ⟨fun _ => Alberta.IndexStack.empty, memory⟩

/-- Embedding of `size( int codim )`: `indexStack_[ codim ].size()`.  The `assert` on
`0 <= codim <= dimension` is the duty of the caller. -/
def size (h : AlbertaGridHierarchicIndexSet) (codim : Nat) : Nat :=
  (h.indexStack_ codim).size

/-- The statement `array[ dof ] = indexStack_.getIndex()` on the numbering of codimension
`codim`: the body of `InitEntityNumber::operator()` and of `RefineNumbering::operator()`. -/
def assignIndex (h : AlbertaGridHierarchicIndexSet) (codim dof : Nat) :
    AlbertaGridHierarchicIndexSet :=
  let r := (h.indexStack_ codim).getIndex
  { indexStack_ := fun c => if c = codim then r.2 else h.indexStack_ c
    entityNumbers_ := fun c d =>
      if c = codim then (if d = dof then r.1 else h.entityNumbers_ c d)
      else h.entityNumbers_ c d }

/-- Embedding of `InitEntityNumber::operator()( int &dof )`, applied by `forEach` to the entry `dof` of
the dof vector of codimension `codim`. -/
def InitEntityNumber (h : AlbertaGridHierarchicIndexSet) (codim dof : Nat) :
    AlbertaGridHierarchicIndexSet :=
  h.assignIndex codim dof

/-- Embedding of `CreateEntityNumbers< codim >::apply( dofNumbering, indexSet )`: the dof vector is
created and `forEach( init )` numbers its entries; `usedDofs` lists the entries of the dof
vector in the order `forEach` visits them. -/
def CreateEntityNumbers (h : AlbertaGridHierarchicIndexSet) (codim : Nat)
    (usedDofs : List Nat) : AlbertaGridHierarchicIndexSet :=
  usedDofs.foldl (fun h dof => h.InitEntityNumber codim dof) h

/-- Embedding of `create( dofNumbering )`: `ForLoop< CreateEntityNumbers, 0, dimension >`. -/
def create (h : AlbertaGridHierarchicIndexSet) (dimension : Nat)
    (usedDofs : Nat → List Nat) : AlbertaGridHierarchicIndexSet :=
  (List.range (dimension + 1)).foldl (fun h codim => h.CreateEntityNumbers codim (usedDofs codim)) h

/-- Embedding of `RefineNumbering< codim >::operator()( child, subEntity )`. -/
def RefineNumbering (dofAccess : DofAccess) (h : AlbertaGridHierarchicIndexSet)
    (codim child subEntity : Nat) : AlbertaGridHierarchicIndexSet :=
  let dof := dofAccess codim child subEntity
  h.assignIndex codim dof

/-- Embedding of `CoarsenNumbering< codim >::operator()( child, subEntity )`. -/
def CoarsenNumbering (dofAccess : DofAccess) (h : AlbertaGridHierarchicIndexSet)
    (codim child subEntity : Nat) : AlbertaGridHierarchicIndexSet :=
  let dof := dofAccess codim child subEntity
  { h with indexStack_ := fun c =>
      if c = codim then (h.indexStack_ c).freeIndex (h.entityNumbers_ codim dof)
      else h.indexStack_ c }

/-- Embedding of `subIndex< codim >( const Alberta::Element *element, int i )`; `none` when the
assertion `(subIndex >= 0) && (subIndex < size( codim ))` fails. -/
def subIndex (dofAccess : DofAccess) (h : AlbertaGridHierarchicIndexSet)
    (codim element i : Nat) : Option Nat :=
  let subIndex := h.entityNumbers_ codim (dofAccess codim element i)
  if subIndex < h.size codim then some subIndex else none

/-- Embedding of `index< codim >( entity )`: the entity implementation holds the element and the number
of the sub-entity (in ALBERTA numbering). -/
def index (dofAccess : DofAccess) (h : AlbertaGridHierarchicIndexSet)
    (codim element subEntity : Nat) : Option Nat :=
  h.subIndex dofAccess codim element subEntity

/-- Embedding of `subIndex< codim >( const Codim< 0 >::Entity &entity, int i )`; `dune2alberta` is the
renumbering `grid().dune2alberta( codim, i )` of the grid. -/
def subIndexEntity (dofAccess : DofAccess) (dune2alberta : Nat → Nat → Nat)
    (h : AlbertaGridHierarchicIndexSet) (codim element i : Nat) : Option Nat :=
  let j := dune2alberta codim i
  h.subIndex dofAccess codim element j

end AlbertaGridHierarchicIndexSet

namespace AlbertaGridIdSet

/-- Embedding of `static const int codimShift = 30`. -/
def codimShift : Nat := 30

/-- Embedding of `static const int maxCodimSize = (1 << codimShift)`. -/
def maxCodimSize : Nat := 1 <<< codimShift

/-- The expression `((IdType)codim << codimShift) + index` with `IdType = unsigned int`:
shift and sum are reduced modulo `2^32`. -/
def idValue (codim index : Nat) : Nat :=
  (((codim % 2 ^ 32) <<< codimShift) % 2 ^ 32 + index % 2 ^ 32) % 2 ^ 32

/-- Embedding of `id< codim >( e )`; `none` when the assertion `size( codim ) < maxCodimSize` or the
assertion inside `index` fails. -/
def id (dofAccess : AlbertaGridHierarchicIndexSet.DofAccess)
    (hIndexSet_ : AlbertaGridHierarchicIndexSet) (codim element subEntity : Nat) : Option Nat :=
  if hIndexSet_.size codim < maxCodimSize then
    (hIndexSet_.index dofAccess codim element subEntity).map (fun index => idValue codim index)
  else none

/-- Embedding of `subId< codim >( e, i )`. -/
def subId (dofAccess : AlbertaGridHierarchicIndexSet.DofAccess)
    (dune2alberta : Nat → Nat → Nat)
    (hIndexSet_ : AlbertaGridHierarchicIndexSet) (codim element i : Nat) : Option Nat :=
  if hIndexSet_.size codim < maxCodimSize then
    (hIndexSet_.subIndexEntity dofAccess dune2alberta codim element i).map
      (fun index => idValue codim index)
  else none

end AlbertaGridIdSet

/-! ### The adaptation callbacks as a transition system

ALBERTA calls `RefineNumbering` once for every sub-entity a refinement creates and
`CoarsenNumbering` once for every sub-entity a coarsening removes.  The set of sub-entities
(dofs) in use belongs to the mesh; it is carried along as `live`. -/

/-- One call of an adaptation callback. -/
inductive AdaptCallback where
  | refine (codim child subEntity : Nat)
  | coarsen (codim child subEntity : Nat)
  deriving DecidableEq, Repr

/-- The index set together with the dofs the mesh has in use, per codimension. -/
structure NumberedMesh where
  indexSet : AlbertaGridHierarchicIndexSet
  live : Nat → List Nat

namespace NumberedMesh

open AlbertaGridHierarchicIndexSet (DofAccess)

/-- State after `create()` on a mesh whose dof vector of codimension `c` has the entries
`usedDofs c`. -/
def created (memory : Nat → Nat → Nat) (dimension : Nat) (usedDofs : Nat → List Nat) :
    NumberedMesh :=
  ⟨(AlbertaGridHierarchicIndexSet.construct memory).create dimension usedDofs,
   fun c => if c ≤ dimension then usedDofs c else []⟩

/-- Effect of one callback: the sub-entity comes into use (refinement) or goes out of use
(coarsening), and the index set runs `RefineNumbering` or `CoarsenNumbering`. -/
def step (dofAccess : DofAccess) (m : NumberedMesh) : AdaptCallback → NumberedMesh
  | .refine codim child subEntity =>
      ⟨m.indexSet.RefineNumbering dofAccess codim child subEntity,
       fun c => if c = codim then dofAccess codim child subEntity :: m.live c else m.live c⟩
  | .coarsen codim child subEntity =>
      ⟨m.indexSet.CoarsenNumbering dofAccess codim child subEntity,
       fun c => if c = codim then (m.live c).erase (dofAccess codim child subEntity)
                else m.live c⟩

/-- A sequence of callbacks, in order. -/
def run (dofAccess : DofAccess) (m : NumberedMesh) (calls : List AdaptCallback) : NumberedMesh :=
  calls.foldl (step dofAccess) m

/-- The callback protocol at one call: `RefineNumbering` is called on a sub-entity that is
newly created (not in use before), `CoarsenNumbering` on a sub-entity in use, which
vanishes; in particular no index is released twice. -/
def legalCall (dofAccess : DofAccess) (dimension : Nat) (m : NumberedMesh) :
    AdaptCallback → Bool
  | .refine codim child subEntity =>
      decide (codim ≤ dimension) && !((m.live codim).contains (dofAccess codim child subEntity))
  | .coarsen codim child subEntity =>
      decide (codim ≤ dimension) && (m.live codim).contains (dofAccess codim child subEntity)

/-- The callback protocol along a sequence of calls. -/
def legalRun (dofAccess : DofAccess) (dimension : Nat) :
    NumberedMesh → List AdaptCallback → Bool
  | _, [] => true
  | m, call :: calls =>
      legalCall dofAccess dimension m call && legalRun dofAccess dimension (step dofAccess m call) calls

/-- The indices stored for the sub-entities of codimension `codim` in use. -/
def liveIndices (m : NumberedMesh) (codim : Nat) : List Nat :=
  (m.live codim).map (m.indexSet.entityNumbers_ codim)

/-- The dofs `RefineNumbering< codim >` is called with in a sequence of calls. -/
def refinedDofs (dofAccess : DofAccess) (codim : Nat) : List AdaptCallback → List Nat
  | [] => []
  | .refine c child subEntity :: calls =>
      if c = codim then dofAccess c child subEntity :: refinedDofs dofAccess codim calls
      else refinedDofs dofAccess codim calls
  | .coarsen _ _ _ :: calls => refinedDofs dofAccess codim calls

/-- The dofs any callback of codimension `codim` is called with in a sequence of calls. -/
def touchedDofs (dofAccess : DofAccess) (codim : Nat) : List AdaptCallback → List Nat
  | [] => []
  | .refine c child subEntity :: calls =>
      if c = codim then dofAccess c child subEntity :: touchedDofs dofAccess codim calls
      else touchedDofs dofAccess codim calls
  | .coarsen c child subEntity :: calls =>
      if c = codim then dofAccess c child subEntity :: touchedDofs dofAccess codim calls
      else touchedDofs dofAccess codim calls

/-- The numbering of codimension `codim` is consistent with the dofs `live` in use: no dof
is listed twice, and the indices stored for them together with the indices on the free
list are exactly `0 .. size( codim )-1`, each once. -/
def ConsistentAt (h : AlbertaGridHierarchicIndexSet) (live : List Nat) (codim : Nat) : Prop :=
  live.Nodup ∧
  (live.map (h.entityNumbers_ codim) ++ (h.indexStack_ codim).freed).Perm
    (List.range (h.size codim))

end NumberedMesh

/-! ### A small mesh used in examples -/

namespace Examples

/-- Dof access of the examples: the dof of a sub-entity is the number of the element it is
reached through (exact for codimension 0, where every element carries one dof). -/
def dofByChild : AlbertaGridHierarchicIndexSet.DofAccess := fun _ child _ => child

/-- Dofs of two macro triangles sharing an edge: elements 0 and 1, five edges, four
vertices. -/
def twoTrianglesDofs : Nat → List Nat :=
  fun c => if c = 0 then [0, 1] else if c = 1 then [0, 1, 2, 3, 4] else [0, 1, 2, 3]

/-- The two macro triangles after `create()`. -/
def twoTriangles : NumberedMesh :=
  NumberedMesh.created (fun _ _ => 0) 2 twoTrianglesDofs

/-- Element 0 is refined into the children 2 and 3, element 1 into the children 4 and 5,
then the children of element 0 are coarsened away again (callbacks of codimension 0). -/
def refineBothCoarsenFirst : List AdaptCallback :=
  [.refine 0 2 0, .refine 0 3 0, .refine 0 4 0, .refine 0 5 0, .coarsen 0 2 0, .coarsen 0 3 0]

end Examples

end Dune

namespace Dune

/-! ## grid/alugrid/2d/iterator_imp.cc -/

namespace ALU2d

/-! ### The refinement tree the hierarchic iterator walks

`HElementType` (`ALU2DSPACE Hmesh_basic::helement_t`) belongs to the ALUGrid library; the
iterator uses its members `down()` (first child), `next()` (next sibling), `father()` and
`level()`.  An element is modelled by its level and the list of its children; a pointer to
an element is its address, the child numbers from the element up to the macro element. -/

/-- An element of a refinement tree: its level and its children, first child first. -/
inductive HElement where
  | node (level : Int) (children : List HElement) : HElement

/-- Pointer to an element of a refinement tree: the numbers of the children taken from the
element up to the macro element (`[]` is the macro element itself). -/
abbrev HElementPtr := List Nat

namespace HElement

/-- Level stored in the element. -/
def storedLevel : HElement → Int
  | node l _ => l

/-- Children of the element. -/
def children : HElement → List HElement
  | node _ cs => cs

/-- The element a pointer refers to, if the pointer is an address of the tree. -/
def get? (t : HElement) : HElementPtr → Option HElement
  | [] => some t
  | k :: p =>
    match get? t p with
    | some e => e.children[k]?
    | none => none

mutual
/-- Every child has the level of its father plus one, throughout the tree. -/
def wellLevelled : HElement → Bool
  | node l cs => wellLevelledChildren l cs
/-- All elements of a list of children of a father of level `l` have level `l + 1` and are
well levelled themselves. -/
def wellLevelledChildren : Int → List HElement → Bool
  | _, [] => true
  | l, c :: cs => decide (c.storedLevel = l + 1) && c.wellLevelled && wellLevelledChildren l cs
end

mutual
/-- The strict descendants of the element `e` at address `p`, in depth-first pre-order: an
element comes before its children and a child with all its descendants before its next
sibling. -/
def descendants (p : HElementPtr) : HElement → List HElementPtr
  | node _ cs => descendantsOfChildren p 0 cs
/-- Pre-order listing of the children `cs` of the element at `p`, the first of them being
child number `k`, each followed by its descendants. -/
def descendantsOfChildren (p : HElementPtr) (k : Nat) : List HElement → List HElementPtr
  | [] => []
  | c :: cs => ((k :: p) :: descendants (k :: p) c) ++ descendantsOfChildren p (k + 1) cs
end

end HElement

/-- Embedding of `helement_t::down()`: the first child, or null. -/
def down (t : HElement) (p : HElementPtr) : Option HElementPtr :=
  match t.get? (0 :: p) with
  | some _ => some (0 :: p)
  | none => none

/-- Embedding of `helement_t::next()`: the next sibling, or null. -/
def next (t : HElement) : HElementPtr → Option HElementPtr
  | [] => none
  | k :: p =>
    match t.get? ((k + 1) :: p) with
    | some _ => some ((k + 1) :: p)
    | none => none

/-- Embedding of `helement_t::father()`: the father, or null for the macro element. -/
def father : HElementPtr → Option HElementPtr
  | [] => none
  | _ :: p => some p

/-- Embedding of `helement_t::level()`. -/
def level (t : HElement) (p : HElementPtr) : Int :=
  match t.get? p with
  | some e => e.storedLevel
  | none => 0

/-- Data members of `ALU2dGridHierarchicIterator`: `item_` of the entity pointer base class
(null once `done()` was called) and `elem_`, `maxlevel_`, `endIter_`. -/
structure ALU2dGridHierarchicIterator where
  item_ : Option HElementPtr
  elem_ : HElementPtr
  maxlevel_ : Int
  endIter_ : Bool
  deriving DecidableEq, Repr

namespace ALU2dGridHierarchicIterator

/-- The normal constructor (lines 1037-1065).  `updateEntityPointer( item )` and `done()`
of the entity pointer base class set and clear `item_`. -/
def construct (t : HElement) (elem : HElementPtr) (maxlevel : Int) (endFlag : Bool) :
    ALU2dGridHierarchicIterator :=
  let done : ALU2dGridHierarchicIterator := ⟨none, elem, maxlevel, endFlag⟩
  if !endFlag then
    match down t elem with
    | some item =>
      if level t item ≤ maxlevel then ⟨some item, elem, maxlevel, endFlag⟩
      else done
    | none => done
  else done

/-- The loop `while( !nextelem->next() ) { nextelem = nextelem->father();
if( nextelem == elem_ ) return 0; }` of `goNextElement` followed by
`if( nextelem ) nextelem = nextelem->next(); return nextelem;`, started with `nextelem`
pointing to an element.  The father of `k :: q` is `q`; for the macro element the father
is null and the next evaluation of the loop condition dereferences it: undefined
behaviour (outer `none`).  The inner option is the pointer returned. -/
def whileNoNext (t : HElement) (elem_ : HElementPtr) : HElementPtr → Option (Option HElementPtr)
  | [] =>
    match next t [] with
    | some n => some (some n)
    | none => none
  | k :: q =>
    match next t (k :: q) with
    | some n => some (some n)
    | none => if q = elem_ then some none else whileNoNext t elem_ q

/-- Third part of `goNextElement` (lines 1100-1111): `nextelem = oldelem->father();
if( nextelem == elem_ ) return 0;` followed by the loop.  A null father is not `elem_` and
is dereferenced by the loop condition. -/
def goNextElementViaFather (t : HElement) (elem_ : HElementPtr) (oldelem : HElementPtr) :
    Option (Option HElementPtr) :=
  match father oldelem with
  | none => none
  | some nextelem => if nextelem = elem_ then some none else whileNoNext t elem_ nextelem

/-- Second part of `goNextElement` (lines 1093-1098): `nextelem = oldelem->next()` is
returned when it is not null and its level is at most `maxlevel_`. -/
def goNextElementViaNext (t : HElement) (elem_ : HElementPtr) (maxlevel_ : Int)
    (oldelem : HElementPtr) : Option (Option HElementPtr) :=
  match next t oldelem with
  | some nextelem =>
    if level t nextelem ≤ maxlevel_ then some (some nextelem)
    else goNextElementViaFather t elem_ oldelem
  | none => goNextElementViaFather t elem_ oldelem

/-- Embedding of `goNextElement( oldelem )` (lines 1078-1112): `nextelem = oldelem->down()` is returned
when it is not null and its level is at most `maxlevel_`, otherwise the function goes on
with `next()` and `father()`.  The inner option is the pointer returned (null: no next
element); the outer one is `none` when a null pointer is dereferenced. -/
def goNextElement (t : HElement) (elem_ : HElementPtr) (maxlevel_ : Int)
    (oldelem : HElementPtr) : Option (Option HElementPtr) :=
  match down t oldelem with
  | some nextelem =>
    if level t nextelem ≤ maxlevel_ then some (some nextelem)
    else goNextElementViaNext t elem_ maxlevel_ oldelem
  | none => goNextElementViaNext t elem_ maxlevel_ oldelem

/-- Embedding of `increment()` (lines 1116-1130); `none` when the assertion `item_ != 0` fails or
`goNextElement` dereferences a null pointer. -/
def increment (t : HElement) (it : ALU2dGridHierarchicIterator) :
    Option ALU2dGridHierarchicIterator :=
  match it.item_ with
  | none => none
  | some item =>
    match goNextElement t it.elem_ it.maxlevel_ item with
    | none => none
    | some none => some { it with item_ := none }
    | some (some nextItem) => some { it with item_ := some nextItem }

/-- The iterator after `n` calls of `increment()`. -/
def incrementN (t : HElement) : Nat → ALU2dGridHierarchicIterator →
    Option ALU2dGridHierarchicIterator
  | 0, it => some it
  | n + 1, it => (incrementN t n it).bind (increment t)

/-- The elements the iterator points to while it is incremented until it is at end
(`item_` null); `none` when an increment is undefined or `fuel` increments do not reach the
end. -/
def traverse (t : HElement) : Nat → ALU2dGridHierarchicIterator → Option (List HElementPtr)
  | 0, it =>
    match it.item_ with
    | none => some []
    | some _ => none
  | fuel + 1, it =>
    match it.item_ with
    | none => some []
    | some item => (increment t it).bind (fun it' => (traverse t fuel it').map (item :: ·))

/-- What a hierarchic traversal from `elem` with bound `maxlevel` has to visit: the strict
descendants of `elem` whose level is at most `maxlevel`, in depth-first pre-order. -/
def expected (t : HElement) (elem : HElementPtr) (maxlevel : Int) : List HElementPtr :=
  match t.get? elem with
  | some e => (e.descendants elem).filter (fun q => decide (level t q ≤ maxlevel))
  | none => []

/-- The list `visited` is a run of the iterator from the position `start`: the iterator
points to the elements of `visited` one after the other, `goNextElement` leading from each
to the next, and the position after the last one is `stop` (null: at end). -/
def Run (t : HElement) (elem_ : HElementPtr) (maxlevel_ : Int) :
    Option HElementPtr → List HElementPtr → Option HElementPtr → Prop
  | start, [], stop => start = stop
  | start, p :: visited, stop =>
    start = some p ∧ ∃ z, goNextElement t elem_ maxlevel_ p = some z ∧
      Run t elem_ maxlevel_ z visited stop

end ALU2dGridHierarchicIterator

end ALU2d

namespace Examples

/-- A macro triangle of level 0, refined twice on its first child. -/
def refinedTriangle : ALU2d.HElement :=
  .node 0 [.node 1 [.node 2 [], .node 2 [.node 3 [], .node 3 []]], .node 1 []]

end Examples

end Dune

namespace Dune

namespace ALU2d

/-! ### Level iterator for vertices (codimension 2)

The walk over the elements of a level (`IteratorType`, an ALUGrid level walk) is modelled
by the list of the elements still to come: its head is `iter->getitem()`, `iter->next()`
drops the head and `iter->done()` holds for the empty list.  Elements are values of a type
`HElementType`; `vertexIndex e i` is `e.vertex( i )->getIndex()`. -/

/-- Data members of `ALU2dGridLevelIterator< 2, pitype, GridImp >`.  `current` is the state
of the entity pointer base class: the vertex (by its index) and the face number passed to
the last `updateEntityPointer`, or `none` after `done()` and for a pointer that was never
set.  The members `item_` and `vertex_` are assigned before every use and are treated as
local variables. -/
structure ALU2dGridLevelIterator2 (HElementType : Type) where
  endIter_ : Bool
  level_ : Int
  face_ : Nat
  nrOfVertices_ : Nat
  indexList : List Nat
  iter_ : List HElementType
  current : Option (Nat × Nat)

namespace ALU2dGridLevelIterator2

variable {HElementType : Type}

/-- The constructor for cd=2 (lines 893-924): `indexList` gets `nrOfVertices_` zeros;
for a begin iterator on a non-empty walk vertex 0 of the first element is marked and
becomes the current entity.  `none` when the write to `indexList` is out of bounds. -/
def construct (vertexIndex : HElementType → Nat → Nat) (elements : List HElementType)
    (level : Int) (nrOfVertices : Nat) (endFlag : Bool) :
    Option (ALU2dGridLevelIterator2 HElementType) :=
  let indexList := List.replicate nrOfVertices 0
  if !endFlag then
    match elements with
    | item :: rest =>
      let vertex := vertexIndex item 0
      if vertex < nrOfVertices then
        some ⟨endFlag, level, 0, nrOfVertices, indexList.set vertex 1, item :: rest,
          some (vertex, 0)⟩
      else none
    | [] => some ⟨endFlag, level, 0, nrOfVertices, indexList, [], none⟩
  else some ⟨true, level, 0, nrOfVertices, indexList, [], none⟩

/-- The loop `while( face_ < 3 )` of `increment` (lines 987-996) on the element `item`.
The loop body runs at most three times; `fuel` bounds the number of iterations and 3 is
always enough.  The result is `face_`, `indexList` and `goNext` after the loop; `none` when
`indexList` is read out of bounds. -/
def vertexLoop (vertexIndex : HElementType → Nat → Nat) (item : HElementType) :
    Nat → Nat → List Nat → Option (Nat × List Nat × Bool)
  | 0, face, indexList => some (face, indexList, true)
  | fuel + 1, face, indexList =>
    if face < 3 then
      let idx := vertexIndex item face
      match indexList[idx]? with
      | none => none
      | some flag =>
        if flag = 0 then some (face, indexList.set idx 1, false)
        else vertexLoop vertexIndex item fuel (face + 1) indexList
    else some (face, indexList, true)

/-- Embedding of `increment` (lines 976-1025) for an iterator that is not at end, by recursion on the
remaining walk `iter` (the function calls itself after `iter->next()`).  `none` when
`getitem()` is called on a finished walk or `indexList` is accessed out of bounds. -/
def incrementWalk (vertexIndex : HElementType → Nat → Nat) :
    List HElementType → ALU2dGridLevelIterator2 HElementType →
      Option (ALU2dGridLevelIterator2 HElementType)
  | [], _ => none
  | item :: rest, it =>
    match vertexLoop vertexIndex item 3 it.face_ it.indexList with
    | none => none
    | some (face, indexList, goNext) =>
      if goNext then
        match rest with
        | [] =>
          some { it with endIter_ := true, face_ := 0, indexList := indexList,
                         iter_ := [], current := none }
        | item' :: _ =>
          incrementWalk vertexIndex rest
            { it with face_ := 0, indexList := indexList, iter_ := rest,
                      current := some (vertexIndex item' 0, 0) }
      else
        some { it with face_ := face + 1, indexList := indexList, iter_ := item :: rest,
                       current := some (vertexIndex item face, face) }

/-- Embedding of `increment` (lines 976-1025). -/
def increment (vertexIndex : HElementType → Nat → Nat)
    (it : ALU2dGridLevelIterator2 HElementType) :
    Option (ALU2dGridLevelIterator2 HElementType) :=
  if it.endIter_ then some it
  else incrementWalk vertexIndex it.iter_ it

/-- The vertex indices the iterator yields while it is incremented until the entity
pointer is at end; `none` when an increment is undefined or `fuel` increments do not reach
the end. -/
def traverse (vertexIndex : HElementType → Nat → Nat) :
    Nat → ALU2dGridLevelIterator2 HElementType → Option (List Nat)
  | 0, it =>
    match it.current with
    | none => some []
    | some _ => none
  | fuel + 1, it =>
    match it.current with
    | none => some []
    | some (vertex, _) =>
      (increment vertexIndex it).bind
        (fun it' => (traverse vertexIndex fuel it').map (vertex :: ·))

end ALU2dGridLevelIterator2

/-- The entries of a list that did not occur before (in the list or in `seen`), in the
order of the list. -/
def keepNew : List Nat → List Nat → List Nat
  | _, [] => []
  | seen, x :: xs => if x ∈ seen then keepNew seen xs else x :: keepNew (x :: seen) xs

/-- The entries of a list in order of first occurrence, each once. -/
def firstOccurrences (l : List Nat) : List Nat := keepNew [] l

/-- The vertex indices of the corners 0, 1, 2 of the elements of a walk: elements in
traversal order, corners in increasing number. -/
def cornerIndices {HElementType : Type} (vertexIndex : HElementType → Nat → Nat)
    (elements : List HElementType) : List Nat :=
  elements.flatMap (fun e => [vertexIndex e 0, vertexIndex e 1, vertexIndex e 2])

/-- The vertex indices of the corners `face, ..., 2` of one element. -/
def cornersFrom {HElementType : Type} (vertexIndex : HElementType → Nat → Nat)
    (e : HElementType) (face : Nat) : List Nat :=
  (List.range' face (3 - face)).map (vertexIndex e)

/-- The corners the vertex iterator still has to look at: those of the current element from
`face` on, then those of the elements to come. -/
def pendingCorners {HElementType : Type} (vertexIndex : HElementType → Nat → Nat) :
    List HElementType → Nat → List Nat
  | [], _ => []
  | e :: rest, face => cornersFrom vertexIndex e face ++ cornerIndices vertexIndex rest

/-- The array `indexList` of length `n` marks exactly the vertex indices in `seen`: an
entry is zero iff its index is not in `seen`. -/
def Marks (n : Nat) (indexList : List Nat) (seen : List Nat) : Prop :=
  indexList.length = n ∧ ∀ i, i < n → (indexList[i]? = some 0 ↔ i ∉ seen)

/-- All corners of all elements of a walk have a vertex index below `n`. -/
def CornersBelow {HElementType : Type} (vertexIndex : HElementType → Nat → Nat)
    (n : Nat) (elements : List HElementType) : Prop :=
  ∀ e ∈ elements, ∀ i, i < 3 → vertexIndex e i < n

/-- The vertex iterator `it` is at a position from which exactly the vertex indices
`remaining` are yielded until the end: either it is at end and nothing remains, or it
points to the first of them and the rest are the new ones among the pending corners. -/
def ALU2dGridLevelIterator2.Yields {HElementType : Type}
    (vertexIndex : HElementType → Nat → Nat) (n : Nat)
    (it : ALU2dGridLevelIterator2 HElementType) (remaining : List Nat) : Prop :=
  (it.current = none ∧ remaining = []) ∨
  (∃ v face seen, it.current = some (v, face) ∧ it.endIter_ = false ∧ it.iter_ ≠ [] ∧
    CornersBelow vertexIndex n it.iter_ ∧ Marks n it.indexList seen ∧ it.face_ ≤ 3 ∧
    remaining = v :: keepNew seen (pendingCorners vertexIndex it.iter_ it.face_))

/-! ### Leaf iterator for edges (codimension 1)

`normaldir e i` is `e.normaldir( i )` of the ALUGrid element. -/

/-- Embedding of `CheckElementType< 1, pitype, GridImp >::checkFace( item, face, level )` (lines
538-549): `face` is advanced to the first face from `face` on with `normaldir == 1`.  The
loop body runs at most three times (`fuel`).  The result is the value returned and `face`
afterwards. -/
def checkFace {HElementType : Type} (normaldir : HElementType → Nat → Int)
    (item : HElementType) : Nat → Nat → Nat × Nat
  | 0, face => (1, face)
  | fuel + 1, face =>
    if face < 3 then
      if normaldir item face = 1 then (0, face)
      else checkFace normaldir item fuel (face + 1)
    else (1, face)

/-- Data members of `ALU2dGridLeafIterator< 1, pitype, GridImp >`.  `current` is the state
of the entity pointer base class: the element `item_` and the face number passed to the
last `updateEntityPointer`, or `none` after `done()` and for a pointer never set.  The
member `elem_` is assigned before every use and is treated as a local variable. -/
structure ALU2dGridLeafIterator1 (HElementType : Type) where
  endIter_ : Bool
  level_ : Int
  face_ : Nat
  iter_ : List HElementType
  current : Option (HElementType × Nat)

namespace ALU2dGridLeafIterator1

variable {HElementType : Type}

/-- Embedding of `increment` (lines 628-672) with `cdim == 1` for an iterator that is not at end, by
recursion on the remaining walk `iter` (the function calls itself after `iter->next()`).
`none` when `item_` is null or `getitem()` is called on a finished walk. -/
def incrementWalk (normaldir : HElementType → Nat → Int) :
    List HElementType → ALU2dGridLeafIterator1 HElementType →
      Option (ALU2dGridLeafIterator1 HElementType)
  | [], _ => none
  | elem :: rest, it =>
    match it.current with
    | none => none
    | some (item, _) =>
      let r := checkFace normaldir item 3 it.face_
      if r.1 ≠ 0 then
        match rest with
        | [] => some { it with endIter_ := true, face_ := 0, iter_ := [], current := none }
        | elem' :: _ =>
          incrementWalk normaldir rest
            { it with face_ := 0, iter_ := rest, current := some (elem', 0) }
      else
        some { it with face_ := r.2 + 1, iter_ := elem :: rest, current := some (elem, r.2) }

/-- Embedding of `increment` (lines 628-672) with `cdim == 1`. -/
def increment (normaldir : HElementType → Nat → Int)
    (it : ALU2dGridLeafIterator1 HElementType) :
    Option (ALU2dGridLeafIterator1 HElementType) :=
  if it.endIter_ then some it
  else incrementWalk normaldir it.iter_ it

/-- The constructor (lines 570-598) with `cdim == 1`: for a begin iterator on a non-empty
walk the entity pointer is set to face 0 of the first element and `increment` is called
once. -/
def construct (normaldir : HElementType → Nat → Int) (elements : List HElementType)
    (endFlag : Bool) : Option (ALU2dGridLeafIterator1 HElementType) :=
  if !endFlag then
    match elements with
    | elem :: rest =>
      increment normaldir ⟨endFlag, -1, 0, elem :: rest, some (elem, 0)⟩
    | [] => some ⟨endFlag, -1, 0, [], none⟩
  else some ⟨true, -1, 0, [], none⟩

/-- The pairs (element, face) the iterator yields while it is incremented until the entity
pointer is at end; `none` when an increment is undefined or `fuel` increments do not reach
the end. -/
def traverse (normaldir : HElementType → Nat → Int) :
    Nat → ALU2dGridLeafIterator1 HElementType → Option (List (HElementType × Nat))
  | 0, it =>
    match it.current with
    | none => some []
    | some _ => none
  | fuel + 1, it =>
    match it.current with
    | none => some []
    | some entity =>
      (increment normaldir it).bind
        (fun it' => (traverse normaldir fuel it').map (entity :: ·))

/-- The pairs (element, face) with `normaldir( face ) == 1`, elements in traversal order
and faces in increasing number. -/
def outwardFaces (normaldir : HElementType → Nat → Int) (elements : List HElementType) :
    List (HElementType × Nat) :=
  elements.flatMap
    (fun e => ((List.range 3).filter (fun face => decide (normaldir e face = 1))).map
      (fun face => (e, face)))

/-- The faces `face, ..., 2` of one element with `normaldir == 1`. -/
def facesFrom (normaldir : HElementType → Nat → Int) (e : HElementType) (face : Nat) :
    List Nat :=
  (List.range' face (3 - face)).filter (fun i => decide (normaldir e i = 1))

/-- The pairs the edge iterator still has to yield: those of the current element from
`face` on, then those of the elements to come. -/
def pendingFaces (normaldir : HElementType → Nat → Int) :
    List HElementType → Nat → List (HElementType × Nat)
  | [], _ => []
  | e :: rest, face =>
    (facesFrom normaldir e face).map (fun i => (e, i)) ++ outwardFaces normaldir rest

/-- The edge iterator `it` is at a position from which exactly the pairs `remaining` are
yielded until the end: either it is at end and nothing remains, or it points to the first
of them and the rest are the pending pairs. -/
def Yields (normaldir : HElementType → Nat → Int) (it : ALU2dGridLeafIterator1 HElementType)
    (remaining : List (HElementType × Nat)) : Prop :=
  (it.current = none ∧ remaining = []) ∨
  (∃ e rest face, it.current = some (e, face) ∧ it.endIter_ = false ∧ it.iter_ = e :: rest ∧
    it.face_ ≤ 3 ∧ remaining = (e, face) :: pendingFaces normaldir it.iter_ it.face_)

end ALU2dGridLeafIterator1

end ALU2d

namespace Examples

/-- Corner vertex indices of two triangles sharing the edge between the vertices 1 and 2;
element 0 has the corners 0, 1, 2 and element 1 the corners 2, 1, 3. -/
def cornerOf : Nat → Nat → Nat
  | 0, 0 => 0
  | 0, 1 => 1
  | 0, _ => 2
  | _, 0 => 2
  | _, 1 => 1
  | _, _ => 3

/-- Normal directions of the faces of the two triangles: the shared edge (face 0 of both)
has direction 1 in element 0 and -1 in element 1, the boundary edges have direction 1. -/
def normaldirOf : Nat → Nat → Int
  | 0, _ => 1
  | _, 0 => -1
  | _, _ => 1

/-- Edge numbers of the faces of the two triangles: face 0 of both is the shared edge 0. -/
def edgeOf : Nat → Nat → Nat
  | 0, face => face
  | _, 0 => 0
  | _, face => face + 2

end Examples

end Dune

namespace Dune

namespace ALU2d

/-! ### Intersection iterators

The classes are declared in iterator.hh, which is not among the sources; their data
members are taken from the way iterator_imp.cc uses them.  The intersection iterators
reach the ALUGrid element type `HElementType` through the member functions collected in
`HElementAccess`; null pointers are `none`. -/

/-- The member functions of `ALU2DSPACE Hmesh_basic::helement_t` the intersection
iterators call: `nbel( i )`, `opposite( i )`, `level()`, `leaf()`, `father()`, `down()`,
`next()` and `nchild()`. -/
structure HElementAccess (HElementType : Type) where
  nbel : HElementType → Int → Option HElementType
  opposite : HElementType → Int → Int
  level : HElementType → Int
  leaf : HElementType → Bool
  father : HElementType → Option HElementType
  down : HElementType → Option HElementType
  next : HElementType → Option HElementType
  nchild : HElementType → Int

/-- The member `current` of `ALU2dGridIntersectionBase`: inside element `item_`, neighbour
`neigh_`, face number `index_` in the inside element and face number `opposite_` in the
neighbour. -/
structure IntersectionInfo (HElementType : Type) where
  item_ : Option HElementType
  neigh_ : Option HElementType
  index_ : Int
  opposite_ : Int
  deriving DecidableEq, Repr

/-- Data members of `ALU2dGridIntersectionBase` that carry the cursor (the cached
geometries are left out). -/
structure ALU2dGridIntersectionBase (HElementType : Type) where
  current : IntersectionInfo HElementType
  nFaces_ : Int
  walkLevel_ : Int
  done_ : Bool
  deriving DecidableEq, Repr

namespace ALU2dGridIntersectionBase

variable {HElementType : Type}

/-- Embedding of `done()` (lines 166-179). -/
def done (it : ALU2dGridIntersectionBase HElementType) : ALU2dGridIntersectionBase HElementType :=
  { it with done_ := true,
            current := { it.current with item_ := none, neigh_ := none, index_ := it.nFaces_ } }

/-- Embedding of `equals( i )` (lines 97-104): the inside element pointers and the `done_`
flags are compared. -/
def equals [DecidableEq HElementType] (it i : ALU2dGridIntersectionBase HElementType) : Bool :=
  decide (it.current.item_ = i.current.item_) && decide (it.done_ = i.done_)

/-- Embedding of `numberInSelf()` (lines 190-194). -/
def numberInSelf (it : ALU2dGridIntersectionBase HElementType) : Int := it.current.index_

/-- Embedding of `numberInNeighbor()` (lines 196-200). -/
def numberInNeighbor (it : ALU2dGridIntersectionBase HElementType) : Int := it.current.opposite_

/-- Embedding of `boundary()` (lines 136-140). -/
def boundary (it : ALU2dGridIntersectionBase HElementType) : Bool := it.current.neigh_.isNone

/-- Embedding of `ALU2dGridIntersectionBase::setFirstItem( elem, wLevel )` (lines 124-133);
`neigh_` is not assigned. -/
def setFirstItem (ops : HElementAccess HElementType) (it : ALU2dGridIntersectionBase HElementType)
    (elem : HElementType) (wLevel : Int) : ALU2dGridIntersectionBase HElementType :=
  { it with walkLevel_ := wLevel, done_ := false,
            current := { it.current with item_ := some elem, index_ := 0,
                                         opposite_ := ops.opposite elem 0 } }

/-- The constructor `ALU2dGridIntersectionBase( grid, el, wLevel, end )` (lines 25-46).
The members of `current` start with indeterminate values, `garbage`.  `none` when the
assertion `walkLevel_ >= 0` fails. -/
def construct (ops : HElementAccess HElementType) (garbage : IntersectionInfo HElementType)
    (el : HElementType) (wLevel : Int) (endFlag : Bool) :
    Option (ALU2dGridIntersectionBase HElementType) :=
  let it : ALU2dGridIntersectionBase HElementType := ⟨garbage, 3, wLevel, endFlag⟩
  if !endFlag then
    if it.walkLevel_ ≥ 0 then some (setFirstItem ops it el wLevel) else none
  else some (done it)

/-- The constructor for end iterators `ALU2dGridIntersectionBase( grid, wLevel )` (lines
49-64). -/
def constructEnd (garbage : IntersectionInfo HElementType) (wLevel : Int) :
    ALU2dGridIntersectionBase HElementType :=
  done ⟨garbage, 3, wLevel, true⟩

end ALU2dGridIntersectionBase

/-- The leaf intersection iterator has no data members of its own. -/
abbrev ALU2dGridLeafIntersectionIterator (HElementType : Type) :=
  ALU2dGridIntersectionBase HElementType

namespace ALU2dGridLeafIntersectionIterator

variable {HElementType : Type}

/-- Embedding of `ALU2dGridLeafIntersectionIterator::setFirstItem( elem, wLevel )` (lines
500-511). -/
def setFirstItem (ops : HElementAccess HElementType)
    (it : ALU2dGridLeafIntersectionIterator HElementType) (elem : HElementType) (wLevel : Int) :
    ALU2dGridLeafIntersectionIterator HElementType :=
  { it with walkLevel_ := wLevel, done_ := false,
            current := ⟨some elem, ops.nbel elem 0, 0, ops.opposite elem 0⟩ }

/-- The constructor `ALU2dGridLeafIntersectionIterator( grid, el, wLevel, end )` (lines
432-447): the base class constructor, then `setFirstItem` or `done()`.  `none` when an
assertion `walkLevel_ >= 0` fails. -/
def construct (ops : HElementAccess HElementType) (garbage : IntersectionInfo HElementType)
    (el : HElementType) (wLevel : Int) (endFlag : Bool) :
    Option (ALU2dGridLeafIntersectionIterator HElementType) :=
  match ALU2dGridIntersectionBase.construct ops garbage el wLevel endFlag with
  | none => none
  | some it =>
    if !endFlag then
      if it.walkLevel_ ≥ 0 then some (setFirstItem ops it el wLevel) else none
    else some it.done

/-- Embedding of `ALU2dGridLeafIntersectionIterator::increment()` (lines 471-488).  `none`
when `item_` is null where it is dereferenced or the assertion `neigh_->leaf()` fails. -/
def increment (ops : HElementAccess HElementType)
    (it : ALU2dGridLeafIntersectionIterator HElementType) :
    Option (ALU2dGridLeafIntersectionIterator HElementType) :=
  if it.current.index_ ≥ it.nFaces_ then some it.done
  else
    match it.current.item_ with
    | none => none
    | some item =>
      let index := it.current.index_ + 1
      let it1 : ALU2dGridLeafIntersectionIterator HElementType :=
        { it with current := { it.current with index_ := index, neigh_ := ops.nbel item index } }
      let it2 := if it1.current.index_ ≥ it1.nFaces_ then it1.done else it1
      match it2.current.neigh_ with
      | none => some it2
      | some neigh => if ops.leaf neigh then some it2 else none

/-- The iterator after `n` calls of `increment()`. -/
def incrementN (ops : HElementAccess HElementType) :
    Nat → ALU2dGridLeafIntersectionIterator HElementType →
      Option (ALU2dGridLeafIntersectionIterator HElementType)
  | 0, it => some it
  | n + 1, it => (incrementN ops n it).bind (increment ops)

end ALU2dGridLeafIntersectionIterator

/-- Data members of `ALU2dGridLevelIntersectionIterator`: those of the base class and the
stack `neighbourStack_` of pairs (neighbour, face number in the neighbour), top first. -/
structure ALU2dGridLevelIntersectionIterator (HElementType : Type) extends
    ALU2dGridIntersectionBase HElementType where
  neighbourStack_ : List (Option HElementType × Int)

namespace ALU2dGridLevelIntersectionIterator

variable {HElementType : Type}

/-- Embedding of `ALU2dGridLevelIntersectionIterator::setFirstItem( elem, wLevel )` (lines
408-419): the neighbour across face 0 is taken as `nbel( 0 )` returns it. -/
def setFirstItem (ops : HElementAccess HElementType)
    (it : ALU2dGridLevelIntersectionIterator HElementType) (elem : HElementType) (wLevel : Int) :
    ALU2dGridLevelIntersectionIterator HElementType :=
  { it with walkLevel_ := wLevel, done_ := false,
            current := ⟨some elem, ops.nbel elem 0, 0, ops.opposite elem 0⟩ }

/-- The constructor `ALU2dGridLevelIntersectionIterator( grid, el, wLevel, end )` (lines
265-280): the base class constructor, an empty stack, then `setFirstItem` or `done()`.
`none` when an assertion `walkLevel_ >= 0` fails. -/
def construct (ops : HElementAccess HElementType) (garbage : IntersectionInfo HElementType)
    (el : HElementType) (wLevel : Int) (endFlag : Bool) :
    Option (ALU2dGridLevelIntersectionIterator HElementType) :=
  match ALU2dGridIntersectionBase.construct ops garbage el wLevel endFlag with
  | none => none
  | some base =>
    let it : ALU2dGridLevelIntersectionIterator HElementType := ⟨base, []⟩
    if !endFlag then
      if it.walkLevel_ ≥ 0 then some (setFirstItem ops it el wLevel) else none
    else some { it with toALU2dGridIntersectionBase := base.done }

end ALU2dGridLevelIntersectionIterator

end ALU2d

namespace Examples

/-- A macro triangle `3` of level 0 bisected into the leaf elements `0` and `1` of level
1, next to the unrefined macro triangle `2` of level 0.  The elements `0` and `1` share a
face (face 1 of element 0 is face 2 of element 1); face 0 of element 0 borders the coarser
element `2` (its face 1); all other faces lie on the boundary. -/
def threeElements : ALU2d.HElementAccess Nat where
  nbel := fun e face =>
    if e = 0 ∧ face = 0 then some 2
    else if e = 0 ∧ face = 1 then some 1
    else if e = 1 ∧ face = 2 then some 0
    else if e = 2 ∧ face = 1 then some 3
    else if e = 3 ∧ face = 2 then some 2
    else none
  opposite := fun e face =>
    if e = 0 ∧ face = 0 then 1
    else if e = 0 ∧ face = 1 then 2
    else if e = 1 ∧ face = 2 then 1
    else if e = 2 ∧ face = 1 then 2
    else if e = 3 ∧ face = 2 then 1
    else 0
  level := fun e => if e = 0 ∨ e = 1 then 1 else 0
  leaf := fun e => decide (e ≠ 3)
  father := fun e => if e = 0 ∨ e = 1 then some 3 else none
  down := fun e => if e = 3 then some 0 else none
  next := fun e => if e = 0 then some 1 else none
  nchild := fun e => if e = 0 then 0 else if e = 1 then 1 else 0

/-- Indeterminate initial content of `current` used in the examples. -/
def noInfo : ALU2d.IntersectionInfo Nat := ⟨none, none, 0, 0⟩

end Examples

end Dune

namespace Dune

/-! ## dune/grid/albertagrid/agrid.hh: `AlbertaGrid::AdaptationState` -/

namespace AlbertaGrid

/-- Value of a C++ `int` computation: the mathematical result reduced to the range of
32-bit two's complement numbers. -/
def toInt32 (x : Int) : Int := (x + 2 ^ 31) % 2 ^ 32 - 2 ^ 31

/-- The `int` expression `a << count` for `count >= 0`. -/
def shiftLeftInt (a count : Int) : Int := toInt32 (a * 2 ^ count.toNat)

/-- Embedding of `enum Phase { ComputationPhase, PreAdaptationPhase, PostAdaptationPhase }`. -/
inductive Phase where
  | ComputationPhase
  | PreAdaptationPhase
  | PostAdaptationPhase
  deriving DecidableEq, Repr

/-- Outcome of a member function that may throw `InvalidStateException` through
`DUNE_THROW`. -/
inductive Outcome (α : Type) where
  | ok (value : α)
  | InvalidStateException (message : String)
  deriving DecidableEq, Repr

/-- Data members of `AlbertaGrid::AdaptationState`. -/
structure AdaptationState where
  phase_ : Phase
  coarsenMarked_ : Int
  refineMarked_ : Int
  deriving DecidableEq, Repr

namespace AdaptationState

/-- The constructor `AdaptationState()`. -/
def construct : AdaptationState := ⟨.ComputationPhase, 0, 0⟩

/-- Embedding of `mark( int count )` (lines 224-230). -/
def mark (s : AdaptationState) (count : Int) : AdaptationState :=
  let s1 := if count < 0 then { s with coarsenMarked_ := toInt32 (s.coarsenMarked_ + 1) } else s
  if count > 0 then { s1 with refineMarked_ := toInt32 (s1.refineMarked_ + shiftLeftInt 2 count) }
  else s1

/-- Embedding of `unmark( int count )` (lines 232-238). -/
def unmark (s : AdaptationState) (count : Int) : AdaptationState :=
  let s1 := if count < 0 then { s with coarsenMarked_ := toInt32 (s.coarsenMarked_ - 1) } else s
  if count > 0 then { s1 with refineMarked_ := toInt32 (s1.refineMarked_ - shiftLeftInt 2 count) }
  else s1

/-- Embedding of `coarsen()` (lines 240-243). -/
def coarsen (s : AdaptationState) : Bool := decide (s.coarsenMarked_ > 0)

/-- Embedding of `refineMarked()` (lines 245-248). -/
def refineMarked (s : AdaptationState) : Int := s.refineMarked_

/-- Embedding of `error( message )` (lines 275-278): `DUNE_THROW( InvalidStateException,
message )`. -/
def error (message : String) : Outcome AdaptationState := .InvalidStateException message

/-- Embedding of `preAdapt()` (lines 250-255). -/
def preAdapt (s : AdaptationState) : Outcome AdaptationState :=
  if s.phase_ ≠ .ComputationPhase then
    error "preAdapt may only be called in computation phase."
  else .ok { s with phase_ := .PreAdaptationPhase }

/-- Embedding of `adapt()` (lines 257-262). -/
def adapt (s : AdaptationState) : Outcome AdaptationState :=
  if s.phase_ ≠ .PreAdaptationPhase then
    error "adapt may only be called in preadapdation phase."
  else .ok { s with phase_ := .PostAdaptationPhase }

/-- Embedding of `postAdapt()` (lines 264-272). -/
def postAdapt (s : AdaptationState) : Outcome AdaptationState :=
  if s.phase_ ≠ .PostAdaptationPhase then
    error "postAdapt may only be called in postadaptation phase."
  else .ok { s with phase_ := .ComputationPhase, coarsenMarked_ := 0, refineMarked_ := 0 }

/-- The call raises `InvalidStateException`. -/
def raises (r : Outcome AdaptationState) : Prop := ∃ message, r = .InvalidStateException message

end AdaptationState

end AlbertaGrid

/-! ## grid/common/gridenums.hh, dune/common/geometrytype.hh -/

/-- Embedding of `enum PartitionType` of gridenums.hh. -/
inductive PartitionType where
  | InteriorEntity
  | BorderEntity
  | OverlapEntity
  | FrontEntity
  | GhostEntity
  deriving DecidableEq, Repr

/-- Modelled from the spec: `GeometryType::BasicType` of dune/common/geometrytype.hh, which
is not among the sources: the basic kinds simplex, cube, pyramid and prism. -/
inductive BasicType where
  | simplex
  | cube
  | pyramid
  | prism
  deriving DecidableEq, Repr

/-- Modelled from the spec: `GeometryType` of dune/common/geometrytype.hh, a basic kind
together with a dimension. -/
structure GeometryType where
  basicType : BasicType
  dim : Nat
  deriving DecidableEq, Repr

namespace GenericGeometry

/-- The expression `a << n` reduced to 32 bits; for `n >= 32` every bit is shifted out. -/
def shiftLeft32 (a n : Nat) : Nat := if n < 32 then (a * 2 ^ n) % uintRange else 0

/-- Embedding of `topologyId( const GeometryType &type )` (conversion.hh, lines 571-594);
the four basic types have a case each, so the `default` branch is not reached.  `dim` is
an `unsigned int`. -/
def topologyId (type : GeometryType) : Nat :=
  let dim := type.dim % uintRange
  match type.basicType with
  | .simplex => 0
  | .cube => usub (shiftLeft32 1 dim) 1
  | .pyramid => usub (shiftLeft32 1 (usub dim 1)) 1
  | .prism => shiftLeft32 1 (usub dim 1)

/-- Modelled from the spec: `GenericGeometry::Topology< id, dim >::type` of
topologytypes.hh, which is not among the sources.  Bit `i` of the topology id records
whether extrusion step `i` was a prism (1) or a pyramid (0); the last step is the
outermost one. -/
def topologyOf : Nat → Nat → Topology
  | 0, _ => .Point
  | dim + 1, id =>
    if (id / 2 ^ dim) % 2 = 1 then .Prism (topologyOf dim id) else .Pyramid (topologyOf dim id)

/-- `MapNumberingProvider< dim >::dune2generic` with the codimension as a run time
argument, as the fake entity calls it: `dune2generic( topologyId, i, codim )`.  It reads
entry `i` of the table `dune2generic_[ topologyId ][ codim ]` (conversion.hh, lines
410-418); `none` when one of the assertions `topologyId < numTopologies`,
`codim <= dimension`, `i < size` fails. -/
def MapNumberingProvider.dune2generic (dimension topologyId i codim : Nat) : Option Nat :=
  if topologyId < 2 ^ dimension ∧ codim ≤ dimension then
    ((providerDune2generic (topologyOf dimension topologyId) codim)[i]?).bind (fun entry => entry)
  else none

end GenericGeometry

/-! ## grid/geogrid/entity.hh: `EntityBase< codim, Grid, true >` (fake entities) -/

namespace GeoGrid

/-- The member functions of `GenericReferenceElement< ctype, dimension >` the fake entity
calls: `size( i, c, cc )` and `subEntity( i, c, ii, cc )`. -/
structure GenericReferenceElement where
  size : Nat → Nat → Nat → Nat
  subEntity : Nat → Nat → Nat → Nat → Nat

/-- What a fake entity uses of its host grid: the grid dimension,
`Capabilities::isParallel< HostGrid >::v`, `hostElement.type()`, the partition type of
`hostElement.subEntity< dimension >( j )` and the generic reference elements. -/
structure HostGrid (HostElement : Type) where
  dimension : Nat
  isParallel : Bool
  type : HostElement → GeometryType
  vertexPartitionType : HostElement → Nat → PartitionType
  refElement : GeometryType → GenericReferenceElement

/-- Data members of `EntityBase< codim, Grid, true >` that identify the entity: the host
element and the number of the sub-entity in it. -/
structure FakeEntity (HostElement : Type) where
  hostElement_ : HostElement
  subEntity_ : Nat

namespace FakeEntity

variable {HostElement : Type}

/-- Embedding of `index( indexSet )` (lines 556-564); `subIndex` is
`indexSet.subIndex( hostElement, i, codim )` of the host index set. -/
def index {IndexType : Type} (host : HostGrid HostElement) (codimension : Nat)
    (subIndex : HostElement → Nat → Nat → IndexType) (e : FakeEntity HostElement) :
    Option IndexType :=
  let topologyId := GenericGeometry.topologyId (host.type e.hostElement_)
  match GenericGeometry.MapNumberingProvider.dune2generic host.dimension topologyId
      e.subEntity_ codimension with
  | none => none
  | some genericSub => some (subIndex e.hostElement_ genericSub codimension)

/-- Embedding of `id( idSet )` (lines 615-623); `subId` is
`idSet.subId( hostElement, i, codim )` of the host id set. -/
def id {IdType : Type} (host : HostGrid HostElement) (codimension : Nat)
    (subId : HostElement → Nat → Nat → IdType) (e : FakeEntity HostElement) :
    Option IdType :=
  let topologyId := GenericGeometry.topologyId (host.type e.hostElement_)
  match GenericGeometry.MapNumberingProvider.dune2generic host.dimension topologyId
      e.subEntity_ codimension with
  | none => none
  | some genericSub => some (subId e.hostElement_ genericSub codimension)

/-- Embedding of `vertexPartitionType( refElement, i )` (lines 626-635).  The argument `i`
is not used: the third argument of `refElement.subEntity` is the constant 0. -/
def vertexPartitionType (host : HostGrid HostElement) (codimension : Nat)
    (e : FakeEntity HostElement) (refElement : GenericReferenceElement) (_i : Nat) :
    Option PartitionType :=
  let topologyId := GenericGeometry.topologyId (host.type e.hostElement_)
  match GenericGeometry.MapNumberingProvider.dune2generic host.dimension topologyId
      e.subEntity_ codimension with
  | none => none
  | some genericSub =>
    let j := refElement.subEntity genericSub codimension 0 host.dimension
    some (host.vertexPartitionType e.hostElement_ j)

/-- The loop `for( int i = 1; i < numVertices; ++i )` of `partitionType` over the values
of `i` still to come.  `none`: an assertion failed; `some none`: the loop ran to its end;
`some (some t)`: the function returned `t` from within the loop. -/
def partitionTypeLoop (host : HostGrid HostElement) (codimension : Nat)
    (e : FakeEntity HostElement) (refElement : GenericReferenceElement) (type : PartitionType) :
    List Nat → Option (Option PartitionType)
  | [] => some none
  | i :: rest =>
    match vertexPartitionType host codimension e refElement i with
    | none => none
    | some vtxType =>
      if vtxType = .InteriorEntity ∨ vtxType = .OverlapEntity ∨ vtxType = .GhostEntity then
        some (some vtxType)
      else if type = vtxType then partitionTypeLoop host codimension e refElement type rest
      else none

/-- Embedding of `partitionType()` (lines 472-497); `none` when an assertion fails. -/
def partitionType (host : HostGrid HostElement) (codimension : Nat)
    (e : FakeEntity HostElement) : Option PartitionType :=
  if !host.isParallel then some .InteriorEntity
  else
    let refElement := host.refElement (host.type e.hostElement_)
    match vertexPartitionType host codimension e refElement 0 with
    | none => none
    | some type =>
      if type = .InteriorEntity ∨ type = .OverlapEntity ∨ type = .GhostEntity then some type
      else
        let numVertices := refElement.size e.subEntity_ codimension host.dimension
        match partitionTypeLoop host codimension e refElement type
            (List.range' 1 (numVertices - 1)) with
        | none => none
        | some (some vtxType) => some vtxType
        | some none =>
          if type = .BorderEntity ∨ type = .FrontEntity then some type else none

/-- The partition types of the incident vertices of the sub-entity in scanning order:
vertex `i` of the sub-entity, `i = 0, ..., numVertices-1`, is vertex
`refElement.subEntity( genericSub, codimension, i, dimension )` of the host element. -/
def incidentVertexTypes (host : HostGrid HostElement) (codimension : Nat)
    (e : FakeEntity HostElement) : Option (List PartitionType) :=
  let refElement := host.refElement (host.type e.hostElement_)
  let topologyId := GenericGeometry.topologyId (host.type e.hostElement_)
  match GenericGeometry.MapNumberingProvider.dune2generic host.dimension topologyId
      e.subEntity_ codimension with
  | none => none
  | some genericSub =>
    some ((List.range (refElement.size e.subEntity_ codimension host.dimension)).map
      (fun i => host.vertexPartitionType e.hostElement_
        (refElement.subEntity genericSub codimension i host.dimension)))

/-- The reduction the specification describes for a sub-entity one of whose vertices is
interior, overlap or ghost: the type of the first such vertex in scanning order. -/
def firstInteriorOverlapGhost (types : List PartitionType) : Option PartitionType :=
  types.find? (fun t => decide (t = .InteriorEntity ∨ t = .OverlapEntity ∨ t = .GhostEntity))

end FakeEntity

end GeoGrid

namespace Examples

/-- The generic reference triangle as far as the examples need it: every edge has two
vertices; edge 0 joins the vertices 0 and 1, edge 1 the vertices 0 and 2, edge 2 the
vertices 1 and 2. -/
def referenceTriangle : GeoGrid.GenericReferenceElement where
  size := fun _ c cc => if c = 1 ∧ cc = 2 then 2 else if c = cc then 1 else 3
  subEntity := fun i c ii cc =>
    if c = 1 ∧ cc = 2 then
      (if i = 0 then (if ii = 0 then 0 else 1)
       else if i = 1 then (if ii = 0 then 0 else 2)
       else (if ii = 0 then 1 else 2))
    else i

/-- A parallel host grid of triangles in which vertex 2 of every element is a ghost vertex
and the vertices 0 and 1 are border vertices. -/
def ghostCornerHost : GeoGrid.HostGrid Nat where
  dimension := 2
  isParallel := true
  type := fun _ => ⟨.simplex, 2⟩
  vertexPartitionType := fun _ j => if j = 2 then .GhostEntity else .BorderEntity
  refElement := fun _ => referenceTriangle

/-- A parallel host grid of triangles all of whose vertices are border vertices. -/
def borderHost : GeoGrid.HostGrid Nat where
  dimension := 2
  isParallel := true
  type := fun _ => ⟨.simplex, 2⟩
  vertexPartitionType := fun _ _ => .BorderEntity
  refElement := fun _ => referenceTriangle

end Examples

end Dune

namespace Dune

/-! ## grid/geogrid/entity.hh: geometry cache and host entity access -/

namespace GeoGrid

/-- Modelled from the spec: a built geometry of the GeometryGrid (geogrid/geometry.hh is
not among the sources).  The geometry is of order 1 and given by its type and its corners
`y_i = c( x_i )`, the images of the host corners under the coordinate function. -/
structure Geometry (Y : Type) where
  type : GeometryType
  corners : List Y
  deriving DecidableEq, Repr

/-- Modelled from the spec: `GeometryImpl`, the implementation behind the member `geo_`
(geogrid/geometry.hh is not among the sources): "a cached Geometry (lazily constructed,
invalidated on key change)".  `none` is the default constructed `GeometryImpl()`, for
which `!geo` holds; `some g` is `GeometryImpl( type, coords )`. -/
abbrev GeometryImpl (Y : Type) := Option (Geometry Y)

/-- What `geometry()` uses of the GeometryGrid: `grid().coordFunction()`, a map from host
coordinates `X` to world coordinates `Y`. -/
structure Grid (X Y : Type) where
  coordFunction : X → Y

/-- What `geometry()` uses of the host grid for an entity the host grid has:
`hostEntity.type()` and the corners `x_i` of the host geometry, which the `CoordVector`
passes through the coordinate function. -/
structure HostEntityAccess (HostEntity X : Type) where
  type : HostEntity → GeometryType
  corners : HostEntity → List X

/-- The member function of `ReferenceElement< ctype, dimension >` the fake entity calls:
`type( i, c )`, the geometry type of sub-entity `i` of codimension `c`. -/
structure ReferenceElement where
  type : Nat → Nat → GeometryType

/-- What `type()` and `geometry()` use of the host grid for a fake entity:
`hostElement.type()`, the reference elements `ReferenceElements< ctype, dimension >::
general( type )`, and the corners of the host element that belong to the sub-entity
`subEntity` of codimension `codimension`, which the `CoordVector` of that codimension
passes through the coordinate function (`subEntityCorners hostElement codimension
subEntity`). -/
structure HostElementAccess (HostElement X : Type) where
  type : HostElement → GeometryType
  general : GeometryType → ReferenceElement
  subEntityCorners : HostElement → Nat → Nat → List X

/-- What a call of `geometry()` does: the geometry returned, the entity afterwards (the
member `geo_` is `mutable`) and the points at which the coordinate function was evaluated
during the call. -/
structure GeometryCall (Entity X Y : Type) where
  geometry : Geometry Y
  entity : Entity
  evaluated : List X

/-- Data members of an initialized `EntityBase< codim, Grid, false >`: the grid, the host
entity and the geometry cache. -/
structure EntityBase (HostEntity X Y : Type) where
  grid_ : Grid X Y
  hostEntity_ : HostEntity
  geo_ : GeometryImpl Y

namespace EntityBase

variable {HostEntity X Y : Type}

/-- Embedding of the constructor `EntityBase( grid, hostEntity )` (lines 163-167). -/
def construct (grid : Grid X Y) (hostEntity : HostEntity) : EntityBase HostEntity X Y :=
  ⟨grid, hostEntity, none⟩

/-- Embedding of the copy constructor (lines 169-173): the cache is not copied. -/
def copy (other : EntityBase HostEntity X Y) : EntityBase HostEntity X Y :=
  ⟨other.grid_, other.hostEntity_, none⟩

/-- Embedding of `initialize( grid, hostEntity )` (lines 182-187). -/
def initializeEntity (_e : EntityBase HostEntity X Y) (grid : Grid X Y) (hostEntity : HostEntity) :
    EntityBase HostEntity X Y :=
  ⟨grid, hostEntity, none⟩

/-- Embedding of `hostEntity()` (lines 253-256): `*hostEntity_`. -/
def hostEntity (e : EntityBase HostEntity X Y) : HostEntity := e.hostEntity_

/-- Embedding of `type()` (lines 203-206). -/
def type (host : HostEntityAccess HostEntity X) (e : EntityBase HostEntity X Y) :
    GeometryType :=
  host.type e.hostEntity

/-- Embedding of `geometry()` (lines 232-241). -/
def geometry (host : HostEntityAccess HostEntity X) (e : EntityBase HostEntity X Y) :
    GeometryCall (EntityBase HostEntity X Y) X Y :=
  match e.geo_ with
  | some geo => ⟨geo, e, []⟩
  | none =>
    let coords := (host.corners e.hostEntity).map e.grid_.coordFunction
    let geo : Geometry Y := ⟨e.type host, coords⟩
    ⟨geo, { e with geo_ := some geo }, host.corners e.hostEntity⟩

end EntityBase

/-- Data members of an initialized `EntityBase< codim, Grid, true >`: the grid, the host
element, the number of the sub-entity and the geometry cache. -/
structure FakeEntityBase (HostElement X Y : Type) extends FakeEntity HostElement where
  grid_ : Grid X Y
  geo_ : GeometryImpl Y

/-- Result of `hostEntity()` on a fake entity: a host entity, or the exception
`NotImplemented` raised through `DUNE_THROW`. -/
inductive HostEntityResult (HostEntity : Type) where
  | value (hostEntity : HostEntity)
  | NotImplemented (message : String)
  deriving DecidableEq, Repr

namespace FakeEntityBase

variable {HostElement X Y : Type}

/-- Embedding of the constructor `EntityBase( grid, hostElement, subEntity )` (lines
415-420); `subEntity_` is an `unsigned int`. -/
def construct (grid : Grid X Y) (hostElement : HostElement) (subEntity : Nat) :
    FakeEntityBase HostElement X Y :=
  ⟨⟨hostElement, subEntity % GenericGeometry.uintRange⟩, grid, none⟩

/-- Embedding of `initialize( grid, hostElement, subEntity )` (lines 440-446). -/
def initializeEntity (_e : FakeEntityBase HostElement X Y) (grid : Grid X Y)
    (hostElement : HostElement) (subEntity : Nat) : FakeEntityBase HostElement X Y :=
  ⟨⟨hostElement, subEntity % GenericGeometry.uintRange⟩, grid, none⟩

/-- Embedding of `type()` (lines 459-464): `refElement.type( subEntity_, codimension )` for
the reference element of the type of the host element. -/
def type (host : HostElementAccess HostElement X) (codimension : Nat)
    (e : FakeEntityBase HostElement X Y) : GeometryType :=
  let refElement := host.general (host.type e.hostElement_)
  refElement.type e.subEntity_ codimension

/-- Embedding of `geometry()` (lines 513-522). -/
def geometry (host : HostElementAccess HostElement X) (codimension : Nat)
    (e : FakeEntityBase HostElement X Y) :
    GeometryCall (FakeEntityBase HostElement X Y) X Y :=
  match e.geo_ with
  | some geo => ⟨geo, e, []⟩
  | none =>
    let coords :=
      (host.subEntityCorners e.hostElement_ codimension e.subEntity_).map e.grid_.coordFunction
    let geo : Geometry Y := ⟨e.type host codimension, coords⟩
    ⟨geo, { e with geo_ := some geo },
      host.subEntityCorners e.hostElement_ codimension e.subEntity_⟩

/-- Embedding of `hostEntity()` (lines 543-547): `DUNE_THROW( NotImplemented, ... )`. -/
def hostEntity {HostEntity : Type} (codimension : Nat) (_e : FakeEntityBase HostElement X Y) :
    HostEntityResult HostEntity :=
  .NotImplemented ("HostGrid has no entities of codimension " ++ toString codimension ++ ".")

end FakeEntityBase

end GeoGrid

/-! ## grid/genericgeometry/conversion.hh: topology ids and geometry types -/

namespace GenericGeometry

/-- Embedding of `DuneGeometryType< Topology, defaultType >::type()` (lines 22-102); `none`
when a `dune_static_assert` of the class fails. -/
def DuneGeometryType : Topology → BasicType → Option GeometryType
  | .Point, defaultType =>
    if defaultType = .simplex ∨ defaultType = .cube then some ⟨defaultType, 0⟩ else none
  | .Prism base, defaultType =>
    match DuneGeometryType base defaultType with
    | none => none
    | some baseType =>
      if ¬ (defaultType = .simplex ∨ defaultType = .cube) then none
      else if ¬ (baseType.basicType = .simplex ∨ baseType.basicType = .cube) then none
      else
        let dimension := baseType.dim + 1
        let basicType : BasicType :=
          if dimension = 1 then defaultType
          else if dimension = 2 ∨ baseType.basicType = .cube then .cube
          else .prism
        some ⟨basicType, dimension⟩
  | .Pyramid base, defaultType =>
    match DuneGeometryType base defaultType with
    | none => none
    | some baseType =>
      if ¬ (defaultType = .simplex ∨ defaultType = .cube) then none
      else if ¬ (baseType.basicType = .simplex ∨ baseType.basicType = .cube) then none
      else
        let dimension := baseType.dim + 1
        let basicType : BasicType :=
          if dimension = 1 then defaultType
          else if dimension = 2 ∨ baseType.basicType = .simplex then .simplex
          else .pyramid
        some ⟨basicType, dimension⟩

/-- The array `types_` of `DuneGeometryTypeProvider< dim, defaultType >` as its
constructor fills it: entry `i` is `DuneGeometryType< Topology< i, dim >::type,
defaultType >::type()`, for `i` below `numTopologies = (1 << dim)`. -/
def DuneGeometryTypeProvider.types_ (dim : Nat) (defaultType : BasicType) :
    List (Option GeometryType) :=
  (List.range (2 ^ dim)).map (fun i => DuneGeometryType (topologyOf dim i) defaultType)

/-- Embedding of `DuneGeometryTypeProvider< dim, defaultType >::type( topologyId )` (lines
138-142); `none` when the assertion `topologyId < numTopologies` fails. -/
def DuneGeometryTypeProvider.type (dim : Nat) (defaultType : BasicType) (topologyId : Nat) :
    Option GeometryType :=
  if topologyId < 2 ^ dim then
    ((DuneGeometryTypeProvider.types_ dim defaultType)[topologyId]?).bind (fun entry => entry)
  else none

/-- A value of the enum type `GeometryType::BasicType` as the `switch` of `topologyId`
sees it: one of the four basic types, or a value that is none of them. -/
inductive BasicTypeValue where
  | basic (basicType : BasicType)
  | other (value : Int)
  deriving DecidableEq, Repr

/-- Result of `topologyId`: the topology id, or the exception `RangeError` raised through
`DUNE_THROW`. -/
inductive TopologyIdResult where
  | value (topologyId : Nat)
  | RangeError (message : String)
  deriving DecidableEq, Repr

/-- Embedding of `topologyId( const GeometryType &type )` (lines 571-594) with the
`default` branch of the `switch`; on the four basic types it is `topologyId`. -/
def topologyIdSwitch (basicType : BasicTypeValue) (dim : Nat) : TopologyIdResult :=
  match basicType with
  | .basic b => .value (topologyId ⟨b, dim⟩)
  | .other value => .RangeError ("Invalid basic geometry type: " ++ toString value ++ ".")

end GenericGeometry

namespace Examples

/-- A host grid with one kind of entity: a segment with the corners 0 and 1. -/
def segmentHost : GeoGrid.HostEntityAccess Nat Int where
  type := fun _ => ⟨.cube, 1⟩
  corners := fun e => [(e : Int), (e : Int) + 1]

/-- A host grid of prisms for fake entities: of the faces (codimension 1) of a prism the
faces 0 and 4 are triangles and the faces 1, 2, 3 quadrilaterals; every other sub-entity
is given the type of a vertex.  The corners of sub-entity `s` of codimension `c` of
element `e` are `100 e + 10 c + s` and its successor. -/
def prismHost : GeoGrid.HostElementAccess Nat Int where
  type := fun _ => ⟨.prism, 3⟩
  general := fun _ =>
    ⟨fun i c =>
      if c = 1 then (if i = 0 ∨ i = 4 then ⟨.simplex, 2⟩ else ⟨.cube, 2⟩) else ⟨.cube, 0⟩⟩
  subEntityCorners := fun e c s => [(100 * e + 10 * c + s : Nat), (100 * e + 10 * c + s + 1 : Nat)]

/-- The coordinate function `x ↦ 2 x + 1`. -/
def stretch : GeoGrid.Grid Int Int := ⟨fun x => 2 * x + 1⟩

/-- The coordinate function `x ↦ -x`. -/
def mirror : GeoGrid.Grid Int Int := ⟨fun x => -x⟩

end Examples

end Dune

namespace Dune

/-! ## grid/albertagrid/indexsets.hh: `read` and `write` -/

namespace Alberta

/-- Modelled from the spec: `IndexStack::setMaxIndex` of dune/grid/common/indexstack.hh,
which is not among the sources: it "seeds the free-list counter on reload".  The free list
is left as it is. -/
def IndexStack.setMaxIndex (s : IndexStack) (index : Nat) : IndexStack :=
  { s with maxIndex := index }

/-- Modelled from the spec: the files of the backing engine.  A file written for a dof
vector holds "the backing engine's native per-entity index array", the entry of every
dof. -/
abbrev Files := String → Option (Nat → Nat)

/-- Modelled from the spec: `DofVectorPointer< int >::write( filename )` (dofvector.hh is
not among the sources): the array of the dof vector is serialized under the file name;
the result reports success. -/
def DofVectorPointer.write (array : Nat → Nat) (filename : String) (files : Files) :
    Bool × Files :=
  (true, fun name => if name = filename then some array else files name)

/-- Modelled from the spec: `DofVectorPointer< int >::read( filename, mesh )`: the array
stored under the file name, for the dofs of the mesh; `none` when there is no such
file. -/
def DofVectorPointer.read (filename : String) (files : Files) : Option (Nat → Nat) :=
  files filename

/-- Modelled from the spec: `Alberta::max( dofVector )` (dofvector.hh is not among the
sources), "the current maximum index": the largest entry of the dof vector over the dofs
in use, which `usedDofs` lists.  The spec does not say what the maximum of a dof vector
without entries is (`none`). -/
def max (array : Nat → Nat) : List Nat → Option Nat
  | [] => none
  | dof :: dofs => some (dofs.foldl (fun result d => Nat.max result (array d)) (array dof))

end Alberta

namespace AlbertaGridHierarchicIndexSet

/-- Embedding of `write( filename )` (lines 232-242): the dof vector of codimension `i` is
written to the file `filename.cd<i>`; the result is the conjunction of the results. -/
def write (h : AlbertaGridHierarchicIndexSet) (dimension : Nat) (filename : String)
    (files : Alberta.Files) : Bool × Alberta.Files :=
  (List.range (dimension + 1)).foldl
    (fun (state : Bool × Alberta.Files) i =>
      let s := filename ++ ".cd" ++ toString i
      let r := Alberta.DofVectorPointer.write (h.entityNumbers_ i) s state.2
      (state.1 && r.1, r.2))
    (true, files)

/-- Embedding of `CreateEntityNumbers< codim >::apply( filename, mesh, indexSet )` (lines
376-388); `usedDofs` lists the dofs of codimension `codim` of the mesh.  `setup` installs
the callbacks and does not change the numbering. -/
def CreateEntityNumbersFromFile (h : AlbertaGridHierarchicIndexSet) (codim : Nat)
    (filename : String) (usedDofs : List Nat) (files : Alberta.Files) :
    Option AlbertaGridHierarchicIndexSet :=
  let s := filename ++ ".cd" ++ toString codim
  match Alberta.DofVectorPointer.read s files with
  | none => none
  | some array =>
    match Alberta.max array usedDofs with
    | none => none
    | some maxIndex =>
      some
        { indexStack_ := fun c =>
            if c = codim then (h.indexStack_ c).setMaxIndex (maxIndex + 1) else h.indexStack_ c
          entityNumbers_ := fun c => if c = codim then array else h.entityNumbers_ c }

/-- Embedding of `read( filename, mesh )` (lines 226-230):
`ForLoop< CreateEntityNumbers, 0, dimension >`; `usedDofs c` lists the dofs of
codimension `c` of the mesh. -/
def read (h : AlbertaGridHierarchicIndexSet) (dimension : Nat) (filename : String)
    (usedDofs : Nat → List Nat) (files : Alberta.Files) :
    Option AlbertaGridHierarchicIndexSet :=
  (List.range (dimension + 1)).foldl
    (fun state codim =>
      state.bind (fun h => h.CreateEntityNumbersFromFile codim filename (usedDofs codim) files))
    (some h)

end AlbertaGridHierarchicIndexSet

/-! ## dune/grid/alugrid/3d/entitykey.hh -/

/-- Data member of `ALU3dGridEntityKeyBase< codim, GridImp >`: the pointer `item_` (`none`
is the null pointer). -/
structure ALU3dGridEntityKeyBase (KeyType : Type) where
  item_ : Option KeyType
  deriving DecidableEq, Repr

namespace ALU3dGridEntityKeyBase

variable {KeyType : Type}

/-- Embedding of `static const int defaultValue = -665`. -/
def defaultValue : Int := -665

/-- Embedding of the default constructor `ALU3dGridEntityKeyBase()`. -/
def construct : ALU3dGridEntityKeyBase KeyType := ⟨none⟩

/-- Embedding of the constructor `ALU3dGridEntityKeyBase( const HElementType &item )`. -/
def constructItem (item : KeyType) : ALU3dGridEntityKeyBase KeyType := ⟨some item⟩

/-- Embedding of `ALU3dGridEntityKeyBase::equals` (lines 408-414). -/
def equals [DecidableEq KeyType] (a i : ALU3dGridEntityKeyBase KeyType) : Bool :=
  decide (a.item_ = i.item_)

end ALU3dGridEntityKeyBase

/-- Data members of `ALU3dGridEntityKey< cd, GridImp >` for a codimension `cd > 0`: the
base class and `level_`, `twist_`, `face_`. -/
structure ALU3dGridEntityKey (KeyType : Type) extends ALU3dGridEntityKeyBase KeyType where
  level_ : Int
  twist_ : Int
  face_ : Int
  deriving DecidableEq, Repr

namespace ALU3dGridEntityKey

variable {KeyType : Type}

/-- Embedding of the default constructor `ALU3dGridEntityKey()`. -/
def construct : ALU3dGridEntityKey KeyType :=
  ⟨ALU3dGridEntityKeyBase.construct, ALU3dGridEntityKeyBase.defaultValue,
    ALU3dGridEntityKeyBase.defaultValue, ALU3dGridEntityKeyBase.defaultValue⟩

/-- Embedding of the constructor `ALU3dGridEntityKey( item, level, twist, duneFace )` (lines
422-434) for the codimension `codim`; `none` when the assertion
`(codim == 1) ? (face_ >= 0) : 1` fails. -/
def constructItem (codim : Nat) (item : KeyType) (level : Int)
    (twist : Int) (duneFace : Int) : Option (ALU3dGridEntityKey KeyType) :=
  if codim = 1 ∧ ¬ (duneFace ≥ 0) then none
  else some ⟨ALU3dGridEntityKeyBase.constructItem item, level, twist, duneFace⟩

/-- Embedding of `level()`. -/
def level (key : ALU3dGridEntityKey KeyType) : Int := key.level_

/-- Embedding of `twist()`. -/
def twist (key : ALU3dGridEntityKey KeyType) : Int := key.twist_

/-- Embedding of `face()`. -/
def face (key : ALU3dGridEntityKey KeyType) : Int := key.face_

/-- Embedding of `ALU3dGridEntityKey::equals` (lines 283-288):
`BaseType :: equals( key ) && (level() == key.level())`. -/
def equals [DecidableEq KeyType] (a key : ALU3dGridEntityKey KeyType) : Bool :=
  ALU3dGridEntityKeyBase.equals a.toALU3dGridEntityKeyBase key.toALU3dGridEntityKeyBase
    && decide (a.level = key.level)

/-- Embedding of `operator ==` (lines 273-276). -/
def eq [DecidableEq KeyType] (a i : ALU3dGridEntityKey KeyType) : Bool := a.equals i

/-- Embedding of `operator !=` (lines 278-281). -/
def ne [DecidableEq KeyType] (a i : ALU3dGridEntityKey KeyType) : Bool := !a.equals i

end ALU3dGridEntityKey

namespace Examples

/-- Element 0 is refined into the children 2 and 3, element 1 into the children 4 and 5,
then the children of element 1 are coarsened away again (callbacks of codimension 0). -/
def refineBothCoarsenSecond : List AdaptCallback :=
  [.refine 0 2 0, .refine 0 3 0, .refine 0 4 0, .refine 0 5 0, .coarsen 0 4 0, .coarsen 0 5 0]

/-- The two macro triangles after the callbacks `refineBothCoarsenSecond`: the elements 0,
1, 2, 3 are in use with the indices 0, 1, 2, 3, the indices 4 and 5 are on the free list
and `size( 0 )` is 6. -/
def coarsenedMesh : NumberedMesh :=
  NumberedMesh.run dofByChild twoTriangles refineBothCoarsenSecond

/-- No file has been written. -/
def noFiles : Alberta.Files := fun _ => none

end Examples

end Dune

namespace Dune

namespace ALU2d

/-! ### Level intersection iterator: `increment` and the neighbour stack -/

/-- Undefined behaviour a call may run into. -/
inductive Fault where
  | nullPointer
  | assertion
  | emptyStackTop
  deriving DecidableEq, Repr

/-- How a call ends: it returns, it runs into undefined behaviour, or the loops have not
come to an end within the number of rounds allowed. -/
inductive Call (α : Type) where
  | returns (value : α)
  | fault (what : Fault)
  | outOfFuel
  deriving DecidableEq, Repr

/-- The value a call returns, if it returns. -/
def Call.result {α : Type} : Call α → Option α
  | .returns value => some value
  | _ => none

/-- The undefined behaviour a call runs into, if it does. -/
def Call.failure {α : Type} : Call α → Option Fault
  | .fault what => some what
  | _ => none

namespace ALU2dGridLevelIntersectionIterator

variable {HElementType : Type}

/-- Embedding of `getOppositeInFather( nrInChild, nrOfChild )` (lines 308-316). -/
def getOppositeInFather (nrInChild nrOfChild : Int) : Int :=
  let ret := if nrInChild = 0 then 2 - nrOfChild else 0
  if ret = 0 then
    if nrInChild - nrOfChild = 2 ∨ nrInChild - nrOfChild = 0 then -1 else ret
  else ret

/-- Embedding of `getOppositeInChild( nrInFather, nrOfChild )` (lines 318-326). -/
def getOppositeInChild (nrInFather nrOfChild : Int) : Int :=
  let ret := if nrInFather = 0 then nrOfChild + 1 else 0
  if ret = 0 then
    if nrInFather - nrOfChild = 1 then -1 else ret
  else ret

/-- The loop `while (neighTmp->level() > walkLevel_)` of `addNeighboursToStack` (lines
369-372); the result is `neighTmp` and `oppositeTmp` after the loop. -/
def walkUp (ops : HElementAccess HElementType) (walkLevel_ : Int) :
    Nat → Option HElementType → Int → Call (HElementType × Int)
  | _, none, _ => .fault .nullPointer
  | 0, some neighTmp, oppositeTmp =>
    if ops.level neighTmp > walkLevel_ then .outOfFuel else .returns (neighTmp, oppositeTmp)
  | fuel + 1, some neighTmp, oppositeTmp =>
    if ops.level neighTmp > walkLevel_ then
      walkUp ops walkLevel_ fuel (ops.father neighTmp)
        (getOppositeInFather oppositeTmp (ops.nchild neighTmp))
    else .returns (neighTmp, oppositeTmp)

/-- The loop `while (neighTmp->level() < this->walkLevel - 1 && neighTmp != 0)` of
`addNeighboursToStack` (lines 379-382); `bound` is the value of `this->walkLevel - 1`.
The condition dereferences `neighTmp` before it compares it with 0, so `neighTmp` is not
null when the loop is left. -/
def walkDown (ops : HElementAccess HElementType) (bound : Int) :
    Nat → Option HElementType → Int → Call (HElementType × Int)
  | _, none, _ => .fault .nullPointer
  | 0, some neighTmp, oppositeTmp =>
    if ops.level neighTmp < bound then .outOfFuel else .returns (neighTmp, oppositeTmp)
  | fuel + 1, some neighTmp, oppositeTmp =>
    if ops.level neighTmp < bound then
      walkDown ops bound fuel (ops.down neighTmp)
        (getOppositeInChild oppositeTmp (ops.nchild neighTmp))
    else .returns (neighTmp, oppositeTmp)

/-- The loop `while (!tmp->next())` of `addNeighboursToStack` (lines 389-395): `tmp` is
not changed in the loop. -/
def pushLoop (ops : HElementAccess HElementType) (tmp : HElementType) (oppositeTmp : Int) :
    Nat → List (Option HElementType × Int) → Call (List (Option HElementType × Int))
  | 0, neighbourStack_ =>
    if (ops.next tmp).isNone then .outOfFuel else .returns neighbourStack_
  | fuel + 1, neighbourStack_ =>
    if (ops.next tmp).isNone then
      let tmpOpposite := getOppositeInChild oppositeTmp (ops.nchild tmp)
      if tmpOpposite ≠ -1 then
        pushLoop ops tmp oppositeTmp fuel ((some tmp, tmpOpposite) :: neighbourStack_)
      else pushLoop ops tmp oppositeTmp fuel neighbourStack_
    else .returns neighbourStack_

/-- Embedding of `addNeighboursToStack()` (lines 353-397); every loop may run `fuel`
rounds.  The source writes `this->walkLevel - 1` in the third branch; the sources declare
no member of that name, it is read as `walkLevel_`. -/
def addNeighboursToStack (ops : HElementAccess HElementType) (fuel : Nat)
    (it : ALU2dGridLevelIntersectionIterator HElementType) :
    Call (ALU2dGridLevelIntersectionIterator HElementType) :=
  match it.current.item_ with
  | none => .fault .nullPointer
  | some item =>
    let oppositeTmp := ops.opposite item it.current.index_
    match ops.nbel item it.current.index_ with
    | none => .returns it
    | some neighTmp =>
      if ops.level neighTmp = it.walkLevel_ then
        .returns { it with neighbourStack_ := (some neighTmp, oppositeTmp) :: it.neighbourStack_ }
      else if ops.level neighTmp > it.walkLevel_ then
        match walkUp ops it.walkLevel_ fuel (some neighTmp) oppositeTmp with
        | .fault what => .fault what
        | .outOfFuel => .outOfFuel
        | .returns (neighTmp, oppositeTmp) =>
          if ops.level neighTmp = it.walkLevel_ then
            .returns
              { it with neighbourStack_ := (some neighTmp, oppositeTmp) :: it.neighbourStack_ }
          else .fault .assertion
      else
        match walkDown ops (it.walkLevel_ - 1) fuel (some neighTmp) oppositeTmp with
        | .fault what => .fault what
        | .outOfFuel => .outOfFuel
        | .returns (neighTmp, oppositeTmp) =>
          if ops.level neighTmp = it.walkLevel_ - 1 then
            match ops.down neighTmp with
            | none => .returns it
            | some tmp =>
              match pushLoop ops tmp oppositeTmp fuel it.neighbourStack_ with
              | .fault what => .fault what
              | .outOfFuel => .outOfFuel
              | .returns stack => .returns { it with neighbourStack_ := stack }
          else .fault .assertion

/-- The part of `increment()` after the stack has been refilled (lines 344-350):
`top()`, `pop()` and the assertion on the level of the neighbour. -/
def takeTop (ops : HElementAccess HElementType)
    (it : ALU2dGridLevelIntersectionIterator HElementType) :
    Call (ALU2dGridLevelIntersectionIterator HElementType) :=
  match it.neighbourStack_ with
  | [] => .fault .emptyStackTop
  | (neigh, opposite) :: rest =>
    let it1 : ALU2dGridLevelIntersectionIterator HElementType :=
      { it with current := { it.current with neigh_ := neigh, opposite_ := opposite },
                neighbourStack_ := rest }
    match neigh with
    | none => .returns it1
    | some neigh => if ops.level neigh = it.walkLevel_ then .returns it1 else .fault .assertion

/-- Embedding of `ALU2dGridLevelIntersectionIterator::increment()` (lines 329-351). -/
def increment (ops : HElementAccess HElementType) (fuel : Nat)
    (it : ALU2dGridLevelIntersectionIterator HElementType) :
    Call (ALU2dGridLevelIntersectionIterator HElementType) :=
  if it.current.index_ ≥ it.nFaces_ then
    .returns { it with toALU2dGridIntersectionBase := it.toALU2dGridIntersectionBase.done }
  else if it.neighbourStack_.isEmpty then
    let it1 : ALU2dGridLevelIntersectionIterator HElementType :=
      { it with current := { it.current with index_ := it.current.index_ + 1 } }
    if it1.current.index_ ≥ it1.nFaces_ then
      .returns { it1 with toALU2dGridIntersectionBase := it1.toALU2dGridIntersectionBase.done }
    else
      match addNeighboursToStack ops fuel it1 with
      | .fault what => .fault what
      | .outOfFuel => .outOfFuel
      | .returns it2 => takeTop ops it2
  else takeTop ops it

/-- The chain `first`, `first->next()`, `first->next()->next()`, ... of siblings (at most
`fuel` of them). -/
def siblingChain (ops : HElementAccess HElementType) :
    Nat → Option HElementType → List HElementType
  | 0, _ => []
  | _ + 1, none => []
  | fuel + 1, some child => child :: siblingChain ops fuel (ops.next child)

/-- The children of an element: `down()` and its siblings. -/
def children (ops : HElementAccess HElementType) (fuel : Nat) (father : HElementType) :
    List HElementType :=
  siblingChain ops fuel (ops.down father)

/-- The pairs the specification expects on the stack for a neighbour of level
`walkLevel_ - 1` across a face with number `oppositeTmp` in the neighbour: the children
that touch the face, those for which `getOppositeInChild` is not -1, each with its
opposite face number. -/
def touchingChildren (ops : HElementAccess HElementType) (fuel : Nat) (neigh : HElementType)
    (oppositeTmp : Int) : List (Option HElementType × Int) :=
  (children ops fuel neigh).filterMap (fun child =>
    let tmpOpposite := getOppositeInChild oppositeTmp (ops.nchild child)
    if tmpOpposite ≠ -1 then some (some child, tmpOpposite) else none)

end ALU2dGridLevelIntersectionIterator

end ALU2d

namespace AlbertaGrid

namespace AdaptationState

/-- What a call of a member function leaves behind: the object when control leaves the
function, by `return` or by the exception, and the message of the exception if one was
raised. -/
structure Effect where
  state : AdaptationState
  raised : Option String
  deriving DecidableEq, Repr

/-- Embedding of `preAdapt()` (lines 250-255) as a transformation of the object: `error`
throws before `phase_` is assigned. -/
def preAdaptEffect (s : AdaptationState) : Effect :=
  if s.phase_ ≠ .ComputationPhase then
    ⟨s, some "preAdapt may only be called in computation phase."⟩
  else ⟨{ s with phase_ := .PreAdaptationPhase }, none⟩

/-- Embedding of `adapt()` (lines 257-262) as a transformation of the object. -/
def adaptEffect (s : AdaptationState) : Effect :=
  if s.phase_ ≠ .PreAdaptationPhase then
    ⟨s, some "adapt may only be called in preadapdation phase."⟩
  else ⟨{ s with phase_ := .PostAdaptationPhase }, none⟩

/-- Embedding of `postAdapt()` (lines 264-272) as a transformation of the object. -/
def postAdaptEffect (s : AdaptationState) : Effect :=
  if s.phase_ ≠ .PostAdaptationPhase then
    ⟨s, some "postAdapt may only be called in postadaptation phase."⟩
  else ⟨{ s with phase_ := .ComputationPhase, coarsenMarked_ := 0, refineMarked_ := 0 }, none⟩

/-- The outcome of a call as its caller sees it. -/
def Effect.outcome (e : Effect) : Outcome AdaptationState :=
  match e.raised with
  | some message => .InvalidStateException message
  | none => .ok e.state

end AdaptationState

end AlbertaGrid

namespace Examples

/-- An element `0` of level 1 whose face 1 borders the macro element `2` of level 0 (its
face 1); element `2` has been refined into the children `4` (child number 0) and `5`
(child number 1) of level 1.  The faces 0 and 2 of element `0` lie on the boundary. -/
def refinedNeighbour : ALU2d.HElementAccess Nat where
  nbel := fun e face => if e = 0 ∧ face = 1 then some 2 else none
  opposite := fun e face => if e = 0 ∧ face = 1 then 1 else 0
  level := fun e => if e = 2 then 0 else 1
  leaf := fun e => decide (e ≠ 2)
  father := fun e => if e = 4 ∨ e = 5 then some 2 else none
  down := fun e => if e = 2 then some 4 else none
  next := fun e => if e = 4 then some 5 else none
  nchild := fun e => if e = 5 then 1 else 0

end Examples

end Dune

/-! # Theorems -/

namespace Dune

namespace GenericGeometry

/-! ## Numbering maps (conversion.hh) -/

theorem mapNumbering_isSome_iff (top : Topology) :
    (MapNumbering top).isSome = true ↔ top ∈ handledTopologies := by
  constructor
  · intro h
    unfold MapNumbering at h
    split at h <;> first | (simp [handledTopologies]; done) | simp at h
  · intro h
    simp only [handledTopologies, List.mem_cons, List.mem_singleton, List.not_mem_nil,
      or_false] at h
    rcases h with h | h | h | h | h | h | h | h | h | h | h | h | h | h | h <;> subst h <;> rfl

theorem subEntityCount_codim_ge_four (m : MapNumberingBase) (d c : Nat) :
    subEntityCount m d (c + 4) = 0 := by
  cases m <;> first | rfl | (rcases d with _ | _ | _ | d <;> rfl)

theorem size_pos_handled {top : Topology} {codim : Nat} (h : 0 < Size top codim) :
    top ∈ handledTopologies ∧ codim ∈ List.range 4 := by
  constructor
  · rw [← mapNumbering_isSome_iff]
    unfold Size at h
    cases hm : MapNumbering top with
    | none => rw [hm] at h; simp at h
    | some m => rfl
  · rw [List.mem_range]
    by_contra hge
    obtain ⟨c, rfl⟩ : ∃ c, codim = c + 4 := ⟨codim - 4, by omega⟩
    unfold Size at h
    cases hm : MapNumbering top with
    | none => rw [hm] at h; simp at h
    | some m => rw [hm] at h; simp only [subEntityCount_codim_ge_four] at h; omega

/-- Exhaustive check of the tables: on every handled topology, codimension and valid local
index the two maps undo each other. -/
theorem tables_inverse_checked :
    ∀ top ∈ handledTopologies, ∀ codim ∈ List.range 4, ∀ i ∈ List.range (Size top codim),
      codim ≤ top.dimension →
      ((dune2generic top codim i).bind (generic2dune top codim) = some i ∧
       (generic2dune top codim i).bind (dune2generic top codim) = some i) := by
  decide

/-- Exhaustive check of the tables: `dune2generic` maps valid local indices to valid local
indices, without repeats. -/
theorem tables_permutation_checked :
    ∀ top ∈ handledTopologies, ∀ codim ∈ List.range 4,
      (∀ i ∈ List.range (Size top codim),
        (dune2generic top codim i).isSome = true ∧
          ∀ j ∈ dune2generic top codim i, j < Size top codim) ∧
      (∀ i ∈ List.range (Size top codim), ∀ k ∈ List.range (Size top codim),
        dune2generic top codim i = dune2generic top codim k → i = k) := by
  decide

/-- C1: for every topology with a `MapNumbering` specialisation (point, line, triangle,
quadrilateral, tetrahedron, hexahedron, pyramid, prism), every codimension up to the
dimension of the shape and every local index `i` below the number of sub-entities of that
codimension, `generic2dune< codim >( dune2generic< codim >( i ) ) = i` and
`dune2generic< codim >( generic2dune< codim >( i ) ) = i`.  A topology without
specialisation has `Size top codim = 0`, so `hi` restricts `top` to the handled shapes. -/
theorem mapNumbering_mutual_inverse (top : Topology) (codim i : Nat)
    (hc : codim ≤ top.dimension) (hi : i < Size top codim) :
    (dune2generic top codim i).bind (generic2dune top codim) = some i ∧
    (generic2dune top codim i).bind (dune2generic top codim) = some i := by
  obtain ⟨ht, hcd⟩ := size_pos_handled (Nat.lt_of_le_of_lt (Nat.zero_le i) hi)
  exact tables_inverse_checked top ht codim hcd i (List.mem_range.mpr hi) hc

/-- Witness for C1: edge 0 of the pyramid over the square. -/
theorem mapNumbering_mutual_inverse_witness :
    2 ≤ (Topology.Pyramid (.Prism (.Prism .Point))).dimension ∧
    0 < Size (Topology.Pyramid (.Prism (.Prism .Point))) 2 ∧
    (dune2generic (Topology.Pyramid (.Prism (.Prism .Point))) 2 0).bind
        (generic2dune (Topology.Pyramid (.Prism (.Prism .Point))) 2) = some 0 ∧
    (generic2dune (Topology.Pyramid (.Prism (.Prism .Point))) 2 0).bind
        (dune2generic (Topology.Pyramid (.Prism (.Prism .Point))) 2) = some 0 :=
  ⟨by decide, by decide,
    mapNumbering_mutual_inverse (Topology.Pyramid (.Prism (.Prism .Point))) 2 0
      (by decide) (by decide)⟩

/-- C2: for every topology with a `MapNumbering` specialisation and every codimension,
`dune2generic< codim >` restricted to the valid local indices `0 .. n-1`
(`n = Size top codim`) is a permutation of `0 .. n-1`: the image of a valid index is
defined and below `n`, two valid indices with the same image are equal, and the table
`MapNumberingProvider` builds from the map is a rearrangement of `0 .. n-1`.  A topology
without specialisation has `Size top codim = 0`, so `hi` restricts `top` to the handled
shapes. -/
theorem dune2generic_permutation (top : Topology) (codim i k : Nat)
    (hi : i < Size top codim) (hk : k < Size top codim) :
    (∃ j, dune2generic top codim i = some j ∧ j < Size top codim) ∧
    (dune2generic top codim i = dune2generic top codim k → i = k) ∧
    (providerDune2generic top codim).Perm ((List.range (Size top codim)).map some) := by
  obtain ⟨ht, hcd⟩ := size_pos_handled (Nat.lt_of_le_of_lt (Nat.zero_le i) hi)
  have himg : ∀ i, i < Size top codim →
      ∃ j, dune2generic top codim i = some j ∧ j < Size top codim := by
    intro i hi
    obtain ⟨hs, hlt⟩ := (tables_permutation_checked top ht codim hcd).1 i (List.mem_range.mpr hi)
    obtain ⟨j, hj⟩ := Option.isSome_iff_exists.mp hs
    exact ⟨j, hj, hlt j (by rw [hj]; exact rfl)⟩
  have hinj : ∀ i k, i < Size top codim → k < Size top codim →
      dune2generic top codim i = dune2generic top codim k → i = k := by
    intro i k hi hk h
    exact (tables_permutation_checked top ht codim hcd).2 i (List.mem_range.mpr hi) k
      (List.mem_range.mpr hk) h
  refine ⟨himg i hi, hinj i k hi hk, ?_⟩
  have hnd : (providerDune2generic top codim).Nodup := by
    unfold providerDune2generic
    refine List.Nodup.map_on ?_ (List.nodup_range _)
    intro i hi k hk h
    exact hinj i k (List.mem_range.mp hi) (List.mem_range.mp hk) h
  have hsub : providerDune2generic top codim ⊆ (List.range (Size top codim)).map some := by
    intro x hx
    unfold providerDune2generic at hx
    obtain ⟨i, hi, rfl⟩ := List.mem_map.mp hx
    obtain ⟨j, hj, hlt⟩ := himg i (List.mem_range.mp hi)
    rw [hj]
    exact List.mem_map.mpr ⟨j, List.mem_range.mpr hlt, rfl⟩
  have hlen : ((List.range (Size top codim)).map some).length
      ≤ (providerDune2generic top codim).length := by
    simp [providerDune2generic]
  exact (List.subperm_of_subset hnd hsub).perm_of_length_le hlen

/-- Witness for C2: edges 1 and 4 of the prism over the triangle. -/
theorem dune2generic_permutation_witness :
    1 < Size (Topology.Prism (.Pyramid (.Pyramid .Point))) 2 ∧
    4 < Size (Topology.Prism (.Pyramid (.Pyramid .Point))) 2 ∧
    (∃ j, dune2generic (Topology.Prism (.Pyramid (.Pyramid .Point))) 2 1 = some j ∧
        j < Size (Topology.Prism (.Pyramid (.Pyramid .Point))) 2) ∧
    (dune2generic (Topology.Prism (.Pyramid (.Pyramid .Point))) 2 1
        = dune2generic (Topology.Prism (.Pyramid (.Pyramid .Point))) 2 4 → 1 = 4) ∧
    (providerDune2generic (Topology.Prism (.Pyramid (.Pyramid .Point))) 2).Perm
      ((List.range (Size (Topology.Prism (.Pyramid (.Pyramid .Point))) 2)).map some) :=
  ⟨by decide, by decide,
    dune2generic_permutation (Topology.Prism (.Pyramid (.Pyramid .Point))) 2 1 4
      (by decide) (by decide)⟩

end GenericGeometry

end Dune

namespace Dune

/-! ## ALBERTA hierarchic index set and id set (indexsets.hh) -/

namespace Alberta.IndexStack

theorem getIndex_perm (s : IndexStack) (l : List Nat)
    (h : (l ++ s.freed).Perm (List.range s.maxIndex)) :
    (s.getIndex.1 :: l ++ s.getIndex.2.freed).Perm (List.range s.getIndex.2.maxIndex) := by
  unfold getIndex
  cases hmin : s.freed.min? with
  | none =>
    have hnil : s.freed = [] := List.min?_eq_none_iff.mp hmin
    simp only [hnil, List.append_nil] at h ⊢
    rw [List.range_succ]
    exact (List.Perm.cons _ h).trans (List.perm_append_singleton _ _).symm
  | some i =>
    have hmem : i ∈ s.freed :=
      List.min?_mem (fun a b => by omega) (by rw [hmin])
    simp only
    refine List.Perm.trans ?_ h
    have h1 : (s.freed).Perm (i :: s.freed.erase i) := List.perm_cons_erase hmem
    exact (List.perm_middle.symm).trans (List.Perm.append_left l h1.symm)

theorem getIndex_maxIndex_le (s : IndexStack) : s.maxIndex ≤ s.getIndex.2.maxIndex := by
  unfold getIndex
  cases s.freed.min? <;> simp

end Alberta.IndexStack

namespace NumberedMesh

open AlbertaGridHierarchicIndexSet

theorem ConsistentAt.of_perm {h : AlbertaGridHierarchicIndexSet} {live live' : List Nat}
    {c : Nat} (hp : live.Perm live') (hc : ConsistentAt h live c) : ConsistentAt h live' c :=
  ⟨hp.nodup_iff.mp hc.1, ((hp.map _).append_right _).symm.trans hc.2⟩

theorem consistentAt_assignIndex {h : AlbertaGridHierarchicIndexSet} {live : List Nat}
    {c dof : Nat} (hc : ConsistentAt h live c) (hd : dof ∉ live) :
    ConsistentAt (h.assignIndex c dof) (dof :: live) c := by
  refine ⟨List.nodup_cons.mpr ⟨hd, hc.1⟩, ?_⟩
  have hmap : ∀ x : Nat, live.map (fun d => if d = dof then x else h.entityNumbers_ c d)
      = live.map (h.entityNumbers_ c) := by
    intro x
    apply List.map_congr_left
    intro d hdl
    have : d ≠ dof := fun e => hd (e ▸ hdl)
    simp [this]
  have := Alberta.IndexStack.getIndex_perm (h.indexStack_ c) (live.map (h.entityNumbers_ c)) hc.2
  simpa [assignIndex, size, Alberta.IndexStack.size, hmap] using this

theorem consistentAt_assignIndex_other {h : AlbertaGridHierarchicIndexSet} {live : List Nat}
    {c c' dof : Nat} (hne : c' ≠ c) (hc : ConsistentAt h live c') :
    ConsistentAt (h.assignIndex c dof) live c' := by
  simpa [ConsistentAt, assignIndex, size, hne] using hc

theorem consistentAt_coarsen {dofAccess : DofAccess} {h : AlbertaGridHierarchicIndexSet}
    {live : List Nat} {c child subEntity : Nat} (hc : ConsistentAt h live c)
    (hd : dofAccess c child subEntity ∈ live) :
    ConsistentAt (h.CoarsenNumbering dofAccess c child subEntity)
      (live.erase (dofAccess c child subEntity)) c := by
  refine ⟨hc.1.erase _, ?_⟩
  have hp : live.Perm (dofAccess c child subEntity :: live.erase (dofAccess c child subEntity)) :=
    List.perm_cons_erase hd
  have h2 := ((hp.map (h.entityNumbers_ c)).append_right (h.indexStack_ c).freed).symm.trans hc.2
  simp only [List.map_cons, List.cons_append] at h2
  simpa [CoarsenNumbering, size, Alberta.IndexStack.size, Alberta.IndexStack.freeIndex]
    using (List.perm_middle).trans h2

theorem consistentAt_coarsen_other {dofAccess : DofAccess} {h : AlbertaGridHierarchicIndexSet}
    {live : List Nat} {c c' child subEntity : Nat} (hne : c' ≠ c) (hc : ConsistentAt h live c') :
    ConsistentAt (h.CoarsenNumbering dofAccess c child subEntity) live c' := by
  simpa [ConsistentAt, CoarsenNumbering, size, hne] using hc

theorem consistentAt_createEntityNumbers (c : Nat) (dofs : List Nat) :
    ∀ (h : AlbertaGridHierarchicIndexSet) (live : List Nat), ConsistentAt h live c →
      (dofs ++ live).Nodup →
      ConsistentAt (h.CreateEntityNumbers c dofs) (dofs.reverse ++ live) c := by
  induction dofs with
  | nil => intro h live hc _; simpa [CreateEntityNumbers] using hc
  | cons d ds ih =>
    intro h live hc hnd
    have hd : d ∉ ds ++ live := (List.nodup_cons.mp hnd).1
    have hnd' : (ds ++ live).Nodup := (List.nodup_cons.mp hnd).2
    have h1 : ConsistentAt (h.assignIndex c d) (d :: live) c :=
      consistentAt_assignIndex hc (fun hm => hd (List.mem_append_right _ hm))
    have hnd2 : (ds ++ d :: live).Nodup :=
      (List.perm_middle.nodup_iff).mpr (List.nodup_cons.mpr ⟨hd, hnd'⟩)
    have h2 := ih (h.assignIndex c d) (d :: live) h1 hnd2
    simpa [CreateEntityNumbers, InitEntityNumber] using h2

theorem consistentAt_createEntityNumbers_other {c c' : Nat} (hne : c' ≠ c) (dofs : List Nat) :
    ∀ (h : AlbertaGridHierarchicIndexSet) (live : List Nat), ConsistentAt h live c' →
      ConsistentAt (h.CreateEntityNumbers c dofs) live c' := by
  induction dofs with
  | nil => intro h live hc; simpa [CreateEntityNumbers] using hc
  | cons d ds ih =>
    intro h live hc
    have h2 := ih (h.assignIndex c d) live (consistentAt_assignIndex_other hne hc)
    simpa [CreateEntityNumbers, InitEntityNumber] using h2

theorem consistentAt_construct (memory : Nat → Nat → Nat) (c : Nat) :
    ConsistentAt (construct memory) [] c := by
  simp [ConsistentAt, construct, size, Alberta.IndexStack.size, Alberta.IndexStack.empty]

theorem consistentAt_createLoop (memory : Nat → Nat → Nat) (usedDofs : Nat → List Nat) (n : Nat)
    (hnd : ∀ c, c < n → (usedDofs c).Nodup) (c : Nat) :
    ConsistentAt
      ((List.range n).foldl (fun h codim => h.CreateEntityNumbers codim (usedDofs codim))
        (construct memory))
      (if c < n then usedDofs c else []) c := by
  induction n with
  | zero => simp [consistentAt_construct memory c]
  | succ n ih =>
    have ih' := ih (fun c hc => hnd c (Nat.lt_succ_of_lt hc))
    rw [List.range_succ, List.foldl_append]
    simp only [List.foldl_cons, List.foldl_nil]
    by_cases hcn : c = n
    · subst hcn
      simp only [Nat.lt_irrefl, if_false, Nat.lt_succ_self, if_true] at ih' ⊢
      have := consistentAt_createEntityNumbers c (usedDofs c) _ [] ih'
        (by simpa using hnd c (Nat.lt_succ_self c))
      exact ConsistentAt.of_perm (by simp) this
    · have hiff : (c < n + 1) ↔ (c < n) := by omega
      simp only [hiff]
      exact consistentAt_createEntityNumbers_other hcn _ _ _ ih'

/-- After `create()` every codimension is numbered consistently. -/
theorem consistentAt_created (memory : Nat → Nat → Nat) (dimension : Nat)
    (usedDofs : Nat → List Nat) (hnd : ∀ c, c ≤ dimension → (usedDofs c).Nodup) (c : Nat) :
    ConsistentAt (created memory dimension usedDofs).indexSet
      ((created memory dimension usedDofs).live c) c := by
  have := consistentAt_createLoop memory usedDofs (dimension + 1)
    (fun c hc => hnd c (Nat.lt_succ_iff.mp hc)) c
  simpa [created, create, Nat.lt_succ_iff] using this

/-- A call that follows the protocol keeps every codimension consistent. -/
theorem consistentAt_step {dofAccess : DofAccess} {dimension : Nat} {m : NumberedMesh}
    {call : AdaptCallback} (hl : legalCall dofAccess dimension m call = true)
    (hc : ∀ c, ConsistentAt m.indexSet (m.live c) c) (c : Nat) :
    ConsistentAt (step dofAccess m call).indexSet ((step dofAccess m call).live c) c := by
  cases call with
  | refine codim child subEntity =>
    simp [legalCall] at hl
    by_cases hcc : c = codim
    · subst hcc
      simpa [step, RefineNumbering] using consistentAt_assignIndex (hc c) hl.2
    · simpa [step, RefineNumbering, hcc] using
        @consistentAt_assignIndex_other _ _ _ _ (dofAccess codim child subEntity) hcc (hc c)
  | coarsen codim child subEntity =>
    simp [legalCall] at hl
    by_cases hcc : c = codim
    · subst hcc
      simpa [step] using consistentAt_coarsen (hc c) hl.2
    · simpa [step, hcc] using
        @consistentAt_coarsen_other dofAccess _ _ _ _ child subEntity hcc (hc c)

/-- A sequence of calls that follows the protocol keeps every codimension consistent. -/
theorem consistentAt_run {dofAccess : DofAccess} {dimension : Nat} (calls : List AdaptCallback) :
    ∀ (m : NumberedMesh), legalRun dofAccess dimension m calls = true →
      (∀ c, ConsistentAt m.indexSet (m.live c) c) →
      ∀ c, ConsistentAt (run dofAccess m calls).indexSet ((run dofAccess m calls).live c) c := by
  induction calls with
  | nil => intro m _ hc; simpa [run] using hc
  | cons call calls ih =>
    intro m hl hc
    simp only [legalRun, Bool.and_eq_true] at hl
    have := ih (step dofAccess m call) hl.2 (consistentAt_step hl.1 hc)
    simpa [run] using this

end NumberedMesh

end Dune

namespace Dune

namespace NumberedMesh

open AlbertaGridHierarchicIndexSet

/-- C3 as stated fails: after element 0 and element 1 of a two-triangle mesh are refined
and the children of element 0 are coarsened away, the callbacks having followed the
protocol, the live elements hold the indices 0, 1, 4, 5 while `size( 0 )` is 6: the live
indices are not `0 .. size( 0 )-1`, indices 2 and 3 are gaps. -/
theorem index_density_counterexample :
    legalRun Examples.dofByChild 2 Examples.twoTriangles Examples.refineBothCoarsenFirst = true ∧
    liveIndices (run Examples.dofByChild Examples.twoTriangles Examples.refineBothCoarsenFirst) 0
      = [5, 4, 0, 1] ∧
    (run Examples.dofByChild Examples.twoTriangles Examples.refineBothCoarsenFirst).indexSet.size 0
      = 6 ∧
    ¬ (liveIndices
        (run Examples.dofByChild Examples.twoTriangles Examples.refineBothCoarsenFirst) 0).Perm
      (List.range
        ((run Examples.dofByChild Examples.twoTriangles
          Examples.refineBothCoarsenFirst).indexSet.size 0)) := by
  decide

/-- C3, amended: after `create()` followed by any sequence of adaptation callbacks that
follows the protocol (`RefineNumbering` on newly created sub-entities, `CoarsenNumbering`
on vanishing ones), for every codimension `c` the indices stored for the live sub-entities
together with the indices on the free list of the index stack are exactly
`0 .. size( c )-1`, each exactly once; the live indices alone are exactly
`0 .. size( c )-1` whenever the free list is empty. -/
theorem index_density_up_to_free_list (dofAccess : DofAccess) (memory : Nat → Nat → Nat)
    (dimension : Nat) (usedDofs : Nat → List Nat) (calls : List AdaptCallback) (c : Nat)
    (hnd : ∀ c, c ≤ dimension → (usedDofs c).Nodup)
    (hlegal : legalRun dofAccess dimension (created memory dimension usedDofs) calls = true) :
    (liveIndices (run dofAccess (created memory dimension usedDofs) calls) c ++
        ((run dofAccess (created memory dimension usedDofs) calls).indexSet.indexStack_ c).freed).Perm
      (List.range ((run dofAccess (created memory dimension usedDofs) calls).indexSet.size c)) ∧
    (((run dofAccess (created memory dimension usedDofs) calls).indexSet.indexStack_ c).freed = [] →
      (liveIndices (run dofAccess (created memory dimension usedDofs) calls) c).Perm
        (List.range ((run dofAccess (created memory dimension usedDofs) calls).indexSet.size c))) := by
  have hcons := consistentAt_run calls (created memory dimension usedDofs) hlegal
    (consistentAt_created memory dimension usedDofs hnd) c
  refine ⟨hcons.2, ?_⟩
  intro hfree
  have := hcons.2
  rw [hfree, List.append_nil] at this
  exact this

/-- Witness for the amended C3: the two-triangle mesh after the refinements and the
coarsening of the counterexample, codimension 0. -/
theorem index_density_up_to_free_list_witness :
    (∀ c, c ≤ 2 → (Examples.twoTrianglesDofs c).Nodup) ∧
    legalRun Examples.dofByChild 2 Examples.twoTriangles Examples.refineBothCoarsenFirst = true ∧
    (liveIndices (run Examples.dofByChild Examples.twoTriangles
          Examples.refineBothCoarsenFirst) 0 ++
        ((run Examples.dofByChild Examples.twoTriangles
          Examples.refineBothCoarsenFirst).indexSet.indexStack_ 0).freed).Perm
      (List.range ((run Examples.dofByChild Examples.twoTriangles
          Examples.refineBothCoarsenFirst).indexSet.size 0)) :=
  ⟨by intro c _; unfold Examples.twoTrianglesDofs; split_ifs <;> decide, by decide,
    (index_density_up_to_free_list Examples.dofByChild (fun _ _ => 0) 2
      Examples.twoTrianglesDofs Examples.refineBothCoarsenFirst 0
      (by intro c _; unfold Examples.twoTrianglesDofs; split_ifs <;> decide) (by decide)).1⟩

end NumberedMesh

end Dune

namespace Dune

namespace NumberedMesh

open AlbertaGridHierarchicIndexSet

theorem callbacks_run_append (dofAccess : DofAccess) (m : NumberedMesh) (xs ys : List AdaptCallback) :
    run dofAccess m (xs ++ ys) = run dofAccess (run dofAccess m xs) ys := by
  simp [run, List.foldl_append]

theorem legalRun_append {dofAccess : DofAccess} {dimension : Nat} (xs ys : List AdaptCallback) :
    ∀ m : NumberedMesh, legalRun dofAccess dimension m (xs ++ ys) = true →
      legalRun dofAccess dimension m xs = true ∧
      legalRun dofAccess dimension (run dofAccess m xs) ys = true := by
  induction xs with
  | nil => intro m h; simpa [legalRun, run] using h
  | cons x xs ih =>
    intro m h
    simp only [List.cons_append, legalRun, Bool.and_eq_true] at h
    have := ih (step dofAccess m x) h.2
    simp only [legalRun, Bool.and_eq_true, run, List.foldl_cons]
    exact ⟨⟨h.1, this.1⟩, this.2⟩

/-- In a consistent numbering two different live dofs hold different indices. -/
theorem ConsistentAt.index_injective {h : AlbertaGridHierarchicIndexSet} {live : List Nat}
    {c : Nat} (hc : ConsistentAt h live c) {d d' : Nat} (hd : d ∈ live) (hd' : d' ∈ live)
    (heq : h.entityNumbers_ c d = h.entityNumbers_ c d') : d = d' := by
  have hnd : (live.map (h.entityNumbers_ c) ++ (h.indexStack_ c).freed).Nodup :=
    hc.2.nodup_iff.mpr (List.nodup_range _)
  exact List.inj_on_of_nodup_map (List.Nodup.of_append_left hnd) hd hd' heq

/-- In a consistent numbering no index on the free list is held by a live dof and no index
is on the free list twice. -/
theorem ConsistentAt.freed_fresh {h : AlbertaGridHierarchicIndexSet} {live : List Nat}
    {c : Nat} (hc : ConsistentAt h live c) :
    (h.indexStack_ c).freed.Nodup ∧
    ∀ d ∈ live, h.entityNumbers_ c d ∉ (h.indexStack_ c).freed := by
  have hnd : (live.map (h.entityNumbers_ c) ++ (h.indexStack_ c).freed).Nodup :=
    hc.2.nodup_iff.mpr (List.nodup_range _)
  refine ⟨List.Nodup.of_append_right hnd, ?_⟩
  intro d hd hmem
  exact (List.disjoint_of_nodup_append hnd) (List.mem_map.mpr ⟨d, hd, rfl⟩) hmem

/-- Whoever holds the index `i` after a sequence of calls either held it before or is a
dof `RefineNumbering` was called with in between. -/
theorem holder_after_run (dofAccess : DofAccess) (c i : Nat) (calls : List AdaptCallback) :
    ∀ (m : NumberedMesh) (d : Nat), d ∈ (run dofAccess m calls).live c →
      (run dofAccess m calls).indexSet.entityNumbers_ c d = i →
      (d ∈ m.live c ∧ m.indexSet.entityNumbers_ c d = i) ∨ d ∈ refinedDofs dofAccess c calls := by
  induction calls with
  | nil => intro m d hd hi; exact Or.inl ⟨by simpa [run] using hd, by simpa [run] using hi⟩
  | cons call calls ih =>
    intro m d hd hi
    have hrun : run dofAccess m (call :: calls) = run dofAccess (step dofAccess m call) calls := rfl
    rw [hrun] at hd hi
    rcases ih (step dofAccess m call) d hd hi with ⟨hl, hv⟩ | hr
    · cases call with
      | refine codim child subEntity =>
        by_cases hcc : c = codim
        · subst hcc
          by_cases hdd : d = dofAccess c child subEntity
          · right; simp [refinedDofs, hdd]
          · left
            simp only [step, if_true, List.mem_cons, hdd, false_or] at hl
            simp only [step, RefineNumbering, assignIndex, if_true, hdd, if_false] at hv
            exact ⟨hl, hv⟩
        · left
          simp only [step, hcc, if_false] at hl
          simp only [step, RefineNumbering, assignIndex, hcc, if_false] at hv
          exact ⟨hl, hv⟩
      | coarsen codim child subEntity =>
        left
        simp only [step, CoarsenNumbering] at hv
        refine ⟨?_, hv⟩
        by_cases hcc : c = codim
        · subst hcc
          simp only [step, if_true] at hl
          exact List.mem_of_mem_erase hl
        · simpa [step, hcc] using hl
    · right
      cases call with
      | refine codim child subEntity =>
        by_cases hcc : codim = c
        · simp [refinedDofs, hcc, hr]
        · simpa [refinedDofs, hcc] using hr
      | coarsen codim child subEntity => simpa [refinedDofs] using hr

/-- C4: in every state reached from `create()` by refinement and coarsening callbacks that
follow the protocol (so that no index is freed twice), no two distinct live sub-entities of
the same codimension hold the same index and the free list holds no index twice; and when
some call of `CoarsenNumbering` released the index `i`, every live sub-entity that holds
`i` afterwards is one that a later call of `RefineNumbering` was made for. -/
theorem index_unique_and_reused_only_by_refinement (dofAccess : DofAccess)
    (memory : Nat → Nat → Nat) (dimension : Nat) (usedDofs : Nat → List Nat)
    (calls : List AdaptCallback) (c : Nat)
    (hnd : ∀ c, c ≤ dimension → (usedDofs c).Nodup)
    (hlegal : legalRun dofAccess dimension (created memory dimension usedDofs) calls = true) :
    (∀ d d', d ∈ (run dofAccess (created memory dimension usedDofs) calls).live c →
      d' ∈ (run dofAccess (created memory dimension usedDofs) calls).live c → d ≠ d' →
      (run dofAccess (created memory dimension usedDofs) calls).indexSet.entityNumbers_ c d ≠
      (run dofAccess (created memory dimension usedDofs) calls).indexSet.entityNumbers_ c d') ∧
    ((run dofAccess (created memory dimension usedDofs) calls).indexSet.indexStack_ c).freed.Nodup ∧
    (∀ before after child subEntity, calls = before ++ .coarsen c child subEntity :: after →
      ∀ d, d ∈ (run dofAccess (created memory dimension usedDofs) calls).live c →
        (run dofAccess (created memory dimension usedDofs) calls).indexSet.entityNumbers_ c d =
          (run dofAccess (created memory dimension usedDofs) before).indexSet.entityNumbers_ c
            (dofAccess c child subEntity) →
        d ∈ refinedDofs dofAccess c after) := by
  have hcons := consistentAt_run calls (created memory dimension usedDofs) hlegal
    (consistentAt_created memory dimension usedDofs hnd) c
  refine ⟨?_, hcons.freed_fresh.1, ?_⟩
  · intro d d' hd hd' hne heq
    exact hne (hcons.index_injective hd hd' heq)
  · intro before after child subEntity hcalls d hd hi
    subst hcalls
    obtain ⟨hl1, hl2⟩ := legalRun_append before _ _ hlegal
    have hc1 := consistentAt_run before (created memory dimension usedDofs) hl1
      (consistentAt_created memory dimension usedDofs hnd) c
    have hlc : legalCall dofAccess dimension
        (run dofAccess (created memory dimension usedDofs) before)
        (.coarsen c child subEntity) = true := by
      simp only [legalRun, Bool.and_eq_true] at hl2
      exact hl2.1
    have hmem : dofAccess c child subEntity ∈
        (run dofAccess (created memory dimension usedDofs) before).live c := by
      simp [legalCall] at hlc
      exact hlc.2
    rw [callbacks_run_append] at hd hi
    have hrun : ∀ m : NumberedMesh, run dofAccess m (.coarsen c child subEntity :: after)
        = run dofAccess (step dofAccess m (.coarsen c child subEntity)) after := fun _ => rfl
    rw [hrun] at hd hi
    rcases holder_after_run dofAccess c _ after _ d hd hi with ⟨hl, hv⟩ | hr
    · exfalso
      simp only [step, if_true] at hl
      simp only [step, CoarsenNumbering] at hv
      have hne : d ≠ dofAccess c child subEntity := by
        intro e
        rw [e] at hl
        exact (List.Nodup.not_mem_erase hc1.1) hl
      exact hne (hc1.index_injective (List.mem_of_mem_erase hl) hmem hv)
    · exact hr

/-- Witness for C4: the two-triangle mesh after the refinements and the coarsening of the
examples, codimension 0. -/
theorem index_unique_and_reused_only_by_refinement_witness :
    (∀ c, c ≤ 2 → (Examples.twoTrianglesDofs c).Nodup) ∧
    legalRun Examples.dofByChild 2 Examples.twoTriangles Examples.refineBothCoarsenFirst = true ∧
    (∀ d d', d ∈ (run Examples.dofByChild Examples.twoTriangles
          Examples.refineBothCoarsenFirst).live 0 →
      d' ∈ (run Examples.dofByChild Examples.twoTriangles
          Examples.refineBothCoarsenFirst).live 0 → d ≠ d' →
      (run Examples.dofByChild Examples.twoTriangles
          Examples.refineBothCoarsenFirst).indexSet.entityNumbers_ 0 d ≠
      (run Examples.dofByChild Examples.twoTriangles
          Examples.refineBothCoarsenFirst).indexSet.entityNumbers_ 0 d') :=
  ⟨by intro c _; unfold Examples.twoTrianglesDofs; split_ifs <;> decide, by decide,
    (index_unique_and_reused_only_by_refinement Examples.dofByChild (fun _ _ => 0) 2
      Examples.twoTrianglesDofs Examples.refineBothCoarsenFirst 0
      (by intro c _; unfold Examples.twoTrianglesDofs; split_ifs <;> decide) (by decide)).1⟩

end NumberedMesh

end Dune

namespace Dune

namespace AlbertaGridIdSet

open AlbertaGridHierarchicIndexSet

theorem idValue_eq (c i : Nat) (hc : c ≤ 3) (hi : i < 2 ^ 30) :
    idValue c i = c * 2 ^ 30 + i := by
  unfold idValue codimShift
  rw [Nat.shiftLeft_eq]
  have h1 : c % 2 ^ 32 = c := Nat.mod_eq_of_lt (by omega)
  have h2 : c * 2 ^ 30 % 2 ^ 32 = c * 2 ^ 30 := Nat.mod_eq_of_lt (by omega)
  have h3 : i % 2 ^ 32 = i := Nat.mod_eq_of_lt (by omega)
  rw [h1, h2, h3]
  exact Nat.mod_eq_of_lt (by omega)

theorem idValue_injective (c i c' i' : Nat) (hc : c ≤ 3) (hi : i < 2 ^ 30) (hc' : c' ≤ 3)
    (hi' : i' < 2 ^ 30) : idValue c i = idValue c' i' ↔ c = c' ∧ i = i' := by
  rw [idValue_eq c i hc hi, idValue_eq c' i' hc' hi']
  constructor
  · intro h; omega
  · rintro ⟨rfl, rfl⟩; rfl

theorem id_some {dofAccess : DofAccess} {h : AlbertaGridHierarchicIndexSet}
    {c element subEntity v : Nat} (hv : id dofAccess h c element subEntity = some v) :
    h.size c < maxCodimSize ∧ h.entityNumbers_ c (dofAccess c element subEntity) < h.size c ∧
    v = idValue c (h.entityNumbers_ c (dofAccess c element subEntity)) := by
  unfold id at hv
  split_ifs at hv with h1
  simp only [index, subIndex] at hv
  split_ifs at hv with h2
  · simp only [Option.map_some', Option.some.injEq] at hv
    exact ⟨h1, h2, hv.symm⟩
  · simp at hv

theorem subId_some {dofAccess : DofAccess} {dune2alberta : Nat → Nat → Nat}
    {h : AlbertaGridHierarchicIndexSet}
    {c element i v : Nat} (hv : subId dofAccess dune2alberta h c element i = some v) :
    h.size c < maxCodimSize ∧
    h.entityNumbers_ c (dofAccess c element (dune2alberta c i)) < h.size c ∧
    v = idValue c (h.entityNumbers_ c (dofAccess c element (dune2alberta c i))) := by
  unfold subId at hv
  split_ifs at hv with h1
  simp only [subIndexEntity, subIndex] at hv
  split_ifs at hv with h2
  · simp only [Option.map_some', Option.some.injEq] at hv
    exact ⟨h1, h2, hv.symm⟩
  · simp at hv

/-- When its two assertions hold, `id()` returns the id built from the codimension and
the hierarchic index of the entity. -/
theorem id_returns {dofAccess : DofAccess} {h : AlbertaGridHierarchicIndexSet}
    {c element subEntity : Nat} (hsize : h.size c < maxCodimSize)
    (hindex : h.entityNumbers_ c (dofAccess c element subEntity) < h.size c) :
    h.index dofAccess c element subEntity
      = some (h.entityNumbers_ c (dofAccess c element subEntity)) ∧
    id dofAccess h c element subEntity
      = some (idValue c (h.entityNumbers_ c (dofAccess c element subEntity))) := by
  simp only [id, index, subIndex, hsize, hindex, if_true, Option.map_some', and_self]

/-- When its two assertions hold, `subId()` returns the id built from the codimension and
the hierarchic index of the sub-entity. -/
theorem subId_returns {dofAccess : DofAccess} {dune2alberta : Nat → Nat → Nat}
    {h : AlbertaGridHierarchicIndexSet} {c element i : Nat}
    (hsize : h.size c < maxCodimSize)
    (hindex : h.entityNumbers_ c (dofAccess c element (dune2alberta c i)) < h.size c) :
    h.subIndexEntity dofAccess dune2alberta c element i
      = some (h.entityNumbers_ c (dofAccess c element (dune2alberta c i))) ∧
    subId dofAccess dune2alberta h c element i
      = some (idValue c (h.entityNumbers_ c (dofAccess c element (dune2alberta c i)))) := by
  simp only [subId, subIndexEntity, subIndex, hsize, hindex, if_true, Option.map_some',
    and_self]

/-- C5: two entities of codimensions `c, c2 <= 3` for which the assertions of the id set
hold (`size( codim ) < 2^30` and hierarchic index below `size( codim )`), the first passed
to `id()`, the second a sub-entity passed to `subId()`.  Both calls return: the id is
`((IdType)codim << 30) + index` for the hierarchic index of the entity, which is below
`2^30`.  The sum, computed in 32-bit unsigned arithmetic, does not wrap around, equals
`(codim << 30) | index` and satisfies `id >> 30 = codim` and `id mod 2^30 = index`.  Hence
`id()` and `subId()` (and likewise two calls of `id()`, or of `subId()`) give the two
entities the same id iff their codimensions and their hierarchic indices are equal.  The
arithmetic facts hold for every codimension `c0 <= 3` and every index `i0 < 2^30`. -/
theorem id_codim_index_roundtrip (dofAccess : DofAccess) (dune2alberta : Nat → Nat → Nat)
    (h : AlbertaGridHierarchicIndexSet) (c element subEntity c2 element2 k : Nat)
    (hc : c ≤ 3) (hc2 : c2 ≤ 3)
    (hsize : h.size c < maxCodimSize) (hsize2 : h.size c2 < maxCodimSize)
    (hindex : h.entityNumbers_ c (dofAccess c element subEntity) < h.size c)
    (hindex2 : h.entityNumbers_ c2 (dofAccess c2 element2 (dune2alberta c2 k)) < h.size c2) :
    (∃ i, i < 2 ^ 30 ∧ h.index dofAccess c element subEntity = some i ∧
      id dofAccess h c element subEntity = some (idValue c i) ∧
      (c <<< codimShift) + i < 2 ^ 32 ∧
      idValue c i = (c <<< codimShift) + i ∧
      idValue c i = (c <<< codimShift) ||| i ∧
      idValue c i >>> codimShift = c ∧
      idValue c i % 2 ^ codimShift = i) ∧
    (∃ i2, i2 < 2 ^ 30 ∧ h.subIndexEntity dofAccess dune2alberta c2 element2 k = some i2 ∧
      subId dofAccess dune2alberta h c2 element2 k = some (idValue c2 i2) ∧
      (c2 <<< codimShift) + i2 < 2 ^ 32 ∧
      idValue c2 i2 = (c2 <<< codimShift) + i2 ∧
      idValue c2 i2 = (c2 <<< codimShift) ||| i2 ∧
      idValue c2 i2 >>> codimShift = c2 ∧
      idValue c2 i2 % 2 ^ codimShift = i2) ∧
    (id dofAccess h c element subEntity = subId dofAccess dune2alberta h c2 element2 k ↔
      c = c2 ∧
        h.index dofAccess c element subEntity
          = h.subIndexEntity dofAccess dune2alberta c2 element2 k) ∧
    (id dofAccess h c element subEntity = id dofAccess h c2 element2 (dune2alberta c2 k) ↔
      c = c2 ∧
        h.index dofAccess c element subEntity
          = h.index dofAccess c2 element2 (dune2alberta c2 k)) ∧
    (subId dofAccess dune2alberta h c2 element2 k
        = subId dofAccess (fun _ j => j) h c element subEntity ↔
      c2 = c ∧
        h.subIndexEntity dofAccess dune2alberta c2 element2 k
          = h.subIndexEntity dofAccess (fun _ j => j) c element subEntity) ∧
    (∀ c0 i0 : Nat, c0 ≤ 3 → i0 < 2 ^ 30 →
      (c0 <<< codimShift) + i0 < 2 ^ 32 ∧
      idValue c0 i0 = (c0 <<< codimShift) + i0 ∧
      idValue c0 i0 = (c0 <<< codimShift) ||| i0 ∧
      idValue c0 i0 >>> codimShift = c0 ∧
      idValue c0 i0 % 2 ^ codimShift = i0 ∧
      ∀ c1 i1, c1 ≤ 3 → i1 < 2 ^ 30 → (idValue c0 i0 = idValue c1 i1 ↔ c0 = c1 ∧ i0 = i1)) := by
  have hm : maxCodimSize = 2 ^ 30 := by decide
  have harith : ∀ c0 i0 : Nat, c0 ≤ 3 → i0 < 2 ^ 30 →
      (c0 <<< codimShift) + i0 < 2 ^ 32 ∧
      idValue c0 i0 = (c0 <<< codimShift) + i0 ∧
      idValue c0 i0 = (c0 <<< codimShift) ||| i0 ∧
      idValue c0 i0 >>> codimShift = c0 ∧
      idValue c0 i0 % 2 ^ codimShift = i0 ∧
      ∀ c1 i1, c1 ≤ 3 → i1 < 2 ^ 30 →
        (idValue c0 i0 = idValue c1 i1 ↔ c0 = c1 ∧ i0 = i1) := by
    intro c0 i0 hc0 hi0
    have hval := idValue_eq c0 i0 hc0 hi0
    have hshift : c0 <<< codimShift = 2 ^ 30 * c0 := by
      rw [Nat.shiftLeft_eq, codimShift, Nat.mul_comm]
    refine ⟨?_, ?_, ?_, ?_, ?_, ?_⟩
    · rw [hshift]; omega
    · rw [hval, hshift]; omega
    · rw [hval, hshift, ← Nat.mul_add_lt_is_or hi0 c0]; omega
    · rw [hval, Nat.shiftRight_eq_div_pow, codimShift]; omega
    · rw [hval, codimShift]; omega
    · intro c1 i1 hc1 hi1
      exact idValue_injective c0 i0 c1 i1 hc0 hi0 hc1 hi1
  have hi : h.entityNumbers_ c (dofAccess c element subEntity) < 2 ^ 30 := by
    rw [hm] at hsize; omega
  have hi2 : h.entityNumbers_ c2 (dofAccess c2 element2 (dune2alberta c2 k)) < 2 ^ 30 := by
    rw [hm] at hsize2; omega
  obtain ⟨hidx, hid⟩ := @id_returns dofAccess h c element subEntity hsize hindex
  obtain ⟨hidx2, hid2⟩ := @subId_returns dofAccess dune2alberta h c2 element2 k hsize2 hindex2
  obtain ⟨hidx3, hid3⟩ :=
    @id_returns dofAccess h c2 element2 (dune2alberta c2 k) hsize2 hindex2
  obtain ⟨hidx4, hid4⟩ :=
    @subId_returns dofAccess (fun _ j => j) h c element subEntity hsize hindex
  obtain ⟨a1, a2, a3, a4, a5, _⟩ := harith c _ hc hi
  obtain ⟨b1, b2, b3, b4, b5, _⟩ := harith c2 _ hc2 hi2
  refine ⟨⟨_, hi, hidx, hid, a1, a2, a3, a4, a5⟩, ⟨_, hi2, hidx2, hid2, b1, b2, b3, b4, b5⟩,
    ?_, ?_, ?_, harith⟩
  · rw [hid, hid2, hidx, hidx2, Option.some.injEq, Option.some.injEq]
    exact idValue_injective _ _ _ _ hc hi hc2 hi2
  · rw [hid, hid3, hidx, hidx3, Option.some.injEq, Option.some.injEq]
    exact idValue_injective _ _ _ _ hc hi hc2 hi2
  · rw [hid2, hid4, hidx2, hidx4, Option.some.injEq, Option.some.injEq]
    exact idValue_injective _ _ _ _ hc2 hi2 hc hi

/-- Witness for C5: on the two macro triangles after `create()`, element 1 (codimension 0,
index 1) is passed to `id()` and the edge with dof 1 (codimension 1, index 1) to
`subId()`.  Both calls return, the ids are `1` and `2^30 + 1`, and they differ because
the codimensions do. -/
theorem id_codim_index_roundtrip_witness :
    ((0 : Nat) ≤ 3 ∧ (1 : Nat) ≤ 3) ∧
    (Examples.twoTriangles.indexSet.size 0 < maxCodimSize ∧
      Examples.twoTriangles.indexSet.size 1 < maxCodimSize) ∧
    (Examples.twoTriangles.indexSet.entityNumbers_ 0 (Examples.dofByChild 0 1 0)
        < Examples.twoTriangles.indexSet.size 0 ∧
      Examples.twoTriangles.indexSet.entityNumbers_ 1 (Examples.dofByChild 1 1 2)
        < Examples.twoTriangles.indexSet.size 1) ∧
    id Examples.dofByChild Examples.twoTriangles.indexSet 0 1 0 = some 1 ∧
    subId Examples.dofByChild (fun _ j => j) Examples.twoTriangles.indexSet 1 1 2
      = some (2 ^ 30 + 1) ∧
    (id Examples.dofByChild Examples.twoTriangles.indexSet 0 1 0
        = subId Examples.dofByChild (fun _ j => j) Examples.twoTriangles.indexSet 1 1 2 ↔
      0 = 1 ∧
        Examples.twoTriangles.indexSet.index Examples.dofByChild 0 1 0
          = Examples.twoTriangles.indexSet.subIndexEntity Examples.dofByChild (fun _ j => j)
              1 1 2) :=
  ⟨by decide, by decide, by decide, by decide, by decide,
    (id_codim_index_roundtrip Examples.dofByChild (fun _ j => j)
      Examples.twoTriangles.indexSet 0 1 0 1 1 2 (by decide) (by decide) (by decide)
      (by decide) (by decide) (by decide)).2.2.1⟩

end AlbertaGridIdSet

end Dune

namespace Dune

namespace NumberedMesh

open AlbertaGridHierarchicIndexSet

theorem size_le_step (dofAccess : DofAccess) (m : NumberedMesh) (call : AdaptCallback) (c : Nat) :
    m.indexSet.size c ≤ (step dofAccess m call).indexSet.size c := by
  cases call with
  | refine codim child subEntity =>
    by_cases hcc : c = codim
    · subst hcc
      simpa [step, RefineNumbering, assignIndex, size, Alberta.IndexStack.size] using
        Alberta.IndexStack.getIndex_maxIndex_le (m.indexSet.indexStack_ c)
    · simp [step, RefineNumbering, assignIndex, size, hcc]
  | coarsen codim child subEntity =>
    by_cases hcc : c = codim
    · subst hcc
      simp [step, CoarsenNumbering, size, Alberta.IndexStack.size, Alberta.IndexStack.freeIndex]
    · simp [step, CoarsenNumbering, size, hcc]

theorem size_le_run (dofAccess : DofAccess) (calls : List AdaptCallback) (c : Nat) :
    ∀ m : NumberedMesh, m.indexSet.size c ≤ (run dofAccess m calls).indexSet.size c := by
  induction calls with
  | nil => intro m; exact Nat.le_refl _
  | cons call calls ih =>
    intro m
    exact Nat.le_trans (size_le_step dofAccess m call c) (ih (step dofAccess m call))

theorem entityNumbers_step_untouched (dofAccess : DofAccess) (m : NumberedMesh)
    (call : AdaptCallback) (c d : Nat) (hd : d ∉ touchedDofs dofAccess c [call]) :
    (step dofAccess m call).indexSet.entityNumbers_ c d = m.indexSet.entityNumbers_ c d := by
  cases call with
  | refine codim child subEntity =>
    by_cases hcc : c = codim
    · subst hcc
      have : d ≠ dofAccess c child subEntity := by simpa [touchedDofs] using hd
      simp [step, RefineNumbering, assignIndex, this]
    · simp [step, RefineNumbering, assignIndex, hcc]
  | coarsen codim child subEntity => rfl

theorem touchedDofs_cons (dofAccess : DofAccess) (c : Nat) (call : AdaptCallback)
    (calls : List AdaptCallback) :
    touchedDofs dofAccess c (call :: calls)
      = touchedDofs dofAccess c [call] ++ touchedDofs dofAccess c calls := by
  cases call with
  | refine codim child subEntity => by_cases h : codim = c <;> simp [touchedDofs, h]
  | coarsen codim child subEntity => by_cases h : codim = c <;> simp [touchedDofs, h]

theorem entityNumbers_run_untouched (dofAccess : DofAccess) (calls : List AdaptCallback)
    (c d : Nat) :
    ∀ m : NumberedMesh, d ∉ touchedDofs dofAccess c calls →
      (run dofAccess m calls).indexSet.entityNumbers_ c d = m.indexSet.entityNumbers_ c d := by
  induction calls with
  | nil => intro m _; rfl
  | cons call calls ih =>
    intro m hd
    rw [touchedDofs_cons, List.mem_append, not_or] at hd
    have h1 := ih (step dofAccess m call) hd.2
    have h2 := entityNumbers_step_untouched dofAccess m call c d hd.1
    exact h1.trans h2

/-- C6: `RefineNumbering::operator()` overwrites exactly the slot of the dof of the
`(child, subEntity)` it is called with, in the numbering of its codimension, and
`CoarsenNumbering::operator()` overwrites no slot; hence over an adapt cycle (any sequence
of callbacks) a sub-entity whose dof is passed to no callback keeps its hierarchic index,
and keeps its id from `AlbertaGridIdSet` (as long as the assertion
`size( codim ) < maxCodimSize` of `id` still holds after the cycle). -/
theorem id_stable_across_adaptation (dofAccess : DofAccess) (m : NumberedMesh)
    (calls : List AdaptCallback) (c element subEntity : Nat)
    (huntouched : dofAccess c element subEntity ∉ touchedDofs dofAccess c calls) :
    (∀ (h : AlbertaGridHierarchicIndexSet) (codim child sub c' d : Nat),
      (c' ≠ codim ∨ d ≠ dofAccess codim child sub) →
      (h.RefineNumbering dofAccess codim child sub).entityNumbers_ c' d = h.entityNumbers_ c' d) ∧
    (∀ (h : AlbertaGridHierarchicIndexSet) (codim child sub : Nat),
      (h.RefineNumbering dofAccess codim child sub).entityNumbers_ codim
          (dofAccess codim child sub) = (h.indexStack_ codim).getIndex.1) ∧
    (∀ (h : AlbertaGridHierarchicIndexSet) (codim child sub : Nat),
      (h.CoarsenNumbering dofAccess codim child sub).entityNumbers_ = h.entityNumbers_) ∧
    (run dofAccess m calls).indexSet.entityNumbers_ c (dofAccess c element subEntity)
      = m.indexSet.entityNumbers_ c (dofAccess c element subEntity) ∧
    (∀ v, m.indexSet.index dofAccess c element subEntity = some v →
      (run dofAccess m calls).indexSet.index dofAccess c element subEntity = some v) ∧
    (∀ v, AlbertaGridIdSet.id dofAccess m.indexSet c element subEntity = some v →
      (run dofAccess m calls).indexSet.size c < AlbertaGridIdSet.maxCodimSize →
      AlbertaGridIdSet.id dofAccess (run dofAccess m calls).indexSet c element subEntity
        = some v) := by
  have hsame := entityNumbers_run_untouched dofAccess calls c _ m huntouched
  have hsize := size_le_run dofAccess calls c m
  refine ⟨?_, ?_, ?_, hsame, ?_, ?_⟩
  · intro h codim child sub c' d hne
    by_cases hcc : c' = codim
    · subst hcc
      have hd : d ≠ dofAccess c' child sub := by
        rcases hne with h1 | h1
        · exact absurd rfl h1
        · exact h1
      simp [RefineNumbering, assignIndex, hd]
    · simp [RefineNumbering, assignIndex, hcc]
  · intro h codim child sub
    simp [RefineNumbering, assignIndex]
  · intro h codim child sub
    rfl
  · intro v hv
    simp only [index, subIndex] at hv ⊢
    rw [hsame]
    split_ifs at hv with h1
    rw [if_pos (Nat.lt_of_lt_of_le h1 hsize)]
    exact hv
  · intro v hv hs
    obtain ⟨_, hlt, rfl⟩ := AlbertaGridIdSet.id_some hv
    simp only [AlbertaGridIdSet.id, index, subIndex, hs, if_true, hsame,
      Nat.lt_of_lt_of_le hlt hsize, Option.map_some']

/-- Witness for C6: element 1 of the two-triangle mesh is passed to no callback while
both elements are refined and the children of element 0 are coarsened away. -/
theorem id_stable_across_adaptation_witness :
    Examples.dofByChild 0 1 0 ∉
      touchedDofs Examples.dofByChild 0 Examples.refineBothCoarsenFirst ∧
    (run Examples.dofByChild Examples.twoTriangles
        Examples.refineBothCoarsenFirst).indexSet.entityNumbers_ 0 (Examples.dofByChild 0 1 0)
      = Examples.twoTriangles.indexSet.entityNumbers_ 0 (Examples.dofByChild 0 1 0) ∧
    (∀ v, AlbertaGridIdSet.id Examples.dofByChild Examples.twoTriangles.indexSet 0 1 0 = some v →
      (run Examples.dofByChild Examples.twoTriangles
        Examples.refineBothCoarsenFirst).indexSet.size 0 < AlbertaGridIdSet.maxCodimSize →
      AlbertaGridIdSet.id Examples.dofByChild (run Examples.dofByChild Examples.twoTriangles
        Examples.refineBothCoarsenFirst).indexSet 0 1 0 = some v) :=
  ⟨by decide,
    (id_stable_across_adaptation Examples.dofByChild Examples.twoTriangles
      Examples.refineBothCoarsenFirst 0 1 0 (by decide)).2.2.2.1,
    (id_stable_across_adaptation Examples.dofByChild Examples.twoTriangles
      Examples.refineBothCoarsenFirst 0 1 0 (by decide)).2.2.2.2.2⟩

end NumberedMesh

end Dune

namespace Dune

/-! ## ALU2d hierarchic iterator (iterator_imp.cc) -/

namespace ALU2d

namespace HElement

theorem get?_cons (t : HElement) (k : Nat) (p : HElementPtr) :
    t.get? (k :: p) = (t.get? p).bind (fun e => e.children[k]?) := by
  rw [get?]
  cases t.get? p <;> rfl

theorem wellLevelledChildren_getElem? (l : Int) :
    ∀ (cs : List HElement) (k : Nat) (c : HElement), wellLevelledChildren l cs = true →
      cs[k]? = some c → c.storedLevel = l + 1 ∧ c.wellLevelled = true := by
  intro cs
  induction cs with
  | nil => intro k c _ h; simp at h
  | cons c0 cs ih =>
    intro k c hwl h
    simp only [wellLevelledChildren, Bool.and_eq_true, decide_eq_true_eq] at hwl
    cases k with
    | zero =>
      simp only [List.getElem?_cons_zero, Option.some.injEq] at h
      subst h
      exact ⟨hwl.1.1, hwl.1.2⟩
    | succ k =>
      simp only [List.getElem?_cons_succ] at h
      exact ih k c hwl.2 h

theorem wellLevelled_children (e : HElement) (h : e.wellLevelled = true) :
    wellLevelledChildren e.storedLevel e.children = true := by
  cases e with
  | node l cs => simpa [wellLevelled, storedLevel, children] using h

theorem wellLevelled_get? (t : HElement) (ht : t.wellLevelled = true) :
    ∀ (p : HElementPtr) (e : HElement), t.get? p = some e → e.wellLevelled = true := by
  intro p
  induction p with
  | nil => intro e h; simp only [get?, Option.some.injEq] at h; exact h ▸ ht
  | cons k p ih =>
    intro e h
    rw [get?_cons] at h
    cases hp : t.get? p with
    | none => rw [hp] at h; simp at h
    | some f =>
      rw [hp] at h
      simp only [Option.some_bind] at h
      exact (wellLevelledChildren_getElem? _ _ k e (wellLevelled_children f (ih f hp)) h).2

/-- The level of a child is the level of its father plus one. -/
theorem storedLevel_child (t : HElement) (ht : t.wellLevelled = true) (p : HElementPtr)
    (k : Nat) (f c : HElement) (hf : t.get? p = some f) (hc : t.get? (k :: p) = some c) :
    c.storedLevel = f.storedLevel + 1 := by
  rw [get?_cons, hf] at hc
  simp only [Option.some_bind] at hc
  exact (wellLevelledChildren_getElem? _ _ k c
    (wellLevelled_children f (wellLevelled_get? t ht p f hf)) hc).1

end HElement

end ALU2d

end Dune

namespace Dune

namespace ALU2d

theorem drop_eq_cons_facts {α : Type} {l : List α} {k : Nat} {c : α} {cs : List α}
    (h : l.drop k = c :: cs) : l[k]? = some c ∧ l.drop (k + 1) = cs := by
  constructor
  · have h0 : (l.drop k)[0]? = l[k + 0]? := List.getElem?_drop l k 0
    rw [h] at h0
    simpa using h0.symm
  · rw [← List.tail_drop, h, List.tail_cons]

namespace HElement

mutual
/-- Every descendant address refers to an element, and its level is above the level of
the element the listing starts from. -/
theorem descendants_level (t : HElement) :
    ∀ (c : HElement) (a : HElementPtr), t.get? a = some c → c.wellLevelled = true →
      ∀ q ∈ c.descendants a, ∃ e, t.get? q = some e ∧ c.storedLevel + 1 ≤ e.storedLevel
  | node l cs, a, ha, hwl, q, hq => by
    rw [descendants] at hq
    exact descendantsOfChildren_level t cs a 0 (node l cs) l ha rfl
      (by simpa [wellLevelled] using hwl) q hq
/-- The same for the listing of a tail of the children of an element. -/
theorem descendantsOfChildren_level (t : HElement) :
    ∀ (cs : List HElement) (a : HElementPtr) (k : Nat) (f : HElement) (l : Int),
      t.get? a = some f → f.children.drop k = cs → wellLevelledChildren l cs = true →
      ∀ q ∈ descendantsOfChildren a k cs, ∃ e, t.get? q = some e ∧ l + 1 ≤ e.storedLevel
  | [], _, _, _, _, _, _, _, q, hq => by simp [descendantsOfChildren] at hq
  | c :: cs, a, k, f, l, ha, hdrop, hwl, q, hq => by
    obtain ⟨hk, hdrop'⟩ := drop_eq_cons_facts hdrop
    have hc : t.get? (k :: a) = some c := by rw [get?_cons, ha]; exact hk
    simp only [wellLevelledChildren, Bool.and_eq_true, decide_eq_true_eq] at hwl
    rw [descendantsOfChildren] at hq
    simp only [List.cons_append, List.mem_cons, List.mem_append] at hq
    rcases hq with rfl | hq | hq
    · exact ⟨c, hc, by rw [hwl.1.1]⟩
    · obtain ⟨e, he, hle⟩ := descendants_level t c (k :: a) hc hwl.1.2 q hq
      exact ⟨e, he, by rw [hwl.1.1] at hle; omega⟩
    · exact descendantsOfChildren_level t cs a (k + 1) f l ha hdrop' hwl.2 q hq
end

end HElement

namespace ALU2dGridHierarchicIterator

open HElement

theorem hierarchic_run_append (t : HElement) (r : HElementPtr) (m : Int) :
    ∀ (l1 l2 : List HElementPtr) (x z y : Option HElementPtr),
      Run t r m x l1 z → Run t r m z l2 y → Run t r m x (l1 ++ l2) y := by
  intro l1
  induction l1 with
  | nil => intro l2 x z y h1 h2; simp only [Run] at h1; subst h1; simpa using h2
  | cons p l1 ih =>
    intro l2 x z y h1 h2
    obtain ⟨hx, w, hw, hrest⟩ := h1
    exact ⟨hx, w, hw, ih l2 w z y hrest h2⟩

theorem level_eq_of_get? {t : HElement} {p : HElementPtr} {e : HElement}
    (h : t.get? p = some e) : level t p = e.storedLevel := by
  simp [level, h]

theorem down_eq_none (t : HElement) (a : HElementPtr) (f : HElement)
    (ha : t.get? a = some f) (hcs : f.children = []) : down t a = none := by
  unfold down
  rw [get?_cons, ha]
  simp [hcs]

theorem down_eq_some (t : HElement) (a : HElementPtr) (f : HElement)
    (ha : t.get? a = some f) (hcs : f.children ≠ []) : down t a = some (0 :: a) := by
  unfold down
  rw [get?_cons, ha]
  cases hc : f.children with
  | nil => exact absurd hc hcs
  | cons c cs => simp [hc]

theorem next_eq_none (t : HElement) (p : HElementPtr) (k : Nat) (f : HElement)
    (hp : t.get? p = some f) (hcs : f.children.drop (k + 1) = []) :
    next t (k :: p) = none := by
  have hlen : f.children.length ≤ k + 1 := List.drop_eq_nil_iff.mp hcs
  have hget : t.get? ((k + 1) :: p) = none := by
    rw [get?_cons, hp]
    simp only [Option.some_bind]
    exact List.getElem?_eq_none hlen
  simp only [next, hget]

theorem next_eq_some (t : HElement) (p : HElementPtr) (k : Nat) (f : HElement) (c : HElement)
    (cs : List HElement) (hp : t.get? p = some f) (hcs : f.children.drop (k + 1) = c :: cs) :
    next t (k :: p) = some ((k + 1) :: p) := by
  have hget : t.get? ((k + 1) :: p) = some c := by
    rw [get?_cons, hp]
    simp only [Option.some_bind]
    exact (drop_eq_cons_facts hcs).1
  simp only [next, hget]

/-- The listing of descendants of an element above the level bound is filtered away. -/
theorem filter_descendants_eq_nil (t : HElement) (m : Int) (c : HElement) (a : HElementPtr)
    (ha : t.get? a = some c) (hwl : c.wellLevelled = true) (hlev : m < c.storedLevel + 1) :
    (c.descendants a).filter (fun q => decide (level t q ≤ m)) = [] := by
  rw [List.filter_eq_nil_iff]
  intro q hq
  obtain ⟨e, he, hle⟩ := descendants_level t c a ha hwl q hq
  rw [level_eq_of_get? he]
  simp only [decide_eq_true_eq]
  omega

/-- For an element within the level bound, the part of `goNextElement` starting with
`next()` agrees with the loop: the level test on the sibling always succeeds. -/
theorem viaNext_eq_whileNoNext (t : HElement) (ht : t.wellLevelled = true) (r : HElementPtr)
    (m : Int) (k : Nat) (p : HElementPtr) (c : HElement) (hc : t.get? (k :: p) = some c)
    (hlev : c.storedLevel ≤ m) :
    goNextElementViaNext t r m (k :: p) = whileNoNext t r (k :: p) := by
  cases hp : t.get? p with
  | none => rw [get?_cons, hp] at hc; simp at hc
  | some f =>
    have hcl : c.storedLevel = f.storedLevel + 1 := storedLevel_child t ht p k f c hp hc
    cases hdrop : f.children.drop (k + 1) with
    | nil =>
      have hn := next_eq_none t p k f hp hdrop
      simp [goNextElementViaNext, whileNoNext, hn, goNextElementViaFather, father]
    | cons c1 cs1 =>
      have hn := next_eq_some t p k f c1 cs1 hp hdrop
      have hc1 : t.get? ((k + 1) :: p) = some c1 := by
        rw [get?_cons, hp]; exact (drop_eq_cons_facts hdrop).1
      have hl1 : level t ((k + 1) :: p) ≤ m := by
        rw [level_eq_of_get? hc1, storedLevel_child t ht p (k + 1) f c1 hp hc1]
        omega
      simp [goNextElementViaNext, whileNoNext, hn, hl1]

mutual
/-- From an element `a` strictly below `elem_` whose level is within the bound, the
iterator visits `a` and its descendants within the bound in pre-order, and then stands
where the loop of `goNextElement` started at `a` leads to. -/
theorem run_subtree (t : HElement) (ht : t.wellLevelled = true) (r : HElementPtr) (m : Int) :
    ∀ (c : HElement) (a : HElementPtr) (z : Option HElementPtr),
      t.get? a = some c → c.storedLevel ≤ m → r.length < a.length →
      whileNoNext t r a = some z →
      Run t r m (some a) (a :: (c.descendants a).filter (fun q => decide (level t q ≤ m))) z
  | node l [], a, z, ha, hlev, hlen, hz => by
    obtain ⟨k, p, rfl⟩ : ∃ k p, a = k :: p := by
      cases a with
      | nil => simp at hlen
      | cons k p => exact ⟨k, p, rfl⟩
    have hz' := (viaNext_eq_whileNoNext t ht r m k p _ ha hlev).trans hz
    refine ⟨rfl, z, ?_, ?_⟩
    · simp [goNextElement, down_eq_none t (k :: p) _ ha rfl, hz']
    · simp [descendants, descendantsOfChildren, Run]
  | node l (c0 :: cs0), a, z, ha, hlev, hlen, hz => by
    obtain ⟨k, p, rfl⟩ : ∃ k p, a = k :: p := by
      cases a with
      | nil => simp at hlen
      | cons k p => exact ⟨k, p, rfl⟩
    have hz' := (viaNext_eq_whileNoNext t ht r m k p _ ha hlev).trans hz
    refine ⟨rfl, ?_⟩
    have hne : k :: p ≠ r := fun e => by rw [e] at hlen; exact Nat.lt_irrefl _ hlen
    have hdown : down t (k :: p) = some (0 :: k :: p) :=
      down_eq_some t (k :: p) _ ha (List.cons_ne_nil c0 cs0)
    have hc0 : t.get? (0 :: k :: p) = some c0 := by
      rw [get?_cons, ha]; simp [children]
    have hlevel0 : level t (0 :: k :: p) = l + 1 := by
      rw [level_eq_of_get? hc0, storedLevel_child t ht (k :: p) 0 _ c0 ha hc0]
      rfl
    by_cases hin : l + 1 ≤ m
    · refine ⟨some (0 :: k :: p), ?_, ?_⟩
      · simp [goNextElement, hdown, hlevel0, hin]
      · rw [descendants]
        refine run_children t ht r m (c0 :: cs0) (k :: p) 0 (node l (c0 :: cs0)) z ha rfl
          (List.cons_ne_nil _ _) hin (Nat.le_of_lt hlen) ?_
        rw [if_neg hne]
        exact hz
    · refine ⟨z, ?_, ?_⟩
      · simp [goNextElement, hdown, hlevel0, hin, hz']
      · rw [filter_descendants_eq_nil t m (node l (c0 :: cs0)) (k :: p) ha
          (wellLevelled_get? t ht _ _ ha) (by simp only [storedLevel]; omega)]
        simp [Run]
/-- From child number `k` of an element `p` (which is `elem_` or below it), the children
being within the bound, the iterator visits the children from number `k` on with their
descendants within the bound, and then stands where `goNextElement` leads to from a last
child of `p`. -/
theorem run_children (t : HElement) (ht : t.wellLevelled = true) (r : HElementPtr) (m : Int) :
    ∀ (cs : List HElement) (p : HElementPtr) (k : Nat) (f : HElement)
      (z : Option HElementPtr),
      t.get? p = some f → f.children.drop k = cs → cs ≠ [] →
      f.storedLevel + 1 ≤ m → r.length ≤ p.length →
      (if p = r then some none else whileNoNext t r p) = some z →
      Run t r m (some (k :: p))
        ((descendantsOfChildren p k cs).filter (fun q => decide (level t q ≤ m))) z
  | [], _, _, _, _, _, _, hne, _, _, _ => absurd rfl hne
  | c :: cs, p, k, f, z, hp, hdrop, _, hlev, hlen, hz => by
    obtain ⟨hk, hdrop'⟩ := drop_eq_cons_facts hdrop
    have hc : t.get? (k :: p) = some c := by rw [get?_cons, hp]; exact hk
    have hcl : c.storedLevel = f.storedLevel + 1 := storedLevel_child t ht p k f c hp hc
    have hcm : c.storedLevel ≤ m := by omega
    have hpass : decide (level t (k :: p) ≤ m) = true := by
      rw [level_eq_of_get? hc]; exact decide_eq_true hcm
    have hlen' : r.length < (k :: p).length := by simp only [List.length_cons]; omega
    have hfilter := @List.filter_cons_of_pos _ (fun q => decide (level t q ≤ m)) (k :: p)
      (descendants (k :: p) c) hpass
    rw [descendantsOfChildren, List.filter_append, hfilter]
    cases hcs : cs with
    | nil =>
      have hn := next_eq_none t p k f hp (by rw [hdrop', hcs])
      have hw : whileNoNext t r (k :: p) = some z := by
        simp only [whileNoNext, hn]
        exact hz
      have := run_subtree t ht r m c (k :: p) z hc hcm hlen' hw
      simpa [descendantsOfChildren] using this
    | cons c1 cs1 =>
      have hn := next_eq_some t p k f c1 cs1 hp (by rw [hdrop', hcs])
      have hw : whileNoNext t r (k :: p) = some (some ((k + 1) :: p)) := by
        simp only [whileNoNext, hn]
      have h1 := run_subtree t ht r m c (k :: p) (some ((k + 1) :: p)) hc hcm hlen' hw
      have h2 := run_children t ht r m cs p (k + 1) f z hp hdrop'
        (by rw [hcs]; exact List.cons_ne_nil _ _) hlev hlen hz
      rw [← hcs]
      exact hierarchic_run_append t r m _ _ _ _ _ h1 h2
end

end ALU2dGridHierarchicIterator

end ALU2d

end Dune

namespace Dune

namespace ALU2d

namespace ALU2dGridHierarchicIterator

open HElement

/-- From the position the constructor establishes, the iterator visits the expected
elements and then is at end. -/
theorem run_construct (t : HElement) (ht : t.wellLevelled = true) (r : HElementPtr)
    (e : HElement) (hr : t.get? r = some e) (m : Int) :
    Run t r m (construct t r m false).item_ (expected t r m) none := by
  cases e with
  | node l cs =>
    cases cs with
    | nil =>
      simp [construct, expected, hr, down_eq_none t r _ hr rfl, descendants,
        descendantsOfChildren, Run]
    | cons c0 cs0 =>
      have hdown : down t r = some (0 :: r) :=
        down_eq_some t r _ hr (List.cons_ne_nil c0 cs0)
      have hc0 : t.get? (0 :: r) = some c0 := by
        rw [get?_cons, hr]; simp [children]
      have hlevel0 : level t (0 :: r) = l + 1 := by
        rw [level_eq_of_get? hc0, storedLevel_child t ht r 0 _ c0 hr hc0]
        rfl
      by_cases hin : l + 1 ≤ m
      · have := run_children t ht r m (c0 :: cs0) r 0 (node l (c0 :: cs0)) none hr rfl
          (List.cons_ne_nil _ _) hin (Nat.le_refl _) (by simp)
        simpa [construct, expected, hr, hdown, hlevel0, hin, descendants] using this
      · have hnil := filter_descendants_eq_nil t m (node l (c0 :: cs0)) r hr
          (wellLevelled_get? t ht _ _ hr) (by simp only [storedLevel]; omega)
        simp [construct, expected, hr, hdown, hlevel0, hin, hnil, Run]

theorem increment_eq (t : HElement) (it : ALU2dGridHierarchicIterator) (p : HElementPtr)
    (z : Option HElementPtr) (hp : it.item_ = some p)
    (hz : goNextElement t it.elem_ it.maxlevel_ p = some z) :
    increment t it = some { it with item_ := z } := by
  unfold increment
  rw [hp]
  simp only [hz]
  cases z <;> rfl

theorem traverse_of_run (t : HElement) :
    ∀ (visited : List HElementPtr) (it : ALU2dGridHierarchicIterator),
      Run t it.elem_ it.maxlevel_ it.item_ visited none →
      ∀ fuel, visited.length ≤ fuel → traverse t fuel it = some visited := by
  intro visited
  induction visited with
  | nil =>
    intro it h fuel _
    simp only [Run] at h
    cases fuel <;> simp [traverse, h]
  | cons p visited ih =>
    intro it h fuel hfuel
    obtain ⟨hp, z, hz, hrest⟩ := h
    cases fuel with
    | zero => simp at hfuel
    | succ fuel =>
      have hinc := increment_eq t it p z hp hz
      have := ih { it with item_ := z } hrest fuel (by simpa using hfuel)
      simp [traverse, hp, hinc, this]

theorem run_positions (t : HElement) (r : HElementPtr) (m : Int) :
    ∀ (visited : List HElementPtr) (x : Option HElementPtr), Run t r m x visited none →
      x = visited[0]? ∧
      ∀ n p, visited[n]? = some p → goNextElement t r m p = some visited[n + 1]? := by
  intro visited
  induction visited with
  | nil => intro x h; simp only [Run] at h; simp [h]
  | cons q visited ih =>
    intro x h
    obtain ⟨hx, z, hz, hrest⟩ := h
    obtain ⟨hz0, hstep⟩ := ih z hrest
    refine ⟨by simp [hx], ?_⟩
    intro n p hn
    cases n with
    | zero =>
      simp only [List.getElem?_cons_zero, Option.some.injEq] at hn
      subst hn
      simpa [hz] using hz0
    | succ n =>
      simp only [List.getElem?_cons_succ] at hn ⊢
      exact hstep n p hn

/-- After `n` increments the iterator points to the element number `n` of the run, and is
at end after as many increments as the run has elements; further increments are not
defined. -/
theorem incrementN_of_run (t : HElement) (it : ALU2dGridHierarchicIterator)
    (visited : List HElementPtr)
    (h : Run t it.elem_ it.maxlevel_ it.item_ visited none) :
    ∀ n, (n ≤ visited.length → incrementN t n it = some { it with item_ := visited[n]? }) ∧
      (visited.length < n → incrementN t n it = none) := by
  obtain ⟨h0, hstep⟩ := run_positions t it.elem_ it.maxlevel_ visited it.item_ h
  intro n
  induction n with
  | zero =>
    refine ⟨fun _ => ?_, fun hlt => absurd hlt (Nat.not_lt_zero _)⟩
    simp only [incrementN, ← h0]
  | succ n ih =>
    constructor
    · intro hle
      have hn : n < visited.length := hle
      rw [incrementN, ih.1 (Nat.le_of_lt hn)]
      simp only [Option.some_bind]
      have hp : visited[n]? = some visited[n] := List.getElem?_eq_getElem hn
      have := increment_eq t { it with item_ := visited[n]? } visited[n] visited[n + 1]? hp
        (hstep n _ hp)
      simpa using this
    · intro hlt
      rw [incrementN]
      by_cases hn : n ≤ visited.length
      · have heq : n = visited.length := by omega
        rw [ih.1 hn]
        simp only [Option.some_bind, increment]
        rw [List.getElem?_eq_none (Nat.le_of_eq heq.symm)]
      · rw [ih.2 (by omega)]
        rfl

theorem mem_expected_level (t : HElement) (r : HElementPtr) (m : Int) (q : HElementPtr)
    (hq : q ∈ expected t r m) : level t q ≤ m := by
  unfold expected at hq
  cases hr : t.get? r with
  | none => simp [hr] at hq
  | some e =>
    simp only [hr, List.mem_filter, decide_eq_true_eq] at hq
    exact hq.2

end ALU2dGridHierarchicIterator

end ALU2d

end Dune

namespace Dune

namespace ALU2d

namespace ALU2dGridHierarchicIterator

open HElement

/-- C7: an `ALU2dGridHierarchicIterator` with bound `maxlevel`, started on an element `r`
of a refinement tree in which every child's level is its father's level plus one, never
points to an element whose level exceeds `maxlevel`: neither right after construction
(`n = 0`) nor after any number `n` of increments. -/
theorem hierarchic_iterator_level_bound (t : HElement) (r : HElementPtr) (maxlevel : Int)
    (endFlag : Bool) (n : Nat) (it' : ALU2dGridHierarchicIterator) (p : HElementPtr)
    (ht : t.wellLevelled = true) (hr : (t.get? r).isSome = true)
    (hn : incrementN t n (construct t r maxlevel endFlag) = some it')
    (hp : it'.item_ = some p) : level t p ≤ maxlevel := by
  obtain ⟨e, he⟩ := Option.isSome_iff_exists.mp hr
  cases endFlag with
  | false =>
    have hrun := run_construct t ht r e he maxlevel
    have hN := incrementN_of_run t (construct t r maxlevel false) (expected t r maxlevel)
      (by
        have h1 : (construct t r maxlevel false).elem_ = r := by
          unfold construct; simp only [Bool.not_false, if_true]; split <;> [split; skip] <;> rfl
        have h2 : (construct t r maxlevel false).maxlevel_ = maxlevel := by
          unfold construct; simp only [Bool.not_false, if_true]; split <;> [split; skip] <;> rfl
        rw [h1, h2]; exact hrun) n
    by_cases hle : n ≤ (expected t r maxlevel).length
    · rw [hN.1 hle, Option.some.injEq] at hn
      subst hn
      simp only at hp
      exact mem_expected_level t r maxlevel p (List.getElem?_mem hp)
    · rw [hN.2 (by omega)] at hn
      simp at hn
  | true =>
    have hN := incrementN_of_run t (construct t r maxlevel true) []
      (by simp [construct, Run]) n
    by_cases hle : n ≤ ([] : List HElementPtr).length
    · rw [hN.1 hle, Option.some.injEq] at hn
      subst hn
      simp at hp
    · rw [hN.2 (by omega)] at hn
      simp at hn

/-- Witness for C7: the twice refined triangle, bound 3, after three increments the
iterator points to the element `[0, 1, 0]` of level 3. -/
theorem hierarchic_iterator_level_bound_witness :
    Examples.refinedTriangle.wellLevelled = true ∧
    (Examples.refinedTriangle.get? []).isSome = true ∧
    incrementN Examples.refinedTriangle 3 (construct Examples.refinedTriangle [] 3 false)
      = some ⟨some [0, 1, 0], [], 3, false⟩ ∧
    level Examples.refinedTriangle [0, 1, 0] ≤ 3 :=
  ⟨by decide, by decide, by decide,
    hierarchic_iterator_level_bound Examples.refinedTriangle [] 3 false 3
      ⟨some [0, 1, 0], [], 3, false⟩ [0, 1, 0] (by decide) (by decide) (by decide) rfl⟩

end ALU2dGridHierarchicIterator

end ALU2d

end Dune

namespace Dune

namespace ALU2d

namespace HElement

theorem get?_append (t : HElement) (r : HElementPtr) :
    ∀ s : HElementPtr, t.get? (s ++ r) = (t.get? r).bind (fun e => e.get? s) := by
  intro s
  induction s with
  | nil => cases h : t.get? r <;> simp [h, get?]
  | cons k s ih =>
    rw [List.cons_append, get?_cons, ih]
    cases h : t.get? r with
    | none => simp
    | some e => simp [get?_cons]

mutual
/-- The addresses listed as descendants of the element at `a` are exactly the addresses
strictly below `a` that refer to an element. -/
theorem mem_descendants :
    ∀ (c : HElement) (a q : HElementPtr),
      q ∈ c.descendants a ↔ ∃ s, s ≠ [] ∧ q = s ++ a ∧ (c.get? s).isSome = true
  | node l cs, a, q => by
    rw [descendants, mem_descendantsOfChildren cs a 0 q]
    constructor
    · rintro ⟨s, j, c, rfl, hj, hs⟩
      refine ⟨s ++ [j], by simp, by simp, ?_⟩
      rw [get?_append]
      simpa [get?, children, hj] using hs
    · rintro ⟨s', hne, rfl, hs⟩
      rcases List.eq_nil_or_concat s' with h | ⟨s, j, rfl⟩
      · exact absurd h hne
      · rw [List.concat_eq_append, get?_append] at hs
        simp only [get?, children, Option.some_bind] at hs
        cases hj : cs[j]? with
        | none => rw [hj] at hs; simp at hs
        | some c =>
          rw [hj] at hs
          exact ⟨s, j, c, by simp, hj, by simpa using hs⟩
/-- The same for the listing of a tail of the children of the element at `a`. -/
theorem mem_descendantsOfChildren :
    ∀ (cs : List HElement) (a : HElementPtr) (k : Nat) (q : HElementPtr),
      q ∈ descendantsOfChildren a k cs ↔
        ∃ s j c, q = s ++ (k + j) :: a ∧ cs[j]? = some c ∧ (c.get? s).isSome = true
  | [], a, k, q => by simp [descendantsOfChildren]
  | c :: cs, a, k, q => by
    rw [descendantsOfChildren]
    simp only [List.cons_append, List.mem_cons, List.mem_append]
    rw [mem_descendants c (k :: a) q, mem_descendantsOfChildren cs a (k + 1) q]
    constructor
    · rintro (rfl | ⟨s, _, rfl, hs⟩ | ⟨s, j, c', rfl, hj, hs⟩)
      · exact ⟨[], 0, c, by simp, by simp, by simp [get?]⟩
      · exact ⟨s, 0, c, by simp, by simp, hs⟩
      · exact ⟨s, j + 1, c', by simp [Nat.add_assoc, Nat.add_comm 1 j], by simpa using hj, hs⟩
    · rintro ⟨s, j, c', rfl, hj, hs⟩
      cases j with
      | zero =>
        simp only [List.getElem?_cons_zero, Option.some.injEq] at hj
        subst hj
        cases s with
        | nil => left; simp
        | cons x s => right; left; exact ⟨x :: s, by simp, by simp, hs⟩
      | succ j =>
        simp only [List.getElem?_cons_succ] at hj
        right; right
        exact ⟨s, j, c', by simp [Nat.add_assoc, Nat.add_comm 1 j], hj, hs⟩
end

mutual
/-- No address is listed twice among the descendants. -/
theorem nodup_descendants : ∀ (c : HElement) (a : HElementPtr), (c.descendants a).Nodup
  | node _ cs, a => by
    rw [descendants]
    exact nodup_descendantsOfChildren cs a 0
/-- The same for the listing of a tail of the children. -/
theorem nodup_descendantsOfChildren :
    ∀ (cs : List HElement) (a : HElementPtr) (k : Nat), (descendantsOfChildren a k cs).Nodup
  | [], _, _ => by simp [descendantsOfChildren]
  | c :: cs, a, k => by
    rw [descendantsOfChildren, List.cons_append, List.nodup_cons, List.nodup_append]
    refine ⟨?_, nodup_descendants c (k :: a), nodup_descendantsOfChildren cs a (k + 1), ?_⟩
    · rw [List.mem_append, mem_descendants, mem_descendantsOfChildren]
      rintro (⟨s, hne, hq, _⟩ | ⟨s, j, c', hq, _, _⟩)
      · have := congrArg List.length hq
        simp only [List.length_cons, List.length_append] at this
        cases s with
        | nil => exact hne rfl
        | cons x s => simp only [List.length_cons] at this; omega
      · have hlen := congrArg List.length hq
        simp only [List.length_cons, List.length_append] at hlen
        cases s with
        | nil =>
          simp only [List.nil_append, List.cons.injEq] at hq
          omega
        | cons x s => simp only [List.length_cons] at hlen; omega
    · intro q hq1 hq2
      rw [mem_descendants] at hq1
      rw [mem_descendantsOfChildren] at hq2
      obtain ⟨s, _, rfl, _⟩ := hq1
      obtain ⟨s', j, c', hq, _, _⟩ := hq2
      have h := (List.append_inj' hq (by simp)).2
      simp only [List.cons.injEq] at h
      omega
end

end HElement

end ALU2d

end Dune

namespace Dune

namespace ALU2d

namespace ALU2dGridHierarchicIterator

open HElement

theorem construct_elem_maxlevel (t : HElement) (r : HElementPtr) (m : Int) (endFlag : Bool) :
    (construct t r m endFlag).elem_ = r ∧ (construct t r m endFlag).maxlevel_ = m := by
  unfold construct
  split
  · split
    · split <;> exact ⟨rfl, rfl⟩
    · exact ⟨rfl, rfl⟩
  · exact ⟨rfl, rfl⟩

/-- C8: an `ALU2dGridHierarchicIterator` constructed on an element `r` of a well levelled
refinement tree with bound `maxlevel` and incremented until it is at end visits the list
`expected t r maxlevel`: the strict descendants of `r` of level at most `maxlevel` in
depth-first pre-order.  Any number of increments not below the length of that list
suffices, and after exactly that many increments the iterator is at end.  The list has no
repetition and consists exactly of the addresses strictly below `r` that refer to an
element of level at most `maxlevel` (so never `r` itself, nothing outside the subtree of
`r`).  When `r` has no children or its first child lies above `maxlevel`, the iterator is
at end right after construction. -/
theorem hierarchic_iterator_visits_descendants (t : HElement) (r : HElementPtr) (e : HElement)
    (maxlevel : Int) (ht : t.wellLevelled = true) (hr : t.get? r = some e) :
    (∀ fuel, (expected t r maxlevel).length ≤ fuel →
      traverse t fuel (construct t r maxlevel false) = some (expected t r maxlevel)) ∧
    (∃ it', incrementN t (expected t r maxlevel).length (construct t r maxlevel false) = some it'
      ∧ it'.item_ = none) ∧
    expected t r maxlevel
      = (e.descendants r).filter (fun q => decide (level t q ≤ maxlevel)) ∧
    (expected t r maxlevel).Nodup ∧
    (∀ q, q ∈ expected t r maxlevel ↔
      (∃ s, s ≠ [] ∧ q = s ++ r) ∧ (t.get? q).isSome = true ∧ level t q ≤ maxlevel) ∧
    ((down t r = none ∨ ∃ c, down t r = some c ∧ maxlevel < level t c) →
      (construct t r maxlevel false).item_ = none) := by
  have hrun : Run t (construct t r maxlevel false).elem_ (construct t r maxlevel false).maxlevel_
      (construct t r maxlevel false).item_ (expected t r maxlevel) none := by
    rw [(construct_elem_maxlevel t r maxlevel false).1,
      (construct_elem_maxlevel t r maxlevel false).2]
    exact run_construct t ht r e hr maxlevel
  have hexp : expected t r maxlevel
      = (e.descendants r).filter (fun q => decide (level t q ≤ maxlevel)) := by
    simp [expected, hr]
  refine ⟨traverse_of_run t _ _ hrun, ?_, hexp, ?_, ?_, ?_⟩
  · refine ⟨_, (incrementN_of_run t _ _ hrun _).1 (Nat.le_refl _), ?_⟩
    simp
  · rw [hexp]
    exact (nodup_descendants e r).filter _
  · intro q
    rw [hexp, List.mem_filter, mem_descendants, decide_eq_true_eq]
    constructor
    · rintro ⟨⟨s, hne, rfl, hs⟩, hl⟩
      refine ⟨⟨s, hne, rfl⟩, ?_, hl⟩
      rw [get?_append, hr]
      exact hs
    · rintro ⟨⟨s, hne, rfl⟩, hs, hl⟩
      refine ⟨⟨s, hne, rfl, ?_⟩, hl⟩
      rw [get?_append, hr] at hs
      exact hs
  · intro h
    unfold construct
    rcases h with h | ⟨c, hc, hl⟩
    · simp [h]
    · simp [hc, not_le.mpr hl]

/-- Witness for C8: the twice refined triangle, traversed from its first child. -/
theorem hierarchic_iterator_visits_descendants_witness :
    Examples.refinedTriangle.wellLevelled = true ∧
    Examples.refinedTriangle.get? [0] = some (.node 1 [.node 2 [], .node 2 [.node 3 [], .node 3 []]]) ∧
    expected Examples.refinedTriangle [0] 3 = [[0, 0], [1, 0], [0, 1, 0], [1, 1, 0]] ∧
    (∀ fuel, (expected Examples.refinedTriangle [0] 3).length ≤ fuel →
      traverse Examples.refinedTriangle fuel (construct Examples.refinedTriangle [0] 3 false)
        = some (expected Examples.refinedTriangle [0] 3)) :=
  ⟨by decide, rfl, by decide,
    (hierarchic_iterator_visits_descendants Examples.refinedTriangle [0]
      (.node 1 [.node 2 [], .node 2 [.node 3 [], .node 3 []]]) 3 (by decide) rfl).1⟩

end ALU2dGridHierarchicIterator

end ALU2d

end Dune

namespace Dune

/-! ## ALU2d level iterator for vertices (iterator_imp.cc) -/

namespace ALU2d

theorem keepNew_cons_mem {seen : List Nat} {x : Nat} (xs : List Nat) (h : x ∈ seen) :
    keepNew seen (x :: xs) = keepNew seen xs := by
  simp [keepNew, h]

theorem keepNew_cons_not_mem {seen : List Nat} {x : Nat} (xs : List Nat) (h : x ∉ seen) :
    keepNew seen (x :: xs) = x :: keepNew (x :: seen) xs := by
  simp [keepNew, h]

theorem mem_keepNew (l : List Nat) :
    ∀ (seen : List Nat) (v : Nat), v ∈ keepNew seen l ↔ v ∈ l ∧ v ∉ seen := by
  induction l with
  | nil => intro seen v; simp [keepNew]
  | cons x xs ih =>
    intro seen v
    by_cases hx : x ∈ seen
    · rw [keepNew_cons_mem xs hx, ih]
      constructor
      · rintro ⟨h1, h2⟩; exact ⟨List.mem_cons_of_mem _ h1, h2⟩
      · rintro ⟨h1, h2⟩
        rcases List.mem_cons.mp h1 with rfl | h1
        · exact absurd hx h2
        · exact ⟨h1, h2⟩
    · rw [keepNew_cons_not_mem xs hx, List.mem_cons, ih]
      constructor
      · rintro (rfl | ⟨h1, h2⟩)
        · exact ⟨List.mem_cons_self _ _, hx⟩
        · exact ⟨List.mem_cons_of_mem _ h1, fun h => h2 (List.mem_cons_of_mem _ h)⟩
      · rintro ⟨h1, h2⟩
        by_cases hv : v = x
        · exact Or.inl hv
        · right
          rcases List.mem_cons.mp h1 with rfl | h1
          · exact absurd rfl hv
          · exact ⟨h1, fun h => by
              rcases List.mem_cons.mp h with rfl | h
              · exact hv rfl
              · exact h2 h⟩

theorem nodup_keepNew (l : List Nat) : ∀ seen : List Nat, (keepNew seen l).Nodup := by
  induction l with
  | nil => intro seen; simp [keepNew]
  | cons x xs ih =>
    intro seen
    by_cases hx : x ∈ seen
    · rw [keepNew_cons_mem xs hx]; exact ih seen
    · rw [keepNew_cons_not_mem xs hx, List.nodup_cons]
      refine ⟨?_, ih _⟩
      rw [mem_keepNew]
      rintro ⟨_, h⟩
      exact h (List.mem_cons_self _ _)

theorem cornersFrom_three {α : Type} (vertexIndex : α → Nat → Nat) (e : α) :
    cornersFrom vertexIndex e 3 = [] := rfl

theorem cornersFrom_lt {α : Type} (vertexIndex : α → Nat → Nat) (e : α) (f : Nat)
    (hf : f < 3) :
    cornersFrom vertexIndex e f = vertexIndex e f :: cornersFrom vertexIndex e (f + 1) := by
  have h3 : f = 0 ∨ f = 1 ∨ f = 2 := by omega
  rcases h3 with rfl | rfl | rfl <;> rfl

theorem Marks.set {n : Nat} {indexList seen : List Nat} (h : Marks n indexList seen)
    (idx : Nat) : Marks n (indexList.set idx 1) (idx :: seen) := by
  refine ⟨by rw [List.length_set]; exact h.1, ?_⟩
  intro i hi
  rw [List.getElem?_set]
  by_cases hidx : idx = i
  · subst hidx
    have : idx < indexList.length := by rw [h.1]; exact hi
    simp [this]
  · rw [if_neg hidx, h.2 i hi]
    simp [List.mem_cons, Ne.symm hidx]

namespace ALU2dGridLevelIterator2

variable {HElementType : Type}

/-- The loop of `increment` on one element: either all corners from `face` on are marked
and the loop ends with `face_ == 3` and `goNext` set, or it stops at the first unmarked
corner and marks it. -/
theorem vertexLoop_spec (vertexIndex : HElementType → Nat → Nat) (e : HElementType) (n : Nat)
    (hb : ∀ i, i < 3 → vertexIndex e i < n) (rest : List Nat) :
    ∀ (fuel face : Nat) (indexList seen : List Nat), Marks n indexList seen → face ≤ 3 →
      3 ≤ face + fuel →
      (vertexLoop vertexIndex e fuel face indexList = some (3, indexList, true) ∧
        keepNew seen (cornersFrom vertexIndex e face ++ rest) = keepNew seen rest) ∨
      (∃ face', face ≤ face' ∧ face' < 3 ∧
        vertexLoop vertexIndex e fuel face indexList
          = some (face', indexList.set (vertexIndex e face') 1, false) ∧
        keepNew seen (cornersFrom vertexIndex e face ++ rest)
          = vertexIndex e face' ::
            keepNew (vertexIndex e face' :: seen)
              (cornersFrom vertexIndex e (face' + 1) ++ rest)) := by
  intro fuel
  induction fuel with
  | zero =>
    intro face indexList seen _ h3 hf
    have : face = 3 := by omega
    subst this
    left
    exact ⟨rfl, by rw [cornersFrom_three, List.nil_append]⟩
  | succ fuel ih =>
    intro face indexList seen hm h3 hf
    by_cases hlt : face < 3
    · have hidx := hb face hlt
      have hlen : vertexIndex e face < indexList.length := by rw [hm.1]; exact hidx
      rw [cornersFrom_lt vertexIndex e face hlt, List.cons_append]
      by_cases hflag : indexList[vertexIndex e face]? = some 0
      · right
        have hns : vertexIndex e face ∉ seen := (hm.2 _ hidx).mp hflag
        refine ⟨face, Nat.le_refl _, hlt, ?_, keepNew_cons_not_mem _ hns⟩
        simp [vertexLoop, hlt, hflag]
      · have hs : vertexIndex e face ∈ seen := by
          by_contra hns
          exact hflag ((hm.2 _ hidx).mpr hns)
        rw [keepNew_cons_mem _ hs]
        have hget : indexList[vertexIndex e face]? = some indexList[vertexIndex e face] :=
          List.getElem?_eq_getElem hlen
        have hne : indexList[vertexIndex e face] ≠ 0 := by
          intro h0; rw [h0] at hget; exact hflag hget
        have hstep : vertexLoop vertexIndex e (fuel + 1) face indexList
            = vertexLoop vertexIndex e fuel (face + 1) indexList := by
          simp [vertexLoop, hlt, hget, hne]
        rw [hstep]
        rcases ih (face + 1) indexList seen hm (by omega) (by omega) with h | ⟨f', h1, h2, h3', h4⟩
        · exact Or.inl h
        · exact Or.inr ⟨f', by omega, h2, h3', h4⟩
    · have : face = 3 := by omega
      subst this
      left
      exact ⟨by simp [vertexLoop], by rw [cornersFrom_three, List.nil_append]⟩

end ALU2dGridLevelIterator2

end ALU2d

end Dune

namespace Dune

namespace ALU2d

namespace ALU2dGridLevelIterator2

variable {HElementType : Type}

theorem cornerIndices_cons (vertexIndex : HElementType → Nat → Nat) (e : HElementType)
    (rest : List HElementType) :
    cornerIndices vertexIndex (e :: rest)
      = cornersFrom vertexIndex e 0 ++ cornerIndices vertexIndex rest := by
  simp [cornerIndices, cornersFrom, List.range']

/-- One call of `increment` from a position inside the walk is defined and leads to the
position from which the new ones among the pending corners are yielded. -/
theorem vertex_incrementWalk_spec (vertexIndex : HElementType → Nat → Nat) (n : Nat) :
    ∀ (items : List HElementType) (it : ALU2dGridLevelIterator2 HElementType)
      (seen : List Nat), items ≠ [] → CornersBelow vertexIndex n items →
      Marks n it.indexList seen → it.face_ ≤ 3 → it.endIter_ = false →
      ∃ it', incrementWalk vertexIndex items it = some it' ∧
        Yields vertexIndex n it' (keepNew seen (pendingCorners vertexIndex items it.face_)) := by
  intro items
  induction items with
  | nil => intro it seen hne; exact absurd rfl hne
  | cons e rest ih =>
    intro it seen _ hb hm hface hend
    have hbe : ∀ i, i < 3 → vertexIndex e i < n := hb e (List.mem_cons_self _ _)
    have hbrest : CornersBelow vertexIndex n rest :=
      fun e' he' => hb e' (List.mem_cons_of_mem _ he')
    rcases vertexLoop_spec vertexIndex e n hbe (cornerIndices vertexIndex rest) 3 it.face_
      it.indexList seen hm hface (by omega) with ⟨hloop, hkeep⟩ | ⟨f', _, hf', hloop, hkeep⟩
    · simp only [pendingCorners, hkeep]
      cases rest with
      | nil =>
        refine ⟨_, by simp only [incrementWalk, hloop, if_true]; rfl, ?_⟩
        left
        exact ⟨rfl, by simp [cornerIndices, keepNew]⟩
      | cons e' rest' =>
        obtain ⟨it', hit', hy⟩ := ih
          { it with face_ := 0, indexList := it.indexList, iter_ := e' :: rest',
                    current := some (vertexIndex e' 0, 0) }
          seen (List.cons_ne_nil _ _) hbrest hm (by simp) hend
        refine ⟨it', by simp only [incrementWalk, hloop, if_true]; exact hit', ?_⟩
        simp only [pendingCorners] at hy
        rw [cornerIndices_cons]
        exact hy
    · refine ⟨_, by simp only [incrementWalk, hloop]; rfl, ?_⟩
      right
      refine ⟨vertexIndex e f', f', vertexIndex e f' :: seen, rfl, hend,
        List.cons_ne_nil _ _, hb, hm.set _, by simp only; omega, ?_⟩
      simp only [pendingCorners, hkeep]

theorem vertex_traverse_of_yields (vertexIndex : HElementType → Nat → Nat) (n : Nat) :
    ∀ (fuel : Nat) (it : ALU2dGridLevelIterator2 HElementType) (remaining : List Nat),
      Yields vertexIndex n it remaining → remaining.length ≤ fuel →
      traverse vertexIndex fuel it = some remaining := by
  intro fuel
  induction fuel with
  | zero =>
    intro it remaining hy hlen
    rcases hy with ⟨hc, rfl⟩ | ⟨v, face, seen, _, _, _, _, _, _, rfl⟩
    · simp [traverse, hc]
    · simp at hlen
  | succ fuel ih =>
    intro it remaining hy hlen
    rcases hy with ⟨hc, rfl⟩ | ⟨v, face, seen, hc, hend, hne, hb, hm, hface, rfl⟩
    · simp [traverse, hc]
    · obtain ⟨it', hit', hy'⟩ := vertex_incrementWalk_spec vertexIndex n it.iter_ it seen hne hb hm
        hface hend
      have hinc : increment vertexIndex it = some it' := by
        simp only [increment, hend]
        exact hit'
      have := ih it' _ hy' (by simpa using hlen)
      simp [traverse, hc, hinc, this]

theorem vertex_construct_yields (vertexIndex : HElementType → Nat → Nat) (elements : List HElementType)
    (level : Int) (n : Nat) (hb : CornersBelow vertexIndex n elements) :
    ∃ it, construct vertexIndex elements level n false = some it ∧
      Yields vertexIndex n it (firstOccurrences (cornerIndices vertexIndex elements)) := by
  cases elements with
  | nil =>
    refine ⟨_, rfl, ?_⟩
    left
    exact ⟨rfl, rfl⟩
  | cons e rest =>
    have h0 : vertexIndex e 0 < n := hb e (List.mem_cons_self _ _) 0 (by omega)
    refine ⟨_, by simp only [construct, Bool.not_false, if_true, h0]; rfl, ?_⟩
    right
    have hmarks : Marks n (List.replicate n 0) [] :=
      ⟨List.length_replicate _ _, fun i hi => by simp [List.getElem?_replicate, hi]⟩
    refine ⟨vertexIndex e 0, 0, [vertexIndex e 0], rfl, rfl, List.cons_ne_nil _ _, hb,
      hmarks.set _, by simp, ?_⟩
    simp only [firstOccurrences, pendingCorners, cornerIndices_cons]
    rw [cornersFrom_lt vertexIndex e 0 (by omega), List.cons_append,
      keepNew_cons_not_mem _ (List.not_mem_nil _),
      keepNew_cons_mem _ (List.mem_cons_self _ _)]

/-- C9: the level iterator for vertices, run from begin to end over the element sequence
of a level all of whose corner vertex indices are below `nrOfVertices`, is defined at
every step and yields the corner vertex indices of the elements (elements in traversal
order, corners in increasing number) in order of first occurrence, each exactly once:
every corner index is yielded, none twice, a vertex shared by several elements is not
yielded again. -/
theorem level_vertex_iterator_yields_each_vertex_once (vertexIndex : HElementType → Nat → Nat)
    (elements : List HElementType) (level : Int) (nrOfVertices : Nat)
    (hbelow : ∀ e ∈ elements, ∀ i, i < 3 → vertexIndex e i < nrOfVertices) :
    (∃ it, construct vertexIndex elements level nrOfVertices false = some it ∧
      ∀ fuel, (firstOccurrences (cornerIndices vertexIndex elements)).length ≤ fuel →
        traverse vertexIndex fuel it
          = some (firstOccurrences (cornerIndices vertexIndex elements))) ∧
    (firstOccurrences (cornerIndices vertexIndex elements)).Nodup ∧
    (∀ v, v ∈ firstOccurrences (cornerIndices vertexIndex elements) ↔
      ∃ e ∈ elements, ∃ i, i < 3 ∧ vertexIndex e i = v) := by
  obtain ⟨it, hit, hy⟩ := vertex_construct_yields vertexIndex elements level nrOfVertices hbelow
  refine ⟨⟨it, hit, fun fuel hfuel =>
    vertex_traverse_of_yields vertexIndex nrOfVertices fuel it _ hy hfuel⟩, nodup_keepNew _ _, ?_⟩
  intro v
  rw [firstOccurrences, mem_keepNew]
  simp only [List.not_mem_nil, not_false_eq_true, and_true, cornerIndices, List.mem_flatMap,
    List.mem_cons, or_false]
  constructor
  · rintro ⟨e, he, rfl | rfl | rfl⟩
    · exact ⟨e, he, 0, by omega, rfl⟩
    · exact ⟨e, he, 1, by omega, rfl⟩
    · exact ⟨e, he, 2, by omega, rfl⟩
  · rintro ⟨e, he, i, hi, rfl⟩
    refine ⟨e, he, ?_⟩
    have h3 : i = 0 ∨ i = 1 ∨ i = 2 := by omega
    rcases h3 with rfl | rfl | rfl <;> simp

/-- Witness for C9: two triangles sharing the vertices 1 and 2; the shared vertices are
yielded once. -/
theorem level_vertex_iterator_yields_each_vertex_once_witness :
    (∀ e ∈ [0, 1], ∀ i, i < 3 → Examples.cornerOf e i < 4) ∧
    firstOccurrences (cornerIndices Examples.cornerOf [0, 1]) = [0, 1, 2, 3] ∧
    (∃ it, construct Examples.cornerOf [0, 1] 0 4 false = some it ∧
      ∀ fuel, (firstOccurrences (cornerIndices Examples.cornerOf [0, 1])).length ≤ fuel →
        traverse Examples.cornerOf fuel it
          = some (firstOccurrences (cornerIndices Examples.cornerOf [0, 1]))) :=
  ⟨by decide, by decide,
    (level_vertex_iterator_yields_each_vertex_once Examples.cornerOf [0, 1] 0 4
      (by decide)).1⟩

end ALU2dGridLevelIterator2

end ALU2d

end Dune

namespace Dune

/-! ## ALU2d leaf iterator for edges (iterator_imp.cc) -/

namespace ALU2d

namespace ALU2dGridLeafIterator1

variable {HElementType : Type}

theorem facesFrom_three (normaldir : HElementType → Nat → Int) (e : HElementType) :
    facesFrom normaldir e 3 = [] := rfl

theorem facesFrom_lt (normaldir : HElementType → Nat → Int) (e : HElementType) (f : Nat)
    (hf : f < 3) :
    facesFrom normaldir e f
      = if normaldir e f = 1 then f :: facesFrom normaldir e (f + 1)
        else facesFrom normaldir e (f + 1) := by
  have h3 : f = 0 ∨ f = 1 ∨ f = 2 := by omega
  rcases h3 with rfl | rfl | rfl
  · by_cases h : normaldir e 0 = 1 <;> simp [facesFrom, List.range', List.filter_cons, h]
  · by_cases h : normaldir e 1 = 1 <;> simp [facesFrom, List.range', List.filter_cons, h]
  · by_cases h : normaldir e 2 = 1 <;> simp [facesFrom, List.range', List.filter_cons, h]

/-- The loop of `checkFace`: either no face from `face` on has `normaldir == 1` and the
function returns 1 with `face == 3`, or it returns 0 with `face` at the first such face. -/
theorem checkFace_spec (normaldir : HElementType → Nat → Int) (e : HElementType) :
    ∀ (fuel face : Nat), face ≤ 3 → 3 ≤ face + fuel →
      (checkFace normaldir e fuel face = (1, 3) ∧ facesFrom normaldir e face = []) ∨
      (∃ face', face ≤ face' ∧ face' < 3 ∧ checkFace normaldir e fuel face = (0, face') ∧
        facesFrom normaldir e face = face' :: facesFrom normaldir e (face' + 1)) := by
  intro fuel
  induction fuel with
  | zero =>
    intro face h3 hf
    have : face = 3 := by omega
    subst this
    exact Or.inl ⟨rfl, rfl⟩
  | succ fuel ih =>
    intro face h3 hf
    by_cases hlt : face < 3
    · rw [facesFrom_lt normaldir e face hlt]
      by_cases hn : normaldir e face = 1
      · right
        exact ⟨face, Nat.le_refl _, hlt, by simp [checkFace, hlt, hn], by simp [hn]⟩
      · have hstep : checkFace normaldir e (fuel + 1) face
            = checkFace normaldir e fuel (face + 1) := by
          simp [checkFace, hlt, hn]
        rw [hstep, if_neg hn]
        rcases ih (face + 1) (by omega) (by omega) with h | ⟨f', h1, h2, h3', h4⟩
        · exact Or.inl h
        · exact Or.inr ⟨f', by omega, h2, h3', h4⟩
    · have : face = 3 := by omega
      subst this
      exact Or.inl ⟨by simp [checkFace], rfl⟩

theorem outwardFaces_cons (normaldir : HElementType → Nat → Int) (e : HElementType)
    (rest : List HElementType) :
    outwardFaces normaldir (e :: rest) = pendingFaces normaldir (e :: rest) 0 := by
  simp [outwardFaces, pendingFaces, facesFrom, List.range_eq_range']

/-- One call of `increment` from a position inside the walk is defined and leads to the
position from which the pending pairs are yielded. -/
theorem edge_incrementWalk_spec (normaldir : HElementType → Nat → Int) :
    ∀ (items : List HElementType) (it : ALU2dGridLeafIterator1 HElementType)
      (e : HElementType) (rest : List HElementType) (face : Nat),
      items = e :: rest → it.current = some (e, face) → it.face_ ≤ 3 → it.endIter_ = false →
      ∃ it', incrementWalk normaldir items it = some it' ∧
        Yields normaldir it' (pendingFaces normaldir items it.face_) := by
  intro items
  induction items with
  | nil => intro it e rest face h; simp at h
  | cons e0 rest0 ih =>
    intro it e rest face hitems hcur hface hend
    simp only [List.cons.injEq] at hitems
    obtain ⟨rfl, rfl⟩ := hitems
    rcases checkFace_spec normaldir e0 3 it.face_ hface (by omega) with
      ⟨hcheck, hfaces⟩ | ⟨f', _, hf', hcheck, hfaces⟩
    · simp only [pendingFaces, hfaces, List.map_nil, List.nil_append]
      cases rest0 with
      | nil =>
        refine ⟨_, by simp only [incrementWalk, hcur, hcheck]; rfl, ?_⟩
        left
        exact ⟨rfl, by simp [outwardFaces]⟩
      | cons e' rest' =>
        obtain ⟨it', hit', hy⟩ := ih
          { it with face_ := 0, iter_ := e' :: rest', current := some (e', 0) }
          e' rest' 0 rfl rfl (by simp) hend
        refine ⟨it', by simp only [incrementWalk, hcur, hcheck]; exact hit', ?_⟩
        rw [outwardFaces_cons]
        exact hy
    · refine ⟨_, by simp only [incrementWalk, hcur, hcheck]; rfl, ?_⟩
      right
      refine ⟨e0, rest0, f', rfl, hend, rfl, by simp only; omega, ?_⟩
      simp only [pendingFaces, hfaces, List.map_cons, List.cons_append]

theorem edge_traverse_of_yields (normaldir : HElementType → Nat → Int) :
    ∀ (fuel : Nat) (it : ALU2dGridLeafIterator1 HElementType)
      (remaining : List (HElementType × Nat)),
      Yields normaldir it remaining → remaining.length ≤ fuel →
      traverse normaldir fuel it = some remaining := by
  intro fuel
  induction fuel with
  | zero =>
    intro it remaining hy hlen
    rcases hy with ⟨hc, rfl⟩ | ⟨e, rest, face, _, _, _, _, rfl⟩
    · simp [traverse, hc]
    · simp at hlen
  | succ fuel ih =>
    intro it remaining hy hlen
    rcases hy with ⟨hc, rfl⟩ | ⟨e, rest, face, hc, hend, hiter, hface, rfl⟩
    · simp [traverse, hc]
    · obtain ⟨it', hit', hy'⟩ := edge_incrementWalk_spec normaldir it.iter_ it e rest face hiter hc
        hface hend
      have hinc : increment normaldir it = some it' := by
        simp only [increment, hend]
        exact hit'
      have := ih it' _ hy' (by simpa using hlen)
      simp [traverse, hc, hinc, this]

theorem edge_construct_yields (normaldir : HElementType → Nat → Int)
    (elements : List HElementType) :
    ∃ it, construct normaldir elements false = some it ∧
      Yields normaldir it (outwardFaces normaldir elements) := by
  cases elements with
  | nil =>
    refine ⟨_, rfl, ?_⟩
    left
    exact ⟨rfl, rfl⟩
  | cons e rest =>
    obtain ⟨it', hit', hy⟩ := edge_incrementWalk_spec normaldir (e :: rest)
      ⟨false, -1, 0, e :: rest, some (e, 0)⟩ e rest 0 rfl rfl (by simp) rfl
    refine ⟨it', ?_, ?_⟩
    · simp only [construct, Bool.not_false, if_true, increment]
      exact hit'
    · rw [outwardFaces_cons]
      exact hy

theorem mem_outwardFaces (normaldir : HElementType → Nat → Int) (elements : List HElementType)
    (p : HElementType × Nat) :
    p ∈ outwardFaces normaldir elements ↔ p.1 ∈ elements ∧ p.2 < 3 ∧ normaldir p.1 p.2 = 1 := by
  simp only [outwardFaces, List.mem_flatMap, List.mem_map, List.mem_filter, List.mem_range,
    decide_eq_true_eq]
  constructor
  · rintro ⟨e, he, face, ⟨hf, hn⟩, rfl⟩
    exact ⟨he, hf, hn⟩
  · rintro ⟨he, hf, hn⟩
    exact ⟨p.1, he, p.2, ⟨hf, hn⟩, rfl⟩

theorem nodup_outwardFaces (normaldir : HElementType → Nat → Int)
    (elements : List HElementType) (hnd : elements.Nodup) :
    (outwardFaces normaldir elements).Nodup := by
  unfold outwardFaces
  rw [List.nodup_flatMap]
  constructor
  · intro e _
    refine List.Nodup.map ?_ ((List.nodup_range 3).filter _)
    intro a b h
    simpa using h
  · refine hnd.imp ?_
    intro a b hab
    intro p hpa hpb
    simp only [List.mem_map] at hpa hpb
    obtain ⟨_, _, rfl⟩ := hpa
    obtain ⟨_, _, h⟩ := hpb
    exact hab (by simpa using (congrArg Prod.fst h).symm)

theorem count_map_eq_one {α β : Type} [DecidableEq β] (g : α → β) (b : β) :
    ∀ (l : List α), l.Nodup → ∀ x, x ∈ l → g x = b → (∀ y, y ∈ l → g y = b → y = x) →
      (l.map g).count b = 1 := by
  intro l
  induction l with
  | nil => intro _ x hx; simp at hx
  | cons a l ih =>
    intro hnd x hx hgx huniq
    rw [List.nodup_cons] at hnd
    rw [List.map_cons, List.count_cons]
    by_cases hax : a = x
    · subst hax
      have hzero : (l.map g).count b = 0 := by
        rw [List.count_eq_zero]
        intro hmem
        obtain ⟨y, hy, hgy⟩ := List.mem_map.mp hmem
        have := huniq y (List.mem_cons_of_mem _ hy) hgy
        exact hnd.1 (this ▸ hy)
      simp [hzero, hgx]
    · have hxl : x ∈ l := by
        rcases List.mem_cons.mp hx with h | h
        · exact absurd h.symm hax
        · exact h
      have hga : g a ≠ b := fun h => hax (huniq a (List.mem_cons_self _ _) h)
      have := ih hnd.2 x hxl hgx (fun y hy hgy => huniq y (List.mem_cons_of_mem _ hy) hgy)
      simp [this, hga]

end ALU2dGridLeafIterator1

end ALU2d

end Dune

namespace Dune

namespace ALU2d

namespace ALU2dGridLeafIterator1

variable {HElementType : Type}

/-- C10: the leaf iterator for edges, run from begin to end over the leaf element
sequence, is defined at every step and yields exactly the list `outwardFaces`: the pairs
(element, face) with face in {0, 1, 2} and `normaldir( face ) == 1`, elements in
traversal order and faces in increasing number (an element without such a face
contributes nothing), and then is at end.  Hence, when the walk lists no element twice and
every leaf edge has `normaldir == 1` in exactly one pair (element, face) that contains
it, every leaf edge is visited exactly once. -/
theorem leaf_edge_iterator_yields_outward_faces (normaldir : HElementType → Nat → Int)
    (edgeOf : HElementType → Nat → Nat) (elements : List HElementType) :
    (∃ it, construct normaldir elements false = some it ∧
      ∀ fuel, (outwardFaces normaldir elements).length ≤ fuel →
        traverse normaldir fuel it = some (outwardFaces normaldir elements)) ∧
    (∀ p, p ∈ outwardFaces normaldir elements ↔
      p.1 ∈ elements ∧ p.2 < 3 ∧ normaldir p.1 p.2 = 1) ∧
    (elements.Nodup →
      (∀ e ∈ elements, ∀ i, i < 3 →
        ∃! p : HElementType × Nat, p.1 ∈ elements ∧ p.2 < 3 ∧
          edgeOf p.1 p.2 = edgeOf e i ∧ normaldir p.1 p.2 = 1) →
      ∀ e ∈ elements, ∀ i, i < 3 →
        ((outwardFaces normaldir elements).map (fun p => edgeOf p.1 p.2)).count (edgeOf e i)
          = 1) := by
  obtain ⟨it, hit, hy⟩ := edge_construct_yields normaldir elements
  refine ⟨⟨it, hit, fun fuel hfuel => edge_traverse_of_yields normaldir fuel it _ hy hfuel⟩,
    mem_outwardFaces normaldir elements, ?_⟩
  intro hnd hone e he i hi
  obtain ⟨p, ⟨hp1, hp2, hp3, hp4⟩, huniq⟩ := hone e he i hi
  refine count_map_eq_one (fun p => edgeOf p.1 p.2) (edgeOf e i) _
    (nodup_outwardFaces normaldir elements hnd) p
    ((mem_outwardFaces normaldir elements p).mpr ⟨hp1, hp2, hp4⟩) hp3 ?_
  intro q hq hgq
  obtain ⟨hq1, hq2, hq4⟩ := (mem_outwardFaces normaldir elements q).mp hq
  exact huniq q ⟨hq1, hq2, hgq, hq4⟩

/-- Witness for C10: two triangles sharing an edge, which has normal direction 1 in
element 0 only; the five edges are visited once each. -/
theorem leaf_edge_iterator_yields_outward_faces_witness :
    outwardFaces Examples.normaldirOf [0, 1] = [(0, 0), (0, 1), (0, 2), (1, 1), (1, 2)] ∧
    (∃ it, construct Examples.normaldirOf [0, 1] false = some it ∧
      ∀ fuel, (outwardFaces Examples.normaldirOf [0, 1]).length ≤ fuel →
        traverse Examples.normaldirOf fuel it = some (outwardFaces Examples.normaldirOf [0, 1])) ∧
    ((outwardFaces Examples.normaldirOf [0, 1]).map
      (fun p => Examples.edgeOf p.1 p.2)).count (Examples.edgeOf 1 0) = 1 :=
  ⟨by decide,
    (leaf_edge_iterator_yields_outward_faces Examples.normaldirOf Examples.edgeOf [0, 1]).1,
    (leaf_edge_iterator_yields_outward_faces Examples.normaldirOf Examples.edgeOf [0, 1]).2.2
      (by decide)
      (by
        intro e he i hi
        have he' : e = 0 ∨ e = 1 := by simpa using he
        have hi' : i = 0 ∨ i = 1 ∨ i = 2 := by omega
        have key : ∀ (a b : Nat), a ∈ [0, 1] ∧ b < 3 ∧
            Examples.normaldirOf a b = 1 →
            ∀ (c d : Nat), c ∈ [0, 1] ∧ d < 3 ∧ Examples.normaldirOf c d = 1 →
            Examples.edgeOf c d = Examples.edgeOf a b → (c, d) = (a, b) := by
          intro a b ⟨ha, hb, hn⟩ c d ⟨hc, hd, hm⟩ hedge
          have ha' : a = 0 ∨ a = 1 := by simpa using ha
          have hc' : c = 0 ∨ c = 1 := by simpa using hc
          have hb' : b = 0 ∨ b = 1 ∨ b = 2 := by omega
          have hd' : d = 0 ∨ d = 1 ∨ d = 2 := by omega
          have hno : ∀ (P : Prop) [Decidable P], P → decide P = false → (c, d) = (a, b) :=
            fun P _ hP hd => absurd hP (of_decide_eq_false hd)
          rcases ha' with rfl | rfl <;> rcases hc' with rfl | rfl <;>
            rcases hb' with rfl | rfl | rfl <;> rcases hd' with rfl | rfl | rfl <;>
            first | rfl | exact hno _ hedge rfl | exact hno _ hn rfl | exact hno _ hm rfl
        have hex : ∃ a b, a ∈ [0, 1] ∧ b < 3 ∧ Examples.normaldirOf a b = 1 ∧
            Examples.edgeOf a b = Examples.edgeOf e i := by
          rcases he' with rfl | rfl <;> rcases hi' with rfl | rfl | rfl
          · exact ⟨0, 0, by decide, by decide, by decide, by decide⟩
          · exact ⟨0, 1, by decide, by decide, by decide, by decide⟩
          · exact ⟨0, 2, by decide, by decide, by decide, by decide⟩
          · exact ⟨0, 0, by decide, by decide, by decide, by decide⟩
          · exact ⟨1, 1, by decide, by decide, by decide, by decide⟩
          · exact ⟨1, 2, by decide, by decide, by decide, by decide⟩
        obtain ⟨a, b, ha, hb, hn, hedge⟩ := hex
        refine ⟨(a, b), ⟨ha, hb, hedge, hn⟩, ?_⟩
        rintro ⟨c, d⟩ ⟨hc, hd, hcd, hm⟩
        exact key a b ⟨ha, hb, hn⟩ c d ⟨hc, hd, hm⟩ (hcd.trans hedge.symm))
      1 (by decide) 0 (by decide)⟩

end ALU2dGridLeafIterator1

end ALU2d

end Dune

/-! ## ALU2d intersection iterators (iterator_imp.cc) -/

namespace Dune

namespace ALU2d

namespace ALU2dGridIntersectionBase

variable {HElementType : Type}

theorem equals_eq_true_iff [DecidableEq HElementType]
    (a b : ALU2dGridIntersectionBase HElementType) :
    equals a b = true ↔ a.current.item_ = b.current.item_ ∧ a.done_ = b.done_ := by
  simp [equals]

theorem done_item (a : ALU2dGridIntersectionBase HElementType) :
    a.done.current.item_ = none ∧ a.done.done_ = true ∧ a.done.current.index_ = a.nFaces_ ∧
      a.done.current.opposite_ = a.current.opposite_ :=
  ⟨rfl, rfl, rfl, rfl⟩

end ALU2dGridIntersectionBase

namespace ALU2dGridLeafIntersectionIterator

variable {HElementType : Type}

/-- The leaf `increment` never assigns `current.opposite_`: the value stored by
`setFirstItem` for face 0 survives every increment. -/
theorem increment_keeps_opposite (ops : HElementAccess HElementType)
    (it it1 : ALU2dGridLeafIntersectionIterator HElementType)
    (h : increment ops it = some it1) :
    it1.current.opposite_ = it.current.opposite_ := by
  unfold increment at h
  split_ifs at h with h1
  · simp at h; subst h; rfl
  · cases hitem : it.current.item_ with
    | none => simp [hitem] at h
    | some item =>
      simp only [hitem] at h
      split_ifs at h with h2
      · simp only [ALU2dGridIntersectionBase.done] at h
        simp at h
        subst h; rfl
      · split at h
        · simp at h; subst h; rfl
        · split_ifs at h
          simp at h; subst h; rfl

theorem incrementN_keeps_opposite (ops : HElementAccess HElementType) (n : Nat)
    (it it1 : ALU2dGridLeafIntersectionIterator HElementType)
    (h : incrementN ops n it = some it1) :
    it1.current.opposite_ = it.current.opposite_ := by
  induction n generalizing it1 with
  | zero => simp [incrementN] at h; subst h; rfl
  | succ n ih =>
    simp only [incrementN] at h
    cases hn : incrementN ops n it with
    | none => simp [hn] at h
    | some it2 =>
      simp only [hn, Option.some_bind] at h
      rw [increment_keeps_opposite ops it2 it1 h, ih it2 hn]

/-- C11: the claimed symmetry fails on the bisected triangle of `Examples.threeElements`.
The leaf elements A = 0 and B = 1 share a face with A.nbel(1) = B, A.opposite(1) = 2,
B.nbel(2) = A, B.opposite(2) = 1.  The leaf intersection iterator started on A and
incremented once stands at the intersection with B and reports numberInSelf = 1 but
numberInNeighbor = 1 instead of 2; the iterator started on B and incremented twice stands
at the intersection with A and reports numberInSelf = 2 but numberInNeighbor = 0 instead
of 1.  Both values are the `opposite( 0 )` stored by `setFirstItem`. -/
theorem leaf_intersection_numberInNeighbor_stale :
    (Examples.threeElements.leaf 0 = true ∧ Examples.threeElements.leaf 1 = true ∧
      Examples.threeElements.nbel 0 1 = some 1 ∧ Examples.threeElements.opposite 0 1 = 2 ∧
      Examples.threeElements.nbel 1 2 = some 0 ∧ Examples.threeElements.opposite 1 2 = 1) ∧
    ((construct Examples.threeElements Examples.noInfo 0 1 false).bind
        (incrementN Examples.threeElements 1)).map
      (fun it => (it.done_, it.current.item_, it.current.neigh_,
        ALU2dGridIntersectionBase.numberInSelf it,
        ALU2dGridIntersectionBase.numberInNeighbor it))
      = some (false, some 0, some 1, 1, 1) ∧
    ((construct Examples.threeElements Examples.noInfo 1 1 false).bind
        (incrementN Examples.threeElements 2)).map
      (fun it => (it.done_, it.current.item_, it.current.neigh_,
        ALU2dGridIntersectionBase.numberInSelf it,
        ALU2dGridIntersectionBase.numberInNeighbor it))
      = some (false, some 1, some 0, 2, 0) :=
  ⟨⟨rfl, rfl, rfl, rfl, rfl, rfl⟩, rfl, rfl⟩

/-- C12, counterexample: the leaf intersection iterator on element 0 of
`Examples.threeElements` and its successor are both not at end, reference the same inside
element and different faces (0 and 1), and compare equal. -/
theorem intersection_equals_ignores_face :
    ((construct Examples.threeElements Examples.noInfo 0 1 false).bind (fun it =>
        (increment Examples.threeElements it).map (fun it1 =>
          (ALU2dGridIntersectionBase.equals it it1, it.done_, it1.done_,
            it.current.item_, it1.current.item_, it.current.index_, it1.current.index_))))
      = some (true, false, false, some 0, some 0, 0, 1) :=
  rfl

/-- C12, amended: `equals` holds iff the two iterators have the same inside element pointer
and the same done flag; the face index is not compared.  Hence any two end iterators
compare equal, an iterator that is not at end differs from every end iterator, and two
iterators that are not at end and reference the same inside element compare equal whatever
their face indices are. -/
theorem intersection_equals_characterisation [DecidableEq HElementType]
    (a b : ALU2dGridIntersectionBase HElementType) :
    (ALU2dGridIntersectionBase.equals a b = true ↔
      a.current.item_ = b.current.item_ ∧ a.done_ = b.done_) ∧
    ALU2dGridIntersectionBase.equals a.done b.done = true ∧
    (a.done_ = false → ALU2dGridIntersectionBase.equals a b.done = false) ∧
    (a.done_ = false → b.done_ = false → a.current.item_ = b.current.item_ →
      ALU2dGridIntersectionBase.equals a b = true) := by
  refine ⟨ALU2dGridIntersectionBase.equals_eq_true_iff a b, ?_, ?_, ?_⟩
  · simp [ALU2dGridIntersectionBase.equals, ALU2dGridIntersectionBase.done]
  · intro h
    simp [ALU2dGridIntersectionBase.equals, ALU2dGridIntersectionBase.done, h]
  · intro ha hb hitem
    simp [ALU2dGridIntersectionBase.equals, ha, hb, hitem]

end ALU2dGridLeafIntersectionIterator

namespace ALU2dGridLevelIntersectionIterator

/-- C13: the first position of the level intersection iterator is not canonicalised.  On
`Examples.threeElements` the iterator constructed on element 0 (level 1) with walk level
1 is not at end and reports the neighbour `nbel( 0 )` = element 2, whose level is 0 and
not the walk level 1. -/
theorem level_intersection_first_neighbour_off_level :
    (construct Examples.threeElements Examples.noInfo 0 1 false).map
      (fun it => (it.done_, it.walkLevel_, it.current.item_, it.current.neigh_,
        it.current.neigh_.map Examples.threeElements.level))
      = some (false, 1, some 0, some 2, some 0) ∧
    Examples.threeElements.level 0 = 1 := by
  decide

end ALU2dGridLevelIntersectionIterator

end ALU2d

end Dune

/-! ## AlbertaGrid::AdaptationState (agrid.hh) -/

namespace Dune

namespace AlbertaGrid

theorem toInt32_of_range (x : Int) (h1 : -2 ^ 31 ≤ x) (h2 : x < 2 ^ 31) : toInt32 x = x := by
  unfold toInt32
  norm_num at h1 h2 ⊢
  omega

theorem shiftLeftInt_two (count : Int) (h0 : 0 < count) (h30 : count < 30) :
    shiftLeftInt 2 count = 2 ^ (count.toNat + 1) ∧
      (2 : Int) ^ (count.toNat + 1) ≤ 2 ^ 30 := by
  have hlt : count.toNat < 30 := by omega
  have hpos : 0 < count.toNat := by omega
  unfold shiftLeftInt
  generalize count.toNat = n at hlt hpos
  interval_cases n <;> exact ⟨by decide, by decide⟩

namespace AdaptationState

theorem raises_error (message : String) : raises (error message) := ⟨message, rfl⟩

theorem not_raises_ok (s : AdaptationState) : ¬ raises (Outcome.ok s) := by
  rintro ⟨message, h⟩
  cases h

/-- C14: `adapt()` raises `InvalidStateException` iff the phase is not
`PreAdaptationPhase`, `postAdapt()` raises iff the phase is not `PostAdaptationPhase`,
`preAdapt()` raises iff the phase is not `ComputationPhase`; a call that does not raise
returns the successor state. -/
theorem adaptation_calls_raise_iff_wrong_phase (s : AdaptationState) :
    (raises (adapt s) ↔ s.phase_ ≠ .PreAdaptationPhase) ∧
    (raises (postAdapt s) ↔ s.phase_ ≠ .PostAdaptationPhase) ∧
    (raises (preAdapt s) ↔ s.phase_ ≠ .ComputationPhase) ∧
    (¬ raises (adapt s) → adapt s = .ok { s with phase_ := .PostAdaptationPhase }) ∧
    (¬ raises (postAdapt s) → postAdapt s =
      .ok { s with phase_ := .ComputationPhase, coarsenMarked_ := 0, refineMarked_ := 0 }) ∧
    (¬ raises (preAdapt s) → preAdapt s = .ok { s with phase_ := .PreAdaptationPhase }) := by
  refine ⟨?_, ?_, ?_, ?_, ?_, ?_⟩
  · unfold adapt
    split_ifs with h
    · exact ⟨fun _ => h, fun _ => raises_error _⟩
    · exact ⟨fun hr => absurd hr (not_raises_ok _), fun hp => absurd hp h⟩
  · unfold postAdapt
    split_ifs with h
    · exact ⟨fun _ => h, fun _ => raises_error _⟩
    · exact ⟨fun hr => absurd hr (not_raises_ok _), fun hp => absurd hp h⟩
  · unfold preAdapt
    split_ifs with h
    · exact ⟨fun _ => h, fun _ => raises_error _⟩
    · exact ⟨fun hr => absurd hr (not_raises_ok _), fun hp => absurd hp h⟩
  · unfold adapt
    split_ifs with h
    · exact fun hr => absurd (raises_error _) hr
    · exact fun _ => rfl
  · unfold postAdapt
    split_ifs with h
    · exact fun hr => absurd (raises_error _) hr
    · exact fun _ => rfl
  · unfold preAdapt
    split_ifs with h
    · exact fun hr => absurd (raises_error _) hr
    · exact fun _ => rfl

/-- C15: from `ComputationPhase`, with any values of the mark counters, `preAdapt()`,
`adapt()`, `postAdapt()` in this order all succeed and move the phase to
`PreAdaptationPhase`, `PostAdaptationPhase` and back to `ComputationPhase`, after which
`coarsen()` is false and `refineMarked()` is 0; a freshly constructed state is in
`ComputationPhase` with both counters 0. -/
theorem adaptation_cycle (coarsenMarked refineMarked : Int) :
    preAdapt ⟨.ComputationPhase, coarsenMarked, refineMarked⟩
      = .ok ⟨.PreAdaptationPhase, coarsenMarked, refineMarked⟩ ∧
    adapt ⟨.PreAdaptationPhase, coarsenMarked, refineMarked⟩
      = .ok ⟨.PostAdaptationPhase, coarsenMarked, refineMarked⟩ ∧
    postAdapt ⟨.PostAdaptationPhase, coarsenMarked, refineMarked⟩
      = .ok ⟨.ComputationPhase, 0, 0⟩ ∧
    coarsen ⟨.ComputationPhase, 0, 0⟩ = false ∧
    AdaptationState.refineMarked ⟨.ComputationPhase, 0, 0⟩ = 0 ∧
    construct = ⟨.ComputationPhase, 0, 0⟩ :=
  ⟨rfl, rfl, rfl, rfl, rfl, rfl⟩

/-- C16: `mark( count )` on a state whose counters are `int` values far enough from
overflow.  For `count < 0` the coarsen counter grows by 1 and the refine counter is
unchanged; for `count > 0` the refine counter grows by `2 << count` (in `int` arithmetic),
which is `2^(count+1)` for `0 < count < 30`, and the coarsen counter is unchanged; for
`count = 0` nothing changes; `coarsen()` is true iff the coarsen counter is positive. -/
theorem mark_updates_counters (s : AdaptationState) (count : Int)
    (hc : -2 ^ 31 ≤ s.coarsenMarked_ ∧ s.coarsenMarked_ < 2 ^ 31 - 1)
    (hr : -2 ^ 31 ≤ s.refineMarked_ ∧ s.refineMarked_ < 2 ^ 30) :
    (count < 0 → (mark s count).coarsenMarked_ = s.coarsenMarked_ + 1 ∧
      (mark s count).refineMarked_ = s.refineMarked_) ∧
    (0 < count → (mark s count).refineMarked_ = toInt32 (s.refineMarked_ + shiftLeftInt 2 count) ∧
      (mark s count).coarsenMarked_ = s.coarsenMarked_) ∧
    (0 < count → count < 30 → shiftLeftInt 2 count = 2 ^ (count.toNat + 1) ∧
      (mark s count).refineMarked_ = s.refineMarked_ + 2 ^ (count.toNat + 1)) ∧
    (count = 0 → mark s count = s) ∧
    (coarsen s = true ↔ s.coarsenMarked_ > 0) := by
  refine ⟨?_, ?_, ?_, ?_, ?_⟩
  · intro h
    have h2 : ¬ count > 0 := by omega
    simp only [mark, h, h2, if_true, if_false]
    refine ⟨toInt32_of_range _ ?_ ?_, trivial⟩ <;> norm_num at hc ⊢ <;> omega
  · intro h
    have h2 : ¬ count < 0 := by omega
    simp only [mark, h2, if_false]
    rw [if_pos h]
    exact ⟨rfl, rfl⟩
  · intro h h30
    have h2 : ¬ count < 0 := by omega
    obtain ⟨hs, hle⟩ := shiftLeftInt_two count h h30
    refine ⟨hs, ?_⟩
    simp only [mark, h2, if_false]
    rw [if_pos h]
    show toInt32 (s.refineMarked_ + shiftLeftInt 2 count) = _
    rw [hs]
    have hpos : (0 : Int) < 2 ^ (count.toNat + 1) := by positivity
    norm_num at hr hle
    exact toInt32_of_range _ (by norm_num; omega) (by norm_num; omega)
  · intro h
    subst h
    rfl
  · simp [coarsen]

/-- Witness for C16: two marks for coarsening and one for refinement by two levels on a
state with counters 5 and 12. -/
theorem mark_updates_counters_witness :
    ((-2 : Int) ^ 31 ≤ 5 ∧ (5 : Int) < 2 ^ 31 - 1) ∧
    ((mark ⟨.ComputationPhase, 5, 12⟩ (-2)).coarsenMarked_ = 5 + 1 ∧
      (mark ⟨.ComputationPhase, 5, 12⟩ (-2)).refineMarked_ = 12) ∧
    (shiftLeftInt 2 2 = 2 ^ ((2 : Int).toNat + 1) ∧
      (mark ⟨.ComputationPhase, 5, 12⟩ 2).refineMarked_ = 12 + 2 ^ ((2 : Int).toNat + 1)) :=
  ⟨by decide,
    (mark_updates_counters ⟨.ComputationPhase, 5, 12⟩ (-2) (by decide) (by decide)).1
      (by decide),
    (mark_updates_counters ⟨.ComputationPhase, 5, 12⟩ 2 (by decide) (by decide)).2.2.1
      (by decide) (by decide)⟩

/-- C17, counterexample: in `PreAdaptationPhase` the call `mark( 1 )` is carried out and
raises the refine counter from 0 to 4; in `PostAdaptationPhase` the call `mark( -1 )`
raises the coarsen counter from 0 to 1. -/
theorem mark_outside_computation_phase :
    mark ⟨.PreAdaptationPhase, 0, 0⟩ 1 = ⟨.PreAdaptationPhase, 0, 4⟩ ∧
    mark ⟨.PostAdaptationPhase, 0, 0⟩ (-1) = ⟨.PostAdaptationPhase, 1, 0⟩ := by
  decide

/-- C17, amended: `mark( count )` does not look at the phase.  In every phase it returns
the state with the counters updated exactly as in `ComputationPhase`, and it leaves the
phase as it is. -/
theorem mark_independent_of_phase (s : AdaptationState) (phase : Phase) (count : Int) :
    mark { s with phase_ := phase } count = { mark s count with phase_ := phase } ∧
    (mark s count).phase_ = s.phase_ ∧
    (mark s count).coarsenMarked_ = (mark { s with phase_ := .ComputationPhase } count).coarsenMarked_ ∧
    (mark s count).refineMarked_ = (mark { s with phase_ := .ComputationPhase } count).refineMarked_ := by
  unfold mark
  by_cases h1 : count < 0 <;> by_cases h2 : count > 0 <;> simp [h1, h2]

end AdaptationState

end AlbertaGrid

end Dune

/-! ## GeometryGrid fake entities (geogrid/entity.hh) -/

namespace Dune

namespace GenericGeometry

theorem topologyOf_dimension (dim id : Nat) : (topologyOf dim id).dimension = dim := by
  induction dim with
  | zero => rfl
  | succ d ih =>
    unfold topologyOf
    split_ifs <;> simp [Topology.dimension, ih]

theorem handled_dimension_le_three : ∀ top ∈ handledTopologies, top.dimension ≤ 3 := by
  decide

theorem topologyId_lt (type : GeometryType) (h1 : 0 < type.dim) (h3 : type.dim ≤ 3) :
    topologyId type < 2 ^ type.dim := by
  obtain ⟨b, d⟩ := type
  simp only at h1 h3
  interval_cases d <;> cases b <;> decide

theorem provider_entry (top : Topology) (codim i : Nat) (hi : i < Size top codim) :
    ((providerDune2generic top codim)[i]?).bind (fun entry => entry)
      = dune2generic top codim i := by
  unfold providerDune2generic
  rw [List.getElem?_map, List.getElem?_range hi]
  rfl

/-- The run time table lookup agrees with `MapNumbering< Topology >::dune2generic` on the
valid arguments and yields a valid generic number there. -/
theorem provider_dune2generic_valid (dimension topologyId i codim : Nat)
    (htop : topologyId < 2 ^ dimension) (hc : codim ≤ dimension)
    (hi : i < Size (topologyOf dimension topologyId) codim) :
    ∃ g, MapNumberingProvider.dune2generic dimension topologyId i codim = some g ∧
      dune2generic (topologyOf dimension topologyId) codim i = some g ∧
      g < Size (topologyOf dimension topologyId) codim := by
  obtain ⟨ht, hcd⟩ := size_pos_handled (Nat.lt_of_le_of_lt (Nat.zero_le i) hi)
  obtain ⟨hs, hlt⟩ :=
    (tables_permutation_checked _ ht codim hcd).1 i (List.mem_range.mpr hi)
  obtain ⟨g, hg⟩ := Option.isSome_iff_exists.mp hs
  refine ⟨g, ?_, hg, hlt g (by rw [hg]; exact rfl)⟩
  unfold MapNumberingProvider.dune2generic
  rw [if_pos ⟨htop, hc⟩, provider_entry _ _ _ hi, hg]

end GenericGeometry

namespace GeoGrid

namespace FakeEntity

open GenericGeometry

variable {HostElement : Type}

/-- Every call of `vertexPartitionType` looks at incident vertex 0, whatever `i` is. -/
theorem vertexPartitionType_ignores_index (host : HostGrid HostElement) (codimension : Nat)
    (e : FakeEntity HostElement) (refElement : GenericReferenceElement) (i : Nat) :
    vertexPartitionType host codimension e refElement i
      = vertexPartitionType host codimension e refElement 0 :=
  rfl

theorem partitionTypeLoop_uniform (host : HostGrid HostElement) (codimension : Nat)
    (e : FakeEntity HostElement) (refElement : GenericReferenceElement) (t : PartitionType)
    (hv : vertexPartitionType host codimension e refElement 0 = some t)
    (ht : t = .BorderEntity ∨ t = .FrontEntity) (l : List Nat) :
    partitionTypeLoop host codimension e refElement t l = some none := by
  induction l with
  | nil => rfl
  | cons i rest ih =>
    unfold partitionTypeLoop
    rw [vertexPartitionType_ignores_index, hv]
    have hno : ¬ (t = .InteriorEntity ∨ t = .OverlapEntity ∨ t = .GhostEntity) := by
      rcases ht with rfl | rfl <;> decide
    simp only [hno, if_false, if_true]
    exact ih

/-- C18: the reduction does not scan the incident vertices.  On the parallel host grid
`Examples.ghostCornerHost` the edge with number 0 of a triangle (codimension 1) has
generic number 2 and the incident vertices 1 (Border) and 2 (Ghost); the first interior,
overlap or ghost vertex in scanning order is the Ghost vertex, but `partitionType()`
returns Border, the type of incident vertex 0, which every round of the loop looks at
again. -/
theorem fake_entity_partitionType_misses_ghost :
    Examples.ghostCornerHost.isParallel = true ∧
    incidentVertexTypes Examples.ghostCornerHost 1 ⟨0, 0⟩
      = some [.BorderEntity, .GhostEntity] ∧
    (incidentVertexTypes Examples.ghostCornerHost 1 ⟨0, 0⟩).bind firstInteriorOverlapGhost
      = some .GhostEntity ∧
    partitionType Examples.ghostCornerHost 1 ⟨0, 0⟩ = some .BorderEntity := by
  decide

/-- C19: on a parallel host grid, if the incident vertices of the sub-entity (there is at
least one) all have the same partition type `t` and `t` is Border or Front, then
`partitionType()` returns `t`. -/
theorem fake_entity_partitionType_uniform (host : HostGrid HostElement) (codimension : Nat)
    (e : FakeEntity HostElement) (types : List PartitionType) (t : PartitionType)
    (hpar : host.isParallel = true)
    (htypes : incidentVertexTypes host codimension e = some types)
    (hne : types ≠ [])
    (hall : ∀ x ∈ types, x = t)
    (ht : t = .BorderEntity ∨ t = .FrontEntity) :
    partitionType host codimension e = some t := by
  unfold incidentVertexTypes at htypes
  cases hg : MapNumberingProvider.dune2generic host.dimension
      (topologyId (host.type e.hostElement_)) e.subEntity_ codimension with
  | none => simp [hg] at htypes
  | some g =>
    simp only [hg, Option.some.injEq] at htypes
    have hn : 0 < (host.refElement (host.type e.hostElement_)).size e.subEntity_ codimension
        host.dimension := by
      rcases Nat.eq_zero_or_pos ((host.refElement (host.type e.hostElement_)).size
        e.subEntity_ codimension host.dimension) with h0 | h0
      · rw [h0] at htypes
        exact absurd htypes.symm hne
      · exact h0
    have h0mem : host.vertexPartitionType e.hostElement_
        ((host.refElement (host.type e.hostElement_)).subEntity g codimension 0
          host.dimension) ∈ types := by
      rw [← htypes]
      exact List.mem_map.mpr ⟨0, List.mem_range.mpr hn, rfl⟩
    have hv : vertexPartitionType host codimension e
        (host.refElement (host.type e.hostElement_)) 0 = some t := by
      simp only [vertexPartitionType, hg]
      rw [hall _ h0mem]
    have hno : ¬ (t = .InteriorEntity ∨ t = .OverlapEntity ∨ t = .GhostEntity) := by
      rcases ht with rfl | rfl <;> decide
    unfold partitionType
    simp only [hpar, Bool.not_true, Bool.false_eq_true, if_false, hv, hno,
      partitionTypeLoop_uniform host codimension e _ t hv ht, ht, if_true]

/-- Witness for C19: an edge of a triangle all of whose vertices are border vertices. -/
theorem fake_entity_partitionType_uniform_witness :
    Examples.borderHost.isParallel = true ∧
    incidentVertexTypes Examples.borderHost 1 ⟨0, 0⟩ = some [.BorderEntity, .BorderEntity] ∧
    partitionType Examples.borderHost 1 ⟨0, 0⟩ = some .BorderEntity :=
  ⟨rfl, rfl,
    fake_entity_partitionType_uniform Examples.borderHost 1 ⟨0, 0⟩
      [.BorderEntity, .BorderEntity] .BorderEntity rfl rfl (by decide) (by decide)
      (Or.inl rfl)⟩

/-- C20: for a fake entity of codimension `c` with host element `e` (of the dimension of
the grid, which is positive) and valid local number `s`, the number
`g = dune2generic< c >( s )` for the topology of `e` is defined and valid, `index` returns
`hostIndexSet.subIndex( e, g, c )` and `id` returns `hostIdSet.subId( e, g, c )`: both
address the host sub-entity with the generic number `g`. -/
theorem fake_entity_index_id_generic {IndexType IdType : Type} (host : HostGrid HostElement)
    (codimension : Nat) (subIndex : HostElement → Nat → Nat → IndexType)
    (subId : HostElement → Nat → Nat → IdType) (e : FakeEntity HostElement)
    (hdim : (host.type e.hostElement_).dim = host.dimension) (hpos : 0 < host.dimension)
    (hc : codimension ≤ host.dimension)
    (hs : e.subEntity_ <
      Size (topologyOf host.dimension (topologyId (host.type e.hostElement_))) codimension) :
    ∃ g, dune2generic (topologyOf host.dimension (topologyId (host.type e.hostElement_)))
        codimension e.subEntity_ = some g ∧
      g < Size (topologyOf host.dimension (topologyId (host.type e.hostElement_)))
        codimension ∧
      index host codimension subIndex e = some (subIndex e.hostElement_ g codimension) ∧
      id host codimension subId e = some (subId e.hostElement_ g codimension) := by
  obtain ⟨ht, _⟩ := size_pos_handled (Nat.lt_of_le_of_lt (Nat.zero_le _) hs)
  have h3 : host.dimension ≤ 3 := by
    have := handled_dimension_le_three _ ht
    rwa [topologyOf_dimension] at this
  have htop : topologyId (host.type e.hostElement_) < 2 ^ host.dimension := by
    have := topologyId_lt (host.type e.hostElement_) (by rw [hdim]; exact hpos)
      (by rw [hdim]; exact h3)
    rwa [hdim] at this
  obtain ⟨g, hp, hg, hlt⟩ := provider_dune2generic_valid host.dimension
    (topologyId (host.type e.hostElement_)) e.subEntity_ codimension htop hc hs
  refine ⟨g, hg, hlt, ?_, ?_⟩
  · simp only [index, hp]
  · simp only [id, hp]

/-- Witness for C20: edge 0 of a triangle has the generic number 2, and index and id are
those of the host sub-entity 2, not 0. -/
theorem fake_entity_index_id_generic_witness :
    (∃ g, dune2generic (topologyOf 2 (topologyId ⟨.simplex, 2⟩)) 1 0 = some g ∧
      g < Size (topologyOf 2 (topologyId ⟨.simplex, 2⟩)) 1 ∧
      index Examples.borderHost 1 (fun e i c => (e, i, c)) ⟨7, 0⟩ = some (7, g, 1) ∧
      id Examples.borderHost 1 (fun e i c => (e, i, c)) ⟨7, 0⟩ = some (7, g, 1)) ∧
    index Examples.borderHost 1 (fun e i c => (e, i, c)) ⟨7, 0⟩ = some (7, 2, 1) :=
  ⟨fake_entity_index_id_generic Examples.borderHost 1 (fun e i c => (e, i, c))
      (fun e i c => (e, i, c)) ⟨7, 0⟩ rfl (by decide) (by decide) (by decide),
    rfl⟩

end FakeEntity

end GeoGrid

end Dune

/-! ## GeometryGrid geometry cache and host entity access (geogrid/entity.hh) -/

namespace Dune

namespace GeoGrid

variable {HostEntity HostElement X Y : Type}

/-- A call of `geometry()` on an entity whose cache is filled returns the cached geometry,
leaves the entity as it is and does not evaluate the coordinate function. -/
theorem EntityBase.geometry_cached (host : HostEntityAccess HostEntity X)
    (e : EntityBase HostEntity X Y) (geo : Geometry Y) (h : e.geo_ = some geo) :
    EntityBase.geometry host e = ⟨geo, e, []⟩ := by
  unfold EntityBase.geometry
  rw [h]

theorem FakeEntityBase.fake_geometry_cached (host : HostElementAccess HostElement X)
    (codimension : Nat) (e : FakeEntityBase HostElement X Y) (geo : Geometry Y)
    (h : e.geo_ = some geo) :
    FakeEntityBase.geometry host codimension e = ⟨geo, e, []⟩ := by
  unfold FakeEntityBase.geometry
  rw [h]

/-- After a call of `geometry()` the cache holds the geometry the call returned. -/
theorem EntityBase.geometry_fills_cache (host : HostEntityAccess HostEntity X)
    (e : EntityBase HostEntity X Y) :
    (EntityBase.geometry host e).entity.geo_ = some (EntityBase.geometry host e).geometry := by
  unfold EntityBase.geometry
  cases h : e.geo_ with
  | none => rfl
  | some geo => exact h

theorem FakeEntityBase.fake_geometry_fills_cache (host : HostElementAccess HostElement X)
    (codimension : Nat) (e : FakeEntityBase HostElement X Y) :
    (FakeEntityBase.geometry host codimension e).entity.geo_
      = some (FakeEntityBase.geometry host codimension e).geometry := by
  unfold FakeEntityBase.geometry
  cases h : e.geo_ with
  | none => rfl
  | some geo => exact h

/-- On the prism host the geometries of the faces 0 and 1 of element 2 are built with
different types (triangle, quadrilateral) and from the corners of the respective face; a
second call returns the cached geometry and evaluates the coordinate function nowhere,
and after `initialize` for face 1 the geometry of face 1 is built. -/
theorem fake_geometry_on_prism :
    (FakeEntityBase.geometry Examples.prismHost 1
        (FakeEntityBase.construct Examples.stretch 2 0)).geometry
      = ⟨⟨.simplex, 2⟩, [421, 423]⟩ ∧
    (FakeEntityBase.geometry Examples.prismHost 1
        (FakeEntityBase.construct Examples.stretch 2 1)).geometry
      = ⟨⟨.cube, 2⟩, [423, 425]⟩ ∧
    (FakeEntityBase.geometry Examples.prismHost 1
        (FakeEntityBase.construct Examples.stretch 2 0)).evaluated = [210, 211] ∧
    (FakeEntityBase.geometry Examples.prismHost 1
        (FakeEntityBase.geometry Examples.prismHost 1
          (FakeEntityBase.construct Examples.stretch 2 0)).entity).geometry
      = ⟨⟨.simplex, 2⟩, [421, 423]⟩ ∧
    (FakeEntityBase.geometry Examples.prismHost 1
        (FakeEntityBase.geometry Examples.prismHost 1
          (FakeEntityBase.construct Examples.stretch 2 0)).entity).evaluated = [] ∧
    (FakeEntityBase.geometry Examples.prismHost 1
        ((FakeEntityBase.geometry Examples.prismHost 1
          (FakeEntityBase.construct Examples.stretch 2 0)).entity.initializeEntity
            Examples.mirror 2 1)).geometry
      = ⟨⟨.cube, 2⟩, [-211, -212]⟩ := by
  decide

/-- C21: geometry cache of real and fake entities.  The first `geometry()` call after
construction or after `initialize` builds the geometry from the type and the host corners
mapped through the coordinate function, evaluating the coordinate function at the host
corners.  After any `geometry()` call, a further call returns the same geometry, leaves
the entity unchanged (so this holds for every later call) and evaluates the coordinate
function nowhere.  `initialize` empties the cache, whatever it held, so the next call
builds the geometry for the new key. -/
theorem entity_geometry_cache (host : HostEntityAccess HostEntity X)
    (fakeHost : HostElementAccess HostElement X) (codimension subEntity : Nat)
    (grid : Grid X Y) (hostEntity : HostEntity) (hostElement : HostElement)
    (e : EntityBase HostEntity X Y) (f : FakeEntityBase HostElement X Y) :
    (EntityBase.geometry host (EntityBase.construct grid hostEntity)).geometry
        = ⟨host.type hostEntity, (host.corners hostEntity).map grid.coordFunction⟩ ∧
    (EntityBase.geometry host (EntityBase.construct grid hostEntity)).evaluated
        = host.corners hostEntity ∧
    (e.initializeEntity grid hostEntity).geo_ = none ∧
    (EntityBase.geometry host (e.initializeEntity grid hostEntity)).geometry
        = ⟨host.type hostEntity, (host.corners hostEntity).map grid.coordFunction⟩ ∧
    (EntityBase.geometry host (e.initializeEntity grid hostEntity)).evaluated
        = host.corners hostEntity ∧
    EntityBase.geometry host (EntityBase.geometry host e).entity
        = ⟨(EntityBase.geometry host e).geometry, (EntityBase.geometry host e).entity, []⟩ ∧
    (FakeEntityBase.geometry fakeHost codimension
        (FakeEntityBase.construct grid hostElement subEntity)).geometry
        = ⟨(fakeHost.general (fakeHost.type hostElement)).type
              (subEntity % GenericGeometry.uintRange) codimension,
            (fakeHost.subEntityCorners hostElement codimension
              (subEntity % GenericGeometry.uintRange)).map grid.coordFunction⟩ ∧
    (FakeEntityBase.geometry fakeHost codimension
        (FakeEntityBase.construct grid hostElement subEntity)).evaluated
        = fakeHost.subEntityCorners hostElement codimension
            (subEntity % GenericGeometry.uintRange) ∧
    (f.initializeEntity grid hostElement subEntity).geo_ = none ∧
    (FakeEntityBase.geometry fakeHost codimension
        (f.initializeEntity grid hostElement subEntity)).geometry
        = ⟨(fakeHost.general (fakeHost.type hostElement)).type
              (subEntity % GenericGeometry.uintRange) codimension,
            (fakeHost.subEntityCorners hostElement codimension
              (subEntity % GenericGeometry.uintRange)).map grid.coordFunction⟩ ∧
    (FakeEntityBase.geometry fakeHost codimension
        (f.initializeEntity grid hostElement subEntity)).evaluated
        = fakeHost.subEntityCorners hostElement codimension
            (subEntity % GenericGeometry.uintRange) ∧
    FakeEntityBase.geometry fakeHost codimension
        (FakeEntityBase.geometry fakeHost codimension f).entity
        = ⟨(FakeEntityBase.geometry fakeHost codimension f).geometry,
            (FakeEntityBase.geometry fakeHost codimension f).entity, []⟩ :=
  ⟨rfl, rfl, rfl, rfl, rfl,
    EntityBase.geometry_cached host _ _ (EntityBase.geometry_fills_cache host e),
    rfl, rfl, rfl, rfl, rfl,
    FakeEntityBase.fake_geometry_cached fakeHost codimension _ _
      (FakeEntityBase.fake_geometry_fills_cache fakeHost codimension f)⟩

/-- C22: `hostEntity()` of a fake entity raises `NotImplemented` in every state of the
entity and for every codimension, and so never returns a host entity; `hostEntity()` of a
real entity returns the host entity the entity was constructed or initialized with. -/
theorem fake_hostEntity_not_implemented (codimension : Nat)
    (f : FakeEntityBase HostElement X Y) (grid : Grid X Y) (hostEntity : HostEntity)
    (e : EntityBase HostEntity X Y) :
    (∃ message, (FakeEntityBase.hostEntity codimension f : HostEntityResult HostEntity)
        = .NotImplemented message) ∧
    (∀ h : HostEntity, (FakeEntityBase.hostEntity codimension f : HostEntityResult HostEntity)
        ≠ .value h) ∧
    (EntityBase.construct grid hostEntity : EntityBase HostEntity X Y).hostEntity = hostEntity ∧
    (e.initializeEntity grid hostEntity).hostEntity = hostEntity := by
  refine ⟨⟨_, rfl⟩, ?_, rfl, rfl⟩
  intro h hv
  simp [FakeEntityBase.hostEntity] at hv

end GeoGrid

/-! ## Topology ids and geometry types (conversion.hh) -/

namespace GenericGeometry

/-- C23, counterexample: the pyramid of dimension 2 has topology id 1, and the provider
of dimension 2 gives the simplex of dimension 2 for this id, for both default types. -/
theorem topologyId_roundtrip_fails_for_pyramid_dim2 :
    DuneGeometryTypeProvider.type 2 .simplex (topologyId ⟨.pyramid, 2⟩) = some ⟨.simplex, 2⟩ ∧
    DuneGeometryTypeProvider.type 2 .cube (topologyId ⟨.pyramid, 2⟩) = some ⟨.simplex, 2⟩ ∧
    DuneGeometryTypeProvider.type 2 .simplex (topologyId ⟨.pyramid, 2⟩)
      ≠ some ⟨.pyramid, 2⟩ ∧
    DuneGeometryTypeProvider.type 2 .cube (topologyId ⟨.pyramid, 2⟩) ≠ some ⟨.pyramid, 2⟩ := by
  decide

/-- C23, amended: for a dimension `d` from 1 to 3 and a default type simplex or cube,
`topologyId` followed by `DuneGeometryTypeProvider< d, defaultType >::type` gives the
geometry type again for all four kinds if `d = 3` and for simplex and cube if `d = 2`;
the pyramid and the prism of dimension 2 come back as the simplex and the cube of
dimension 2, and in dimension 1 every kind comes back as the type with the default basic
type. -/
theorem topologyId_roundtrip (k defaultType : BasicType) (d : Nat)
    (hd : 1 ≤ d ∧ d ≤ 3) (hdef : defaultType = .simplex ∨ defaultType = .cube) :
    (d = 3 → DuneGeometryTypeProvider.type d defaultType (topologyId ⟨k, d⟩) = some ⟨k, d⟩) ∧
    (d = 2 → k = .simplex ∨ k = .cube →
      DuneGeometryTypeProvider.type d defaultType (topologyId ⟨k, d⟩) = some ⟨k, d⟩) ∧
    (d = 2 → k = .pyramid →
      DuneGeometryTypeProvider.type d defaultType (topologyId ⟨k, d⟩) = some ⟨.simplex, d⟩) ∧
    (d = 2 → k = .prism →
      DuneGeometryTypeProvider.type d defaultType (topologyId ⟨k, d⟩) = some ⟨.cube, d⟩) ∧
    (d = 1 →
      DuneGeometryTypeProvider.type d defaultType (topologyId ⟨k, d⟩)
        = some ⟨defaultType, d⟩) := by
  obtain ⟨h1, h3⟩ := hd
  interval_cases d <;> rcases hdef with rfl | rfl <;> cases k <;> decide

/-- Witness for C23: the prism of dimension 3 with default type simplex. -/
theorem topologyId_roundtrip_witness :
    (1 ≤ 3 ∧ 3 ≤ 3) ∧
    DuneGeometryTypeProvider.type 3 .simplex (topologyId ⟨.prism, 3⟩) = some ⟨.prism, 3⟩ :=
  ⟨by decide, (topologyId_roundtrip .prism .simplex 3 (by decide) (Or.inl rfl)).1 rfl⟩

/-- C24, counterexample: in dimension 1 the simplex and the pyramid both get the topology
id 0 and the cube and the prism both get the topology id 1. -/
theorem topologyId_not_injective_dim1 :
    topologyIdSwitch (.basic .simplex) 1 = .value 0 ∧
    topologyIdSwitch (.basic .pyramid) 1 = .value 0 ∧
    topologyIdSwitch (.basic .cube) 1 = .value 1 ∧
    topologyIdSwitch (.basic .prism) 1 = .value 1 := by
  decide

theorem topologyId_values (d : Nat) (h2 : 2 ≤ d) (h30 : d ≤ 30) :
    topologyId ⟨.simplex, d⟩ = 0 ∧ topologyId ⟨.cube, d⟩ = 2 ^ d - 1 ∧
    topologyId ⟨.pyramid, d⟩ = 2 ^ (d - 1) - 1 ∧ topologyId ⟨.prism, d⟩ = 2 ^ (d - 1) := by
  interval_cases d <;> decide

theorem topologyId_value_bounds (d : Nat) (h2 : 2 ≤ d) (h30 : d ≤ 30) :
    (0 : Nat) < 2 ^ (d - 1) - 1 ∧ 2 ^ (d - 1) < 2 ^ d - 1 := by
  interval_cases d <;> decide

/-- C24, amended: at every dimension `d` from 2 to 30 (the ids are computed by shifts of
a 32-bit `int`) `topologyId` gives the simplex, the cube, the pyramid and the prism the
ids 0, `2^d - 1`, `2^(d-1) - 1` and `2^(d-1)`, which are pairwise distinct and below
`2^d`, so it is injective on the four basic kinds; for a basic type that is none of the
four it raises `RangeError`. -/
theorem topologyId_injective_from_dim2 (d : Nat) (h2 : 2 ≤ d) (h30 : d ≤ 30) :
    topologyIdSwitch (.basic .simplex) d = .value 0 ∧
    topologyIdSwitch (.basic .cube) d = .value (2 ^ d - 1) ∧
    topologyIdSwitch (.basic .pyramid) d = .value (2 ^ (d - 1) - 1) ∧
    topologyIdSwitch (.basic .prism) d = .value (2 ^ (d - 1)) ∧
    (∀ k1 k2 : BasicType,
      topologyIdSwitch (.basic k1) d = topologyIdSwitch (.basic k2) d → k1 = k2) ∧
    (∀ k : BasicType, ∃ id, topologyIdSwitch (.basic k) d = .value id ∧ id < 2 ^ d) ∧
    (∀ value : Int, ∃ message, topologyIdSwitch (.other value) d = .RangeError message) := by
  obtain ⟨hs, hc, hp, hr⟩ := topologyId_values d h2 h30
  obtain ⟨hb1, hb2⟩ := topologyId_value_bounds d h2 h30
  have hpos : 0 < 2 ^ d := Nat.pow_pos (by decide)
  refine ⟨by simp [topologyIdSwitch, hs], by simp [topologyIdSwitch, hc],
    by simp [topologyIdSwitch, hp], by simp [topologyIdSwitch, hr], ?_, ?_, ?_⟩
  · intro k1 k2 h
    simp only [topologyIdSwitch, TopologyIdResult.value.injEq] at h
    cases k1 <;> cases k2 <;> simp only [hs, hc, hp, hr] at h <;> first | rfl | omega
  · intro k
    cases k
    · exact ⟨_, rfl, by rw [hs]; exact hpos⟩
    · exact ⟨_, rfl, by rw [hc]; omega⟩
    · exact ⟨_, rfl, by rw [hp]; omega⟩
    · exact ⟨_, rfl, by rw [hr]; omega⟩
  · intro value
    exact ⟨_, rfl⟩

/-- Witness for C24: dimension 3, with the ids 0, 7, 3 and 4. -/
theorem topologyId_injective_from_dim2_witness :
    (2 ≤ 3 ∧ 3 ≤ 30) ∧
    topologyIdSwitch (.basic .simplex) 3 = .value 0 ∧
    topologyIdSwitch (.basic .cube) 3 = .value (2 ^ 3 - 1) ∧
    topologyIdSwitch (.basic .pyramid) 3 = .value (2 ^ (3 - 1) - 1) ∧
    topologyIdSwitch (.basic .prism) 3 = .value (2 ^ (3 - 1)) :=
  ⟨by decide,
    (topologyId_injective_from_dim2 3 (by decide) (by decide)).1,
    (topologyId_injective_from_dim2 3 (by decide) (by decide)).2.1,
    (topologyId_injective_from_dim2 3 (by decide) (by decide)).2.2.1,
    (topologyId_injective_from_dim2 3 (by decide) (by decide)).2.2.2.1⟩

end GenericGeometry

end Dune

/-! ## Persistence of the ALBERTA hierarchic index set (indexsets.hh) -/

namespace Dune

namespace Alberta

theorem max_foldl_spec (array : Nat → Nat) (dofs : List Nat) (init : Nat) :
    init ≤ dofs.foldl (fun result d => Nat.max result (array d)) init ∧
    (∀ d ∈ dofs, array d ≤ dofs.foldl (fun result d => Nat.max result (array d)) init) ∧
    (dofs.foldl (fun result d => Nat.max result (array d)) init = init ∨
      ∃ d ∈ dofs, array d = dofs.foldl (fun result d => Nat.max result (array d)) init) := by
  induction dofs generalizing init with
  | nil => simp
  | cons x xs ih =>
    obtain ⟨h1, h2, h3⟩ := ih (Nat.max init (array x))
    simp only [List.foldl_cons]
    refine ⟨le_trans (Nat.le_max_left _ _) h1, ?_, ?_⟩
    · intro d hd
      rcases List.mem_cons.mp hd with rfl | hd
      · exact le_trans (Nat.le_max_right _ _) h1
      · exact h2 d hd
    · rcases h3 with h3 | ⟨d, hd, h3⟩
      · rcases Nat.le_total init (array x) with hle | hle
        · right
          refine ⟨x, List.mem_cons_self _ _, ?_⟩
          rw [h3]
          exact (Nat.max_eq_right hle).symm
        · left
          rw [h3]
          exact Nat.max_eq_left hle
      · exact Or.inr ⟨d, List.mem_cons_of_mem _ hd, h3⟩

/-- The maximum of a dof vector with at least one entry is an entry and bounds every
entry. -/
theorem max_spec (array : Nat → Nat) (dofs : List Nat) (hne : dofs ≠ []) :
    ∃ m, max array dofs = some m ∧ (∀ d ∈ dofs, array d ≤ m) ∧ ∃ d ∈ dofs, array d = m := by
  cases dofs with
  | nil => exact absurd rfl hne
  | cons x xs =>
    obtain ⟨h1, h2, h3⟩ := max_foldl_spec array xs (array x)
    refine ⟨_, rfl, ?_, ?_⟩
    · intro d hd
      rcases List.mem_cons.mp hd with rfl | hd
      · exact h1
      · exact h2 d hd
    · rcases h3 with h3 | ⟨d, hd, h3⟩
      · exact ⟨x, List.mem_cons_self _ _, h3.symm⟩
      · exact ⟨d, List.mem_cons_of_mem _ hd, h3⟩

end Alberta

namespace AlbertaGridHierarchicIndexSet

/-- The file names of different codimensions differ. -/
theorem codimFileName_injective (filename : String) (i j : Nat) (hi : i ≤ 3) (hj : j ≤ 3)
    (h : filename ++ ".cd" ++ toString i = filename ++ ".cd" ++ toString j) : i = j := by
  have hdata := congrArg String.data h
  simp only [String.data_append, List.append_cancel_left_eq] at hdata
  have hs : toString i = toString j := String.ext hdata
  interval_cases i <;> interval_cases j <;> first | rfl | exact absurd hs (by decide)

theorem write_fold (h : AlbertaGridHierarchicIndexSet) (filename : String)
    (files : Alberta.Files) (n : Nat) (hn : n ≤ 4) :
    ((List.range n).foldl
      (fun (state : Bool × Alberta.Files) i =>
        let s := filename ++ ".cd" ++ toString i
        let r := Alberta.DofVectorPointer.write (h.entityNumbers_ i) s state.2
        (state.1 && r.1, r.2))
      (true, files)).1 = true ∧
    ∀ c, c < n →
      ((List.range n).foldl
        (fun (state : Bool × Alberta.Files) i =>
          let s := filename ++ ".cd" ++ toString i
          let r := Alberta.DofVectorPointer.write (h.entityNumbers_ i) s state.2
          (state.1 && r.1, r.2))
        (true, files)).2 (filename ++ ".cd" ++ toString c) = some (h.entityNumbers_ c) := by
  induction n with
  | zero => exact ⟨rfl, fun c hc => absurd hc (Nat.not_lt_zero c)⟩
  | succ n ih =>
    obtain ⟨ih1, ih2⟩ := ih (by omega)
    rw [List.range_succ, List.foldl_append]
    simp only [List.foldl_cons, List.foldl_nil, Alberta.DofVectorPointer.write, Bool.and_true]
      at ih1 ih2 ⊢
    refine ⟨ih1, ?_⟩
    intro c hc
    by_cases hcn : c = n
    · subst hcn
      simp
    · have hne : filename ++ ".cd" ++ toString c ≠ filename ++ ".cd" ++ toString n :=
        fun heq => hcn (codimFileName_injective filename c n (by omega) (by omega) heq)
      rw [if_neg hne]
      exact ih2 c (by omega)

theorem read_fold (h0 : AlbertaGridHierarchicIndexSet) (filename : String)
    (usedDofs : Nat → List Nat) (files : Alberta.Files) (array : Nat → Nat → Nat)
    (m : Nat → Nat) (n : Nat)
    (hfiles : ∀ c, c < n → files (filename ++ ".cd" ++ toString c) = some (array c))
    (hmax : ∀ c, c < n → Alberta.max (array c) (usedDofs c) = some (m c)) :
    (List.range n).foldl
      (fun state codim =>
        state.bind (fun h =>
          h.CreateEntityNumbersFromFile codim filename (usedDofs codim) files))
      (some h0)
    = some
        { indexStack_ := fun c =>
            if c < n then (h0.indexStack_ c).setMaxIndex (m c + 1) else h0.indexStack_ c
          entityNumbers_ := fun c => if c < n then array c else h0.entityNumbers_ c } := by
  induction n with
  | zero => simp
  | succ n ih =>
    rw [List.range_succ, List.foldl_append,
      ih (fun c hc => hfiles c (by omega)) (fun c hc => hmax c (by omega))]
    simp only [List.foldl_cons, List.foldl_nil, Option.some_bind, CreateEntityNumbersFromFile,
      Alberta.DofVectorPointer.read, hfiles n (Nat.lt_succ_self n),
      hmax n (Nat.lt_succ_self n), Option.some.injEq]
    congr 1
    · funext c
      by_cases hcn : c = n
      · subst hcn
        simp
      · by_cases hlt : c < n
        · simp [hcn, hlt, Nat.lt_succ_of_lt hlt]
        · have : ¬ c < n + 1 := by omega
          simp [hcn, hlt, this]
    · funext c
      by_cases hcn : c = n
      · subst hcn
        simp
      · by_cases hlt : c < n
        · simp [hcn, hlt, Nat.lt_succ_of_lt hlt]
        · have : ¬ c < n + 1 := by omega
          simp [hcn, hlt, this]

end AlbertaGridHierarchicIndexSet

end Dune

namespace Dune

namespace AlbertaGridHierarchicIndexSet

/-- C25, counterexample: on the mesh `Examples.coarsenedMesh` the index set has
`size( 0 ) = 6` when it is written (the indices 4 and 5 are on the free list, the largest
index in use is 3); after `write` and `read` on the same mesh `size( 0 )` is 4. -/
theorem write_read_size_shrinks :
    Examples.coarsenedMesh.indexSet.size 0 = 6 ∧
    ((construct (fun _ _ => 0)).read 2 "grid" Examples.coarsenedMesh.live
        (Examples.coarsenedMesh.indexSet.write 2 "grid" Examples.noFiles).2).map
      (fun h => h.size 0) = some 4 := by
  decide

/-- C25, amended: `write( filename )` followed by `read( filename, mesh )` on the same
mesh (every codimension has a dof in use, the stored indices of codimension `c` are below
`size( c )`, the dimension is at most 3).  `write` succeeds and stores the numbering of
codimension `c` under `filename.cd<c>`; `read` finds the files, and afterwards the stored
index of every dof is the one written, the free list is the one the reading index set
had, and `size( c )` is the largest stored index plus one.  This is at most `size( c )` at
the time of writing, and equal to it iff the index `size( c ) - 1` was in use then. -/
theorem write_read_roundtrip (h h0 : AlbertaGridHierarchicIndexSet) (dimension : Nat)
    (filename : String) (files : Alberta.Files) (usedDofs : Nat → List Nat) (c : Nat)
    (hdim : dimension ≤ 3) (hc : c ≤ dimension)
    (hused : ∀ c, c ≤ dimension → usedDofs c ≠ [])
    (hbound : ∀ dof ∈ usedDofs c, h.entityNumbers_ c dof < h.size c) :
    (h.write dimension filename files).1 = true ∧
    (h.write dimension filename files).2 (filename ++ ".cd" ++ toString c)
      = some (h.entityNumbers_ c) ∧
    ∃ h1, h0.read dimension filename usedDofs (h.write dimension filename files).2 = some h1 ∧
      h1.entityNumbers_ c = h.entityNumbers_ c ∧
      (h1.indexStack_ c).freed = (h0.indexStack_ c).freed ∧
      (∃ dof ∈ usedDofs c, h1.size c = h.entityNumbers_ c dof + 1 ∧
        ∀ d ∈ usedDofs c, h.entityNumbers_ c d ≤ h.entityNumbers_ c dof) ∧
      h1.size c ≤ h.size c ∧
      (h1.size c = h.size c ↔ ∃ dof ∈ usedDofs c, h.entityNumbers_ c dof + 1 = h.size c) := by
  obtain ⟨hw1, hw2⟩ := write_fold h filename files (dimension + 1) (by omega)
  have hmax : ∀ c, c < dimension + 1 →
      Alberta.max (h.entityNumbers_ c) (usedDofs c)
        = some ((Alberta.max (h.entityNumbers_ c) (usedDofs c)).getD 0) := by
    intro c hc
    obtain ⟨m1, hm1, _⟩ := Alberta.max_spec (h.entityNumbers_ c) (usedDofs c)
      (hused c (by omega))
    rw [hm1]
    rfl
  have hr := read_fold h0 filename usedDofs (h.write dimension filename files).2
    h.entityNumbers_ (fun c => (Alberta.max (h.entityNumbers_ c) (usedDofs c)).getD 0)
    (dimension + 1) (fun c hc => hw2 c hc) hmax
  obtain ⟨m1, hm1, hle, d, hd, hdm⟩ := Alberta.max_spec (h.entityNumbers_ c) (usedDofs c)
    (hused c hc)
  have hlt : c < dimension + 1 := by omega
  refine ⟨hw1, hw2 c hlt, _, hr, ?_, ?_, ?_, ?_, ?_⟩
  · simp only [hlt, if_true]
  · simp only [hlt, if_true, Alberta.IndexStack.setMaxIndex]
  · refine ⟨d, hd, ?_, ?_⟩
    · simp only [size, Alberta.IndexStack.size, hlt, if_true, Alberta.IndexStack.setMaxIndex,
        hm1, Option.getD_some, hdm]
    · intro x hx
      rw [hdm]
      exact hle x hx
  · have := hbound d hd
    simp only [size, Alberta.IndexStack.size, hlt, if_true, Alberta.IndexStack.setMaxIndex,
      hm1, Option.getD_some] at this ⊢
    omega
  · have hb := hbound d hd
    simp only [size, Alberta.IndexStack.size, hlt, if_true, Alberta.IndexStack.setMaxIndex,
      hm1, Option.getD_some] at hb ⊢
    constructor
    · intro heq
      exact ⟨d, hd, by omega⟩
    · rintro ⟨x, hx, hxe⟩
      have := hle x hx
      omega

/-- Witness for C25: the numbering of `Examples.coarsenedMesh` is written and read back;
the indices come back, the size of codimension 0 does not grow. -/
theorem write_read_roundtrip_witness :
    (2 ≤ 3 ∧ 0 ≤ 2) ∧
    (Examples.coarsenedMesh.indexSet.write 2 "grid" Examples.noFiles).1 = true ∧
    ∃ h1, (construct (fun _ _ => 0)).read 2 "grid" Examples.coarsenedMesh.live
        (Examples.coarsenedMesh.indexSet.write 2 "grid" Examples.noFiles).2 = some h1 ∧
      h1.entityNumbers_ 0 = Examples.coarsenedMesh.indexSet.entityNumbers_ 0 ∧
      h1.size 0 ≤ Examples.coarsenedMesh.indexSet.size 0 :=
  ⟨by decide,
    (write_read_roundtrip Examples.coarsenedMesh.indexSet (construct (fun _ _ => 0)) 2 "grid"
      Examples.noFiles Examples.coarsenedMesh.live 0 (by decide) (by decide) (by decide)
      (by decide)).1,
    (write_read_roundtrip Examples.coarsenedMesh.indexSet (construct (fun _ _ => 0)) 2 "grid"
      Examples.noFiles Examples.coarsenedMesh.live 0 (by decide) (by decide) (by decide)
      (by decide)).2.2.imp (fun _ hh => ⟨hh.1, hh.2.1, hh.2.2.2.2.1⟩)⟩

end AlbertaGridHierarchicIndexSet

/-! ## ALU3d entity keys (entitykey.hh) -/

namespace ALU3dGridEntityKey

variable {KeyType : Type}

/-- What `equals` compares: the item pointers and the levels. -/
theorem entityKey_equals_iff [DecidableEq KeyType] (a b : ALU3dGridEntityKey KeyType) :
    a.equals b = true ↔ a.item_ = b.item_ ∧ a.level_ = b.level_ := by
  simp [equals, ALU3dGridEntityKeyBase.equals, level]

/-- C26: two keys of codimension 2 for the same item, one with level 0 and one with level
1, hold the same item pointer, but `equals` and `operator ==` return false and
`operator !=` returns true: the levels are compared as well. -/
theorem entityKey_equals_compares_level :
    (constructItem 2 (7 : Nat) 0 ALU3dGridEntityKeyBase.defaultValue
        ALU3dGridEntityKeyBase.defaultValue).bind (fun a =>
      (constructItem 2 (7 : Nat) 1 ALU3dGridEntityKeyBase.defaultValue
        ALU3dGridEntityKeyBase.defaultValue).map (fun b =>
          (decide (a.item_ = b.item_), a.equals b, a.eq b, a.ne b,
            ALU3dGridEntityKeyBase.equals a.toALU3dGridEntityKeyBase
              b.toALU3dGridEntityKeyBase)))
      = some (true, false, false, true, true) := by
  decide

end ALU3dGridEntityKey

end Dune

/-! ## ALU2d level intersection iterator: neighbour stack (iterator_imp.cc) -/

namespace Dune

namespace ALU2d

namespace ALU2dGridLevelIntersectionIterator

variable {HElementType : Type}

/-- For a face without neighbour `addNeighboursToStack` pushes nothing. -/
theorem addNeighboursToStack_boundary (ops : HElementAccess HElementType) (fuel : Nat)
    (it : ALU2dGridLevelIntersectionIterator HElementType) (item : HElementType)
    (hitem : it.current.item_ = some item) (hnb : ops.nbel item it.current.index_ = none) :
    addNeighboursToStack ops fuel it = .returns it := by
  simp only [addNeighboursToStack, hitem, hnb]

/-- For a neighbour at the walk level `addNeighboursToStack` pushes exactly that
neighbour. -/
theorem addNeighboursToStack_same_level (ops : HElementAccess HElementType) (fuel : Nat)
    (it : ALU2dGridLevelIntersectionIterator HElementType) (item neigh : HElementType)
    (hitem : it.current.item_ = some item)
    (hnb : ops.nbel item it.current.index_ = some neigh)
    (hlevel : ops.level neigh = it.walkLevel_) :
    addNeighboursToStack ops fuel it
      = .returns { it with neighbourStack_ :=
          (some neigh, ops.opposite item it.current.index_) :: it.neighbourStack_ } := by
  simp only [addNeighboursToStack, hitem, hnb, hlevel, if_true]

/-- The loop over the children is left at once when the first child has a sibling:
nothing is pushed. -/
theorem pushLoop_sibling (ops : HElementAccess HElementType) (tmp sibling : HElementType)
    (oppositeTmp : Int) (fuel : Nat) (stack : List (Option HElementType × Int))
    (hnext : ops.next tmp = some sibling) :
    pushLoop ops tmp oppositeTmp fuel stack = .returns stack := by
  cases fuel <;> simp [pushLoop, hnext]

/-- The loop over the children never ends when the first child has no sibling. -/
theorem pushLoop_no_sibling (ops : HElementAccess HElementType) (tmp : HElementType)
    (oppositeTmp : Int) (fuel : Nat) (stack : List (Option HElementType × Int))
    (hnext : ops.next tmp = none) :
    pushLoop ops tmp oppositeTmp fuel stack = .outOfFuel := by
  induction fuel generalizing stack with
  | zero => simp [pushLoop, hnext]
  | succ fuel ih =>
    simp only [pushLoop, hnext, Option.isNone_none, if_true]
    split_ifs <;> exact ih _

/-- On a face without neighbour `increment` takes the top of the empty stack. -/
theorem increment_boundary_face (ops : HElementAccess HElementType) (fuel : Nat)
    (it : ALU2dGridLevelIntersectionIterator HElementType) (item : HElementType)
    (hitem : it.current.item_ = some item) (hstack : it.neighbourStack_ = [])
    (hindex : it.current.index_ + 1 < it.nFaces_)
    (hnb : ops.nbel item (it.current.index_ + 1) = none) :
    increment ops fuel it = .fault .emptyStackTop := by
  have h1 : ¬ it.current.index_ ≥ it.nFaces_ := by omega
  have h2 : ¬ it.current.index_ + 1 ≥ it.nFaces_ := by omega
  simp only [increment, h1, h2, hstack, List.isEmpty_nil, if_true, if_false]
  rw [addNeighboursToStack_boundary ops fuel _ item (by exact hitem) (by exact hnb)]
  simp only [takeTop]

/-- C27: on `Examples.refinedNeighbour` face 1 of element 0 (level 1) borders element 2 of
level 0, whose children 4 and 5 have level 1; child 5 touches the face (with its face 0),
child 4 does not.  Called at this face with walk level 1 and an empty stack,
`addNeighboursToStack` returns with the stack still empty instead of holding the pair
(element 5, face 0). -/
theorem addNeighboursToStack_misses_children :
    (Examples.refinedNeighbour.nbel 0 1 = some 2 ∧ Examples.refinedNeighbour.opposite 0 1 = 1 ∧
      Examples.refinedNeighbour.level 2 = 0 ∧
      children Examples.refinedNeighbour 8 2 = [4, 5] ∧
      getOppositeInChild 1 (Examples.refinedNeighbour.nchild 4) = -1 ∧
      getOppositeInChild 1 (Examples.refinedNeighbour.nchild 5) = 0) ∧
    touchingChildren Examples.refinedNeighbour 8 2 1 = [(some 5, 0)] ∧
    (construct Examples.refinedNeighbour Examples.noInfo 0 1 false).map
      (fun it =>
        ((addNeighboursToStack Examples.refinedNeighbour 8
          { it with current := { it.current with index_ := 1 } }).result).map
          (fun it1 => (it1.walkLevel_, it1.current.item_, it1.current.index_,
            it1.neighbourStack_)))
      = some (some (1, some 0, 1, [])) :=
  ⟨⟨rfl, rfl, rfl, rfl, rfl, rfl⟩, rfl, rfl⟩

/-- C28: for face numbers `f`, `g` in {0, 1, 2} and a child number `c` in {0, 1},
`getOppositeInChild( f, c ) = g` implies `getOppositeInFather( g, c ) = f` and
`getOppositeInFather( g, c ) = f` implies `getOppositeInChild( f, c ) = g`; both functions
take their values in {-1, 0, 1, 2}. -/
theorem face_tables_mutually_inverse (f g c : Int) (hf : 0 ≤ f ∧ f ≤ 2)
    (hg : 0 ≤ g ∧ g ≤ 2) (hc : 0 ≤ c ∧ c ≤ 1) :
    (getOppositeInChild f c = g → getOppositeInFather g c = f) ∧
    (getOppositeInFather g c = f → getOppositeInChild f c = g) ∧
    getOppositeInChild f c ∈ [-1, 0, 1, 2] ∧
    getOppositeInFather g c ∈ [-1, 0, 1, 2] := by
  obtain ⟨hf0, hf2⟩ := hf
  obtain ⟨hg0, hg2⟩ := hg
  obtain ⟨hc0, hc1⟩ := hc
  interval_cases f <;> interval_cases g <;> interval_cases c <;> decide

/-- Witness for C28: face 0 of the father is face 1 of child 0. -/
theorem face_tables_mutually_inverse_witness :
    ((0 : Int) ≤ 0 ∧ (0 : Int) ≤ 2) ∧ ((0 : Int) ≤ 1 ∧ (1 : Int) ≤ 2) ∧
    getOppositeInChild 0 0 = 1 ∧ getOppositeInFather 1 0 = 0 :=
  ⟨by decide, by decide, rfl,
    (face_tables_mutually_inverse 0 1 0 (by decide) (by decide) (by decide)).1 rfl⟩

/-- C29: on `Examples.threeElements` the faces 0 and 1 of element 1 lie on the boundary.
The level intersection iterator constructed on element 1 with walk level 1 is not at
end and has an empty stack; `increment` moves to face 1, `addNeighboursToStack` pushes
nothing, and `top()` is taken of the empty stack. -/
theorem level_increment_reads_empty_stack :
    Examples.threeElements.nbel 1 1 = none ∧
    (construct Examples.threeElements Examples.noInfo 1 1 false).map
      (fun it => (it.done_, it.current.item_, it.current.index_, it.nFaces_,
        it.neighbourStack_)) = some (false, some 1, 0, 3, []) ∧
    (construct Examples.threeElements Examples.noInfo 1 1 false).map
      (fun it => (increment Examples.threeElements 8 it).failure)
      = some (some .emptyStackTop) :=
  ⟨rfl, rfl, rfl⟩

end ALU2dGridLevelIntersectionIterator

end ALU2d

/-! ## AlbertaGrid::AdaptationState: transitions as transformations of the object -/

namespace AlbertaGrid

namespace AdaptationState

/-- C30: `preAdapt()`, `adapt()` and `postAdapt()` seen as transformations of the object
agree with the outcomes of the calls; a call that raises `InvalidStateException` leaves
the phase and both counters as they were, and a successful `preAdapt()` or `adapt()`
changes the phase only. -/
theorem adaptation_transitions_atomic (s : AdaptationState) :
    ((preAdaptEffect s).outcome = preAdapt s ∧ (adaptEffect s).outcome = adapt s ∧
      (postAdaptEffect s).outcome = postAdapt s) ∧
    ((raises (preAdapt s) → (preAdaptEffect s).state = s) ∧
      (raises (adapt s) → (adaptEffect s).state = s) ∧
      (raises (postAdapt s) → (postAdaptEffect s).state = s)) ∧
    ((¬ raises (preAdapt s) →
        (preAdaptEffect s).state = { s with phase_ := .PreAdaptationPhase }) ∧
      (¬ raises (adapt s) →
        (adaptEffect s).state = { s with phase_ := .PostAdaptationPhase })) ∧
    ((preAdaptEffect s).state.coarsenMarked_ = s.coarsenMarked_ ∧
      (preAdaptEffect s).state.refineMarked_ = s.refineMarked_ ∧
      (adaptEffect s).state.coarsenMarked_ = s.coarsenMarked_ ∧
      (adaptEffect s).state.refineMarked_ = s.refineMarked_) := by
  refine ⟨⟨?_, ?_, ?_⟩, ⟨?_, ?_, ?_⟩, ⟨?_, ?_⟩, ⟨?_, ?_, ?_, ?_⟩⟩
  · unfold preAdaptEffect preAdapt; split_ifs <;> rfl
  · unfold adaptEffect adapt; split_ifs <;> rfl
  · unfold postAdaptEffect postAdapt; split_ifs <;> rfl
  · unfold preAdaptEffect preAdapt
    split_ifs
    · exact fun _ => rfl
    · exact fun hr => absurd hr (not_raises_ok _)
  · unfold adaptEffect adapt
    split_ifs
    · exact fun _ => rfl
    · exact fun hr => absurd hr (not_raises_ok _)
  · unfold postAdaptEffect postAdapt
    split_ifs
    · exact fun _ => rfl
    · exact fun hr => absurd hr (not_raises_ok _)
  · unfold preAdaptEffect preAdapt
    split_ifs
    · exact fun hr => absurd (raises_error _) hr
    · exact fun _ => rfl
  · unfold adaptEffect adapt
    split_ifs
    · exact fun hr => absurd (raises_error _) hr
    · exact fun _ => rfl
  · unfold preAdaptEffect; split_ifs <;> rfl
  · unfold preAdaptEffect; split_ifs <;> rfl
  · unfold adaptEffect; split_ifs <;> rfl
  · unfold adaptEffect; split_ifs <;> rfl

end AdaptationState

end AlbertaGrid

end Dune
